import Mathlib

/-!
# Rebol3 crypt port (`src/core/p-crypt.c`) and duplex ChaCha20-Poly1305 native
# (`src/core/n-crypt.c`): a shallow embedding and its properties

Conventions of the embedding.

* Bytes are natural numbers, byte buffers are lists of bytes.  The fixed-capacity arrays of
  `CRYPT_CTX` (`key`, `IV`, `nonce`, `unprocessed_data`) are lists holding the whole capacity,
  stale bytes included.
* The output series `ctx->buffer` is the list of its bytes below `SERIES_TAIL`; `none` is a
  `NULL` series pointer.
* The mbedTLS primitives are not part of the repository: they are the fields of `Prims`.
* A result `none` of a function returning `Option` stands for a run that has no result in C:
  a `NULL` dereference, a division by zero, or a loop that never ends.
* `Trap0`, `Trap1`, `Trap_Port`, `Trap_Action` do not return (they unwind to the interpreter);
  they are the `Outcome.trap` results.
-/

namespace Crypt

set_option autoImplicit false

/-! ## Constants and plain data -/

/-- Constant of `mbedtls/cipher.h` (external header): largest block length. -/
def MBEDTLS_MAX_BLOCK_LENGTH : Nat := 16

/-- Constant of `mbedtls/cipher.h` (external header): largest IV length. -/
def MBEDTLS_MAX_IV_LENGTH : Nat := 16

/-- Constant of `mbedtls/cipher.h` (external header): largest key length in bytes. -/
def MBEDTLS_MAX_KEY_LENGTH : Nat := 64

/-- Canonical symbols of words.  `other n` is any word that is none of the named ones. -/
inductive Sym where
  | SYM_AES_128_ECB | SYM_AES_192_ECB | SYM_AES_256_ECB
  | SYM_AES_128_CBC | SYM_AES_192_CBC | SYM_AES_256_CBC
  | SYM_CAMELLIA_128_ECB | SYM_CAMELLIA_192_ECB | SYM_CAMELLIA_256_ECB
  | SYM_CAMELLIA_128_CBC | SYM_CAMELLIA_192_CBC | SYM_CAMELLIA_256_CBC
  | SYM_ARIA_128_ECB | SYM_ARIA_192_ECB | SYM_ARIA_256_ECB
  | SYM_ARIA_128_CBC | SYM_ARIA_192_CBC | SYM_ARIA_256_CBC
  | SYM_CHACHA20 | SYM_CHACHA20_POLY1305
  | SYM_ENCRYPT | SYM_DECRYPT
  | SYM_ALGORITHM | SYM_DIRECTION | SYM_KEY | SYM_IV | SYM_INIT_VECTOR
  | other (n : Nat)
  deriving DecidableEq, Repr

/-- The part of a `REBVAL` the crypt code looks at.  A string is given by its UTF-8 encoding
(the result of `Encode_UTF8_Value`). -/
inductive REBVAL where
  | none
  | word (canon : Sym)
  | binary (bytes : List Nat)
  | string (utf8 : List Nat)
  | other (datatype : Nat)
  deriving DecidableEq, Repr

/-- Values of `mbedtls_operation_t` used by the port. -/
inductive Operation where
  | MBEDTLS_DECRYPT | MBEDTLS_ENCRYPT
  deriving DecidableEq, Repr

/-- The `CRYPT_PORT_*` states of a context. -/
inductive PortState where
  | CRYPT_PORT_CLOSED | CRYPT_PORT_NEEDS_INIT | CRYPT_PORT_READY | CRYPT_PORT_NEEDS_AAD
  deriving DecidableEq, Repr

/-- Return values of `Crypt_Write`: `CRYPT_OK` (0), one of the three `CRYPT_ERROR_*` codes, or the
non-zero error of a primitive's key setup. -/
inductive CryptResult where
  | CRYPT_OK
  | CRYPT_ERROR_BAD_BLOCK_SIZE
  | CRYPT_ERROR_BAD_UNPROCESSED_SIZE
  | CRYPT_ERROR_BAD_PROCESSED_SIZE
  | primitive (err : Int)
  deriving DecidableEq, Repr

/-- The context of a crypt port (`CRYPT_CTX` of `sys-crypt.h`), fields as used by `p-crypt.c`. -/
structure CRYPT_CTX (σ : Type) where
  cipher_ctx : Option σ
  cipher_type : Sym
  operation : Operation
  key_bitlen : Nat
  state : PortState
  buffer : Option (List Nat)
  cipher_block_size : Nat
  unprocessed_data : List Nat
  unprocessed_len : Nat
  IV : List Nat
  nonce : List Nat
  key : List Nat
  deriving DecidableEq, Repr

/-! ## Memory helpers -/

/-- `CLEAR(p, n)` on a whole array of capacity `n`. -/
def CLEAR (n : Nat) : List Nat := List.replicate n 0

/-- `COPY_MEM(dst + ofs, src, n)`: the array `dst` after the copy. -/
def COPY_MEM (dst : List Nat) (ofs : Nat) (src : List Nat) (n : Nat) : List Nat :=
  dst.take ofs ++ src.take n ++ dst.drop (ofs + n)

/-- `CLEAR(dst + ofs, n)`: the array `dst` after zeroing `n` bytes at `ofs`. -/
def CLEAR_AT (dst : List Nat) (ofs n : Nat) : List Nat :=
  dst.take ofs ++ List.replicate n 0 ++ dst.drop (ofs + n)

/-- The `n` bytes found at an output pointer after a primitive wrote the bytes `out` there. -/
def wr (n : Nat) (out : List Nat) : List Nat :=
  (out ++ List.replicate n 0).take n

/-- `for (i = 0; i < n; i++) dst[ofs + i] ^= src[i];` -/
def xor_at (dst : List Nat) (ofs : Nat) (src : List Nat) (n : Nat) : List Nat :=
  dst.take ofs ++ List.zipWith Nat.xor ((dst.drop ofs).take n) (src.take n) ++ dst.drop (ofs + n)

/-- Subtraction of two `REBCNT` (32-bit unsigned) values. -/
def sub32 (a b : Nat) : Nat := (a % 4294967296 + 4294967296 - b % 4294967296) % 4294967296

/-- The macro `MBEDTLS_GET_UINT32_BE(data, offset)`. -/
def MBEDTLS_GET_UINT32_BE (data : List Nat) (offset : Nat) : Nat :=
  ((((data.getD offset 0 % 256) <<< 24) % 4294967296)
    ||| (((data.getD (offset + 1) 0 % 256) <<< 16) % 4294967296)
    ||| (((data.getD (offset + 2) 0 % 256) <<< 8) % 4294967296)
    ||| (data.getD (offset + 3) 0 % 256))

/-! ## The mbedTLS primitives -/

/-- The mbedTLS functions called by `p-crypt.c`, over the memory `σ` of a primitive context.
Every function returns its `int` error first.  The block functions of AES, Camellia and ARIA
only read the key schedule; the CBC functions also return the updated IV; the ChaCha functions
return the updated context.  `malloc` is the content of freshly allocated memory. -/
structure Prims (σ : Type) where
  malloc : σ
  mbedtls_aes_init : σ → σ
  mbedtls_aes_setkey_enc : σ → List Nat → Nat → Int × σ
  mbedtls_aes_setkey_dec : σ → List Nat → Nat → Int × σ
  mbedtls_aes_crypt_ecb : σ → Operation → List Nat → Int × List Nat
  mbedtls_aes_crypt_cbc : σ → Operation → Nat → List Nat → List Nat → Int × List Nat × List Nat
  mbedtls_camellia_init : σ → σ
  mbedtls_camellia_setkey_enc : σ → List Nat → Nat → Int × σ
  mbedtls_camellia_setkey_dec : σ → List Nat → Nat → Int × σ
  mbedtls_camellia_crypt_ecb : σ → Operation → List Nat → Int × List Nat
  mbedtls_camellia_crypt_cbc :
    σ → Operation → Nat → List Nat → List Nat → Int × List Nat × List Nat
  mbedtls_aria_init : σ → σ
  mbedtls_aria_setkey_enc : σ → List Nat → Nat → Int × σ
  mbedtls_aria_setkey_dec : σ → List Nat → Nat → Int × σ
  mbedtls_aria_crypt_ecb : σ → List Nat → Int × List Nat
  mbedtls_aria_crypt_cbc : σ → Operation → Nat → List Nat → List Nat → Int × List Nat × List Nat
  mbedtls_chacha20_init : σ → σ
  mbedtls_chacha20_setkey : σ → List Nat → Int × σ
  mbedtls_chacha20_starts : σ → List Nat → Nat → Int × σ
  mbedtls_chacha20_update : σ → Nat → List Nat → Int × σ × List Nat
  mbedtls_chachapoly_init : σ → σ
  mbedtls_chachapoly_setkey : σ → List Nat → Int × σ
  mbedtls_chachapoly_starts : σ → List Nat → Operation → Int × σ
  mbedtls_chachapoly_update_aad : σ → List Nat → Nat → Int × σ
  mbedtls_chachapoly_update : σ → Nat → List Nat → Int × σ × List Nat
  mbedtls_chachapoly_finish : σ → Int × σ × List Nat

/-! ## Classification of the cipher symbols (the `case` labels of the source) -/

/-- The `case` labels `SYM_AES_*_ECB`. -/
def is_aes_ecb : Sym → Bool
  | .SYM_AES_128_ECB | .SYM_AES_192_ECB | .SYM_AES_256_ECB => true
  | _ => false

/-- The `case` labels `SYM_AES_*_CBC`. -/
def is_aes_cbc : Sym → Bool
  | .SYM_AES_128_CBC | .SYM_AES_192_CBC | .SYM_AES_256_CBC => true
  | _ => false

/-- The `case` labels `SYM_CAMELLIA_*_ECB`. -/
def is_camellia_ecb : Sym → Bool
  | .SYM_CAMELLIA_128_ECB | .SYM_CAMELLIA_192_ECB | .SYM_CAMELLIA_256_ECB => true
  | _ => false

/-- The `case` labels `SYM_CAMELLIA_*_CBC`. -/
def is_camellia_cbc : Sym → Bool
  | .SYM_CAMELLIA_128_CBC | .SYM_CAMELLIA_192_CBC | .SYM_CAMELLIA_256_CBC => true
  | _ => false

/-- The `case` labels `SYM_ARIA_*_ECB`. -/
def is_aria_ecb : Sym → Bool
  | .SYM_ARIA_128_ECB | .SYM_ARIA_192_ECB | .SYM_ARIA_256_ECB => true
  | _ => false

/-- The `case` labels `SYM_ARIA_*_CBC`. -/
def is_aria_cbc : Sym → Bool
  | .SYM_ARIA_128_CBC | .SYM_ARIA_192_CBC | .SYM_ARIA_256_CBC => true
  | _ => false

/-- The inner `switch (type)` of `init_crypt_algorithm` that sets `key_bitlen`; a symbol the
inner switch does not list leaves the old value. -/
def key_bitlen_of (type : Sym) (old : Nat) : Nat :=
  match type with
  | .SYM_AES_128_ECB | .SYM_AES_128_CBC => 128
  | .SYM_AES_192_ECB | .SYM_AES_192_CBC => 192
  | .SYM_AES_256_ECB | .SYM_AES_256_CBC => 256
  | .SYM_CAMELLIA_128_ECB | .SYM_CAMELLIA_128_CBC => 128
  | .SYM_CAMELLIA_192_ECB | .SYM_CAMELLIA_192_CBC => 192
  | .SYM_CAMELLIA_256_ECB | .SYM_CAMELLIA_256_CBC => 256
  | .SYM_ARIA_128_ECB | .SYM_ARIA_128_CBC => 128
  | .SYM_ARIA_192_ECB | .SYM_ARIA_192_CBC => 192
  | .SYM_ARIA_256_ECB | .SYM_ARIA_256_CBC => 256
  | _ => old

/-! ## Configuration functions -/

section Config

variable {σ : Type}

/-- `init_crypt_key(ctx, val)`; `val = none` is the `NULL` pointer. -/
def init_crypt_key (ctx : CRYPT_CTX σ) (val : Option REBVAL) : Bool × CRYPT_CTX σ :=
  match val with
  | Option.none => (false, ctx)
  | some v =>
    let ctx := { ctx with state := PortState.CRYPT_PORT_NEEDS_INIT }
    match v with
    | REBVAL.none => (true, { ctx with key := CLEAR MBEDTLS_MAX_KEY_LENGTH })
    | REBVAL.string bin | REBVAL.binary bin =>
      if bin.length > 0 then
        let len := if bin.length > MBEDTLS_MAX_KEY_LENGTH then MBEDTLS_MAX_KEY_LENGTH
                   else bin.length
        (true, { ctx with key := COPY_MEM (CLEAR MBEDTLS_MAX_KEY_LENGTH) 0 bin len })
      else (false, ctx)
    | _ => (false, ctx)

/-- `init_crypt_iv(ctx, val)`; `val = none` is the `NULL` pointer. -/
def init_crypt_iv (ctx : CRYPT_CTX σ) (val : Option REBVAL) : Bool × CRYPT_CTX σ :=
  match val with
  | Option.none => (false, ctx)
  | some v =>
    let ctx := { ctx with state := PortState.CRYPT_PORT_NEEDS_INIT }
    match v with
    | REBVAL.none =>
      (true, { ctx with IV := CLEAR MBEDTLS_MAX_IV_LENGTH, nonce := CLEAR MBEDTLS_MAX_IV_LENGTH })
    | REBVAL.binary bin =>
      if bin.length > 0 then
        let len := if bin.length > MBEDTLS_MAX_IV_LENGTH then MBEDTLS_MAX_IV_LENGTH
                   else bin.length
        (true, { ctx with IV := COPY_MEM (CLEAR MBEDTLS_MAX_IV_LENGTH) 0 bin len,
                          nonce := CLEAR MBEDTLS_MAX_IV_LENGTH })
      else (true, ctx)
    | _ => (false, ctx)

/-- `init_crypt_direction(ctx, val)`; `val = none` is the `NULL` pointer. -/
def init_crypt_direction (ctx : CRYPT_CTX σ) (val : Option REBVAL) : Bool × CRYPT_CTX σ :=
  match val with
  | some (REBVAL.word w) =>
    let ctx := { ctx with state := PortState.CRYPT_PORT_NEEDS_INIT }
    match w with
    | Sym.SYM_ENCRYPT => (true, { ctx with operation := Operation.MBEDTLS_ENCRYPT })
    | Sym.SYM_DECRYPT => (true, { ctx with operation := Operation.MBEDTLS_DECRYPT })
    | _ => (false, ctx)
  | _ => (false, ctx)

/-- `free_crypt_cipher_context(ctx)`: the primitive's `free` and `free(ctx->cipher_ctx)` leave
no trace but the `NULL` pointer. -/
def free_crypt_cipher_context (ctx : CRYPT_CTX σ) : CRYPT_CTX σ :=
  match ctx.cipher_ctx with
  | Option.none => ctx
  | some _ => { ctx with state := PortState.CRYPT_PORT_CLOSED, cipher_ctx := Option.none }

/-- `init_crypt_algorithm(ctx, val)`, all `MBEDTLS_*_C` options enabled. -/
def init_crypt_algorithm (P : Prims σ) (ctx : CRYPT_CTX σ) (val : REBVAL) :
    Bool × CRYPT_CTX σ :=
  match val with
  | REBVAL.word type =>
    let ctx := if type ≠ ctx.cipher_type then free_crypt_cipher_context ctx else ctx
    let ctx := { ctx with state := PortState.CRYPT_PORT_NEEDS_INIT }
    let ctx :=
      if is_aes_ecb type || is_aes_cbc type then
        { ctx with cipher_ctx := some (P.mbedtls_aes_init (ctx.cipher_ctx.getD P.malloc)),
                   key_bitlen := key_bitlen_of type ctx.key_bitlen,
                   cipher_block_size := 16 }
      else if is_camellia_ecb type || is_camellia_cbc type then
        { ctx with cipher_ctx := some (ctx.cipher_ctx.getD P.malloc),
                   key_bitlen := key_bitlen_of type ctx.key_bitlen,
                   cipher_block_size := 16 }
      else if is_aria_ecb type || is_aria_cbc type then
        { ctx with cipher_ctx := some (ctx.cipher_ctx.getD P.malloc),
                   key_bitlen := key_bitlen_of type ctx.key_bitlen,
                   cipher_block_size := 16 }
      else if type = Sym.SYM_CHACHA20 then
        { ctx with cipher_ctx := some (P.mbedtls_chacha20_init (ctx.cipher_ctx.getD P.malloc)),
                   cipher_block_size := 16 }
      else if type = Sym.SYM_CHACHA20_POLY1305 then
        { ctx with cipher_ctx := some (P.mbedtls_chachapoly_init (ctx.cipher_ctx.getD P.malloc)),
                   cipher_block_size := 0 }
      else ctx
    (true, { ctx with cipher_type := type })
  | _ => (false, ctx)

end Config

/-! ## The transform: `Crypt_Crypt`, `Crypt_Init`, `Crypt_Write` -/

section Pipeline

variable {σ : Type}

/-- The loop `for (ofs = 0; ofs <= len - blk; ofs += blk)` of the ECB cases of `Crypt_Crypt`:
`crypt` is the primitive's block function on the 16 bytes at `input`; the result is the error,
the output series and the number of input bytes consumed.  The first argument bounds the number
of iterations; `none` is a loop that did not end within the bound. -/
def ecb_loop (crypt : List Nat → Int × List Nat) (blk len : Nat) :
    Nat → Nat → List Nat → List Nat → Nat → Option (Int × List Nat × Nat)
  | 0, _, _, _, _ => Option.none
  | fuel + 1, ofs, input, bin, used =>
    if ofs ≤ len - blk then
      let r := crypt (input.take 16)
      if r.1 ≠ 0 then some (r.1, bin, used)
      else ecb_loop crypt blk len fuel (ofs + blk) (input.drop blk) (bin ++ wr blk r.2)
        (used + blk)
    else some (0, bin, used)

/-- The body of the three ECB cases of `Crypt_Crypt` (lines 426-431, 449-454, 474-479), which
differ in the block function `crypt` only.  `bin` is the output series. -/
def ecb_case (crypt : List Nat → Int × List Nat) (ctx : CRYPT_CTX σ) (bin input : List Nat)
    (len : Nat) : Option (Int × CRYPT_CTX σ × Nat) :=
  match ecb_loop crypt ctx.cipher_block_size len (len + 1) 0 input bin 0 with
  | Option.none => Option.none
  | some (err, bin1, used) =>
    if err ≠ 0 then some (err, { ctx with buffer := some bin1 }, 0)
    else some (0, { ctx with buffer := some bin1 }, used)

/-- The body of the AES CBC case of `Crypt_Crypt` (lines 437-441): the primitive works on
`ctx->IV` and on `len - (len % 16)` bytes. -/
def aes_cbc_case (P : Prims σ) (s : σ) (ctx : CRYPT_CTX σ) (bin input : List Nat) (len : Nat) :
    Option (Int × CRYPT_CTX σ × Nat) :=
  let blk := len - (len % 16)
  let r := P.mbedtls_aes_crypt_cbc s ctx.operation blk ctx.IV (input.take blk)
  let ctx := { ctx with IV := wr MBEDTLS_MAX_IV_LENGTH r.2.1 }
  if r.1 ≠ 0 then some (r.1, ctx, 0)
  else some (0, { ctx with buffer := some (bin ++ wr blk r.2.2) }, blk)

/-- The body of the Camellia and ARIA CBC cases of `Crypt_Crypt` (lines 460-464, 485-489), which
differ in the primitive `crypt_cbc` only: it works on `ctx->nonce` and on `len - (len % blk)`
bytes. -/
def nonce_cbc_case
    (crypt_cbc : Operation → Nat → List Nat → List Nat → Int × List Nat × List Nat)
    (ctx : CRYPT_CTX σ) (bin input : List Nat) (len : Nat) :
    Option (Int × CRYPT_CTX σ × Nat) :=
  if ctx.cipher_block_size = 0 then Option.none else
  let blk := len - (len % ctx.cipher_block_size)
  let r := crypt_cbc ctx.operation blk ctx.nonce (input.take blk)
  let ctx := { ctx with nonce := wr MBEDTLS_MAX_IV_LENGTH r.2.1 }
  if r.1 ≠ 0 then some (r.1, ctx, 0)
  else some (0, { ctx with buffer := some (bin ++ wr blk r.2.2) }, blk)

/-- The body of the ChaCha20 case of `Crypt_Crypt` (lines 497-500). -/
def chacha20_case (P : Prims σ) (s : σ) (ctx : CRYPT_CTX σ) (bin input : List Nat) (len : Nat) :
    Option (Int × CRYPT_CTX σ × Nat) :=
  let r := P.mbedtls_chacha20_update s len (input.take len)
  let ctx := { ctx with cipher_ctx := some r.2.1 }
  if r.1 ≠ 0 then some (r.1, ctx, 0)
  else some (0, { ctx with buffer := some (bin ++ wr len r.2.2) }, len)

/-- The body of the ChaCha20-Poly1305 case of `Crypt_Crypt` (lines 506-535). -/
def chachapoly_case (P : Prims σ) (s : σ) (ctx : CRYPT_CTX σ) (bin input : List Nat)
    (len : Nat) : Option (Int × CRYPT_CTX σ × Nat) :=
  if ctx.state = PortState.CRYPT_PORT_NEEDS_AAD then
    let dynamic_iv_len := if len < 8 then len else 8
    let dst_iv := COPY_MEM (CLEAR_AT ctx.nonce 0 12) 0 ctx.IV 12
    let dst_iv := xor_at dst_iv (12 - dynamic_iv_len) input dynamic_iv_len
    let ctx := { ctx with nonce := dst_iv }
    let r := P.mbedtls_chachapoly_starts s ctx.nonce ctx.operation
    let ctx := { ctx with cipher_ctx := some r.2 }
    if r.1 ≠ 0 then some (r.1, ctx, 0) else
    let r := P.mbedtls_chachapoly_update_aad r.2 (input.take len) len
    let ctx := { ctx with cipher_ctx := some r.2 }
    if r.1 ≠ 0 then some (r.1, ctx, 0) else
    some (0, { ctx with state := PortState.CRYPT_PORT_READY }, len)
  else
    let r := P.mbedtls_chachapoly_update s len (input.take len)
    let ctx := { ctx with cipher_ctx := some r.2.1 }
    if r.1 ≠ 0 then some (r.1, ctx, 0)
    else some (0, { ctx with buffer := some (bin ++ wr len r.2.2) }, len)

/-- The `switch (ctx->cipher_type)` of `Crypt_Crypt` for a cipher context at `s` and the output
series `bin`; a type that is no `case` label falls through with `olen = 0`. -/
def Crypt_Crypt_switch (P : Prims σ) (s : σ) (ctx : CRYPT_CTX σ) (bin input : List Nat)
    (len : Nat) : Option (Int × CRYPT_CTX σ × Nat) :=
  let type := ctx.cipher_type
  if is_aes_ecb type then ecb_case (P.mbedtls_aes_crypt_ecb s ctx.operation) ctx bin input len
  else if is_aes_cbc type then aes_cbc_case P s ctx bin input len
  else if is_camellia_ecb type then
    ecb_case (P.mbedtls_camellia_crypt_ecb s ctx.operation) ctx bin input len
  else if is_camellia_cbc type then
    nonce_cbc_case (P.mbedtls_camellia_crypt_cbc s) ctx bin input len
  else if is_aria_ecb type then ecb_case (P.mbedtls_aria_crypt_ecb s) ctx bin input len
  else if is_aria_cbc type then nonce_cbc_case (P.mbedtls_aria_crypt_cbc s) ctx bin input len
  else if type = Sym.SYM_CHACHA20 then chacha20_case P s ctx bin input len
  else if type = Sym.SYM_CHACHA20_POLY1305 then chachapoly_case P s ctx bin input len
  else some (0, ctx, 0)

/-- The cipher symbols that are `case` labels of the switches of `Crypt_Crypt` and
`Crypt_Init`. -/
def is_cipher (type : Sym) : Bool :=
  is_aes_ecb type || is_aes_cbc type || is_camellia_ecb type || is_camellia_cbc type
    || is_aria_ecb type || is_aria_cbc type || type = Sym.SYM_CHACHA20
    || type = Sym.SYM_CHACHA20_POLY1305

/-- `Crypt_Crypt(ctx, input, len, &olen)`: the error, the context afterwards and `olen`.
Every `case` hands `ctx->cipher_ctx` to its primitive, which has no result for `NULL`. -/
def Crypt_Crypt (P : Prims σ) (ctx : CRYPT_CTX σ) (input : List Nat) (len : Nat) :
    Option (Int × CRYPT_CTX σ × Nat) :=
  if len = 0 then some (0, ctx, 0) else
  if ctx.cipher_block_size > 0 ∧ len < ctx.cipher_block_size then some (0, ctx, 0) else
  match ctx.buffer with
  | Option.none => Option.none
  | some bin =>
    if is_cipher ctx.cipher_type then
      match ctx.cipher_ctx with
      | Option.none => Option.none
      | some s => Crypt_Crypt_switch P s ctx bin input len
    else some (0, ctx, 0)

/-- The key setup of the AES, Camellia and ARIA cases of `Crypt_Init`: `setkey_enc` or
`setkey_dec` by the direction, on the key and `key_bitlen` of the context. -/
def setkey_case (setkey_enc setkey_dec : σ → List Nat → Nat → Int × σ) (s : σ)
    (ctx : CRYPT_CTX σ) : Int × σ :=
  if ctx.operation = Operation.MBEDTLS_ENCRYPT then setkey_enc s ctx.key ctx.key_bitlen
  else setkey_dec s ctx.key ctx.key_bitlen

/-- The `switch (ctx->cipher_type)` of `Crypt_Init` and what follows it, for a cipher context
at `s`. -/
def Crypt_Init_switch (P : Prims σ) (s : σ) (ctx : CRYPT_CTX σ) : Int × CRYPT_CTX σ :=
  let type := ctx.cipher_type
  if is_aes_ecb type || is_aes_cbc type then
    let r := setkey_case P.mbedtls_aes_setkey_enc P.mbedtls_aes_setkey_dec s ctx
    let ctx := { ctx with cipher_ctx := some r.2 }
    if r.1 ≠ 0 then (r.1, ctx) else (0, { ctx with state := PortState.CRYPT_PORT_READY })
  else if is_camellia_ecb type || is_camellia_cbc type then
    let r := setkey_case P.mbedtls_camellia_setkey_enc P.mbedtls_camellia_setkey_dec
               (P.mbedtls_camellia_init s) ctx
    let ctx := { ctx with cipher_ctx := some r.2,
                          nonce := COPY_MEM ctx.nonce 0 ctx.IV MBEDTLS_MAX_IV_LENGTH }
    if r.1 ≠ 0 then (r.1, ctx) else (0, { ctx with state := PortState.CRYPT_PORT_READY })
  else if is_aria_ecb type || is_aria_cbc type then
    let r := setkey_case P.mbedtls_aria_setkey_enc P.mbedtls_aria_setkey_dec
               (P.mbedtls_aria_init s) ctx
    let ctx := { ctx with cipher_ctx := some r.2,
                          nonce := COPY_MEM ctx.nonce 0 ctx.IV MBEDTLS_MAX_IV_LENGTH }
    if r.1 ≠ 0 then (r.1, ctx) else (0, { ctx with state := PortState.CRYPT_PORT_READY })
  else if type = Sym.SYM_CHACHA20 then
    let r := P.mbedtls_chacha20_setkey s ctx.key
    let ctx := { ctx with cipher_ctx := some r.2 }
    if r.1 ≠ 0 then (r.1, ctx) else
    let counter := MBEDTLS_GET_UINT32_BE ctx.IV 12
    let r := P.mbedtls_chacha20_starts r.2 ctx.IV counter
    let ctx := { ctx with cipher_ctx := some r.2 }
    if r.1 ≠ 0 then (r.1, ctx) else (0, { ctx with state := PortState.CRYPT_PORT_READY })
  else if type = Sym.SYM_CHACHA20_POLY1305 then
    let r := P.mbedtls_chachapoly_setkey s ctx.key
    let ctx := { ctx with cipher_ctx := some r.2 }
    if r.1 ≠ 0 then (r.1, ctx) else (0, { ctx with state := PortState.CRYPT_PORT_NEEDS_AAD })
  else (0, { ctx with state := PortState.CRYPT_PORT_READY })

/-- `Crypt_Init(ctx)`: the error and the context afterwards.  Every `case` hands
`ctx->cipher_ctx` to its primitive, which has no result for `NULL`. -/
def Crypt_Init (P : Prims σ) (ctx : CRYPT_CTX σ) : Option (Int × CRYPT_CTX σ) :=
  match ctx.buffer with
  | Option.none => Option.none
  | some _ =>
    let ctx := { ctx with buffer := some [],
                          unprocessed_data := CLEAR MBEDTLS_MAX_BLOCK_LENGTH,
                          unprocessed_len := 0 }
    if is_cipher ctx.cipher_type then
      match ctx.cipher_ctx with
      | Option.none => Option.none
      | some s => some (Crypt_Init_switch P s ctx)
    else some (0, { ctx with state := PortState.CRYPT_PORT_READY })

/-- The part of `Crypt_Write` after the test `if (len > 0)` at the end: the tail of the input
goes to the unprocessed buffer.  Note that `input` is the pointer as it was before the call of
`Crypt_Crypt`: the source does not advance it by `olen`. -/
def Crypt_Write_tail (ctx : CRYPT_CTX σ) (input : List Nat) (len : Nat) :
    CryptResult × CRYPT_CTX σ :=
  if len > 0 then
    if len > MBEDTLS_MAX_BLOCK_LENGTH then (CryptResult.CRYPT_ERROR_BAD_UNPROCESSED_SIZE, ctx)
    else (CryptResult.CRYPT_OK,
          { ctx with unprocessed_data := COPY_MEM ctx.unprocessed_data 0 input len,
                     unprocessed_len := len })
  else (CryptResult.CRYPT_OK, ctx)

/-- The part of `Crypt_Write` from `if (len == 0) return CRYPT_OK;` (line 687) on; `blk` is the
local variable set at line 662. -/
def Crypt_Write_direct (P : Prims σ) (ctx : CRYPT_CTX σ) (blk : Nat) (input : List Nat)
    (len : Nat) : Option (CryptResult × CRYPT_CTX σ) :=
  if len = 0 then some (CryptResult.CRYPT_OK, ctx) else
  if len > blk then
    match Crypt_Crypt P ctx input len with
    | Option.none => Option.none
    | some (_, ctx1, olen) =>
      if olen > len then some (CryptResult.CRYPT_ERROR_BAD_PROCESSED_SIZE, ctx1)
      else some (Crypt_Write_tail ctx1 input (len - olen))
  else some (Crypt_Write_tail ctx input len)

/-- The part of `Crypt_Write` from `blk = ctx->cipher_block_size;` (line 662) on.  The results
of the two calls of `Crypt_Crypt` are not looked at, as in the source. -/
def Crypt_Write_body (P : Prims σ) (ctx : CRYPT_CTX σ) (input : List Nat) (len : Nat) :
    Option (CryptResult × CRYPT_CTX σ) :=
  let blk := ctx.cipher_block_size
  if blk > MBEDTLS_MAX_BLOCK_LENGTH then some (CryptResult.CRYPT_ERROR_BAD_BLOCK_SIZE, ctx) else
  let unprocessed_free := sub32 blk ctx.unprocessed_len
  let short := decide (len < unprocessed_free)
  let ctx :=
    if short then
      { ctx with unprocessed_data := COPY_MEM ctx.unprocessed_data ctx.unprocessed_len input len,
                 unprocessed_len := ctx.unprocessed_len + len }
    else ctx
  if short ∧ ctx.unprocessed_len < blk then some (CryptResult.CRYPT_OK, ctx) else
  if ctx.unprocessed_len > 0 then
    if ctx.unprocessed_len > blk then some (CryptResult.CRYPT_ERROR_BAD_UNPROCESSED_SIZE, ctx)
    else
      let ctx := { ctx with unprocessed_data :=
                     COPY_MEM ctx.unprocessed_data ctx.unprocessed_len input unprocessed_free }
      match Crypt_Crypt P ctx ctx.unprocessed_data blk with
      | Option.none => Option.none
      | some (_, ctx1, _) =>
        Crypt_Write_direct P { ctx1 with unprocessed_len := 0 } blk
          (input.drop unprocessed_free) (sub32 len unprocessed_free)
  else Crypt_Write_direct P ctx blk input len

/-- `Crypt_Write(ctx, input, len)` with `len` the length of `input`: the return value and the
context afterwards. -/
def Crypt_Write (P : Prims σ) (ctx : CRYPT_CTX σ) (input : List Nat) :
    Option (CryptResult × CRYPT_CTX σ) :=
  let len := input.length
  if len = 0 then some (CryptResult.CRYPT_OK, ctx) else
  if ctx.state = PortState.CRYPT_PORT_NEEDS_INIT then
    match Crypt_Init P ctx with
    | Option.none => Option.none
    | some (err, ctx1) =>
      if err ≠ 0 then some (CryptResult.primitive err, ctx1)
      else Crypt_Write_body P ctx1 input len
  else Crypt_Write_body P ctx input len

end Pipeline

/-! ## The port: `Crypt_Open` and `Crypt_Actor` -/

/-- The fields of the port's spec object read by `Crypt_Open` (results of `Obj_Value`; `none` is
the `NULL` pointer). -/
structure PortSpec where
  algorithm : Option REBVAL
  init_vector : Option REBVAL
  key : Option REBVAL
  direction : Option REBVAL
  deriving DecidableEq, Repr

/-- The value in the port's `STD_PORT_STATE` slot: not a handle (e.g. `none`), a handle of
another type, or a handle of type `SYM_CRYPT` with its context data. -/
inductive StateVal (σ : Type) where
  | not_handle
  | other_handle
  | crypt (ctx : CRYPT_CTX σ)
  deriving DecidableEq, Repr

/-- A port object: its spec (`none` when the spec slot holds no object) and its state slot. -/
structure Port (σ : Type) where
  spec : Option PortSpec
  state : StateVal σ
  deriving DecidableEq, Repr

/-- Port actions with their arguments; `A_OTHER n` is any action the actor does not list. -/
inductive Action where
  | A_OPEN
  | A_WRITE (arg1 : REBVAL)
  | A_READ
  | A_TAKE
  | A_UPDATE
  | A_CLOSE
  | A_OPENQ
  | A_MODIFY (arg1 arg2 : REBVAL)
  | A_OTHER (n : Nat)
  deriving DecidableEq, Repr

/-- Error identifiers raised through `Trap0`, `Trap1`, `Trap_Port` and `Trap_Action`. -/
inductive Trap where
  | RE_INVALID_SPEC | RE_INVALID_PORT | RE_ALREADY_OPEN | RE_CANNOT_OPEN | RE_NOT_OPEN
  | RE_FEATURE_NA | RE_INVALID_ARG | RE_INVALID_DATA | RE_INVALID_HANDLE | NO_ACTION
  deriving DecidableEq, Repr

/-- Normal return codes of a native or actor; `R_RET out` returns the binary `out` through
`D_RET`, `C_FALSE` is the statement `return FALSE;` (the C constant, not `R_FALSE`). -/
inductive Ret where
  | R_ARG1 | R_NONE | R_TRUE | R_FALSE | R_RET (out : List Nat) | C_FALSE
  deriving DecidableEq, Repr

/-- How a call of the actor ends: a return code, a raised error, or `abort()`. -/
inductive Outcome where
  | ret (r : Ret)
  | trap (e : Trap)
  | abort
  deriving DecidableEq, Repr

section PortActor

variable {σ : Type}

/-- `Crypt_Open(port)`.  `new_ctx` is the context data of the handle made by `MAKE_HANDLE`
(the macro is not in the sources at hand).  The result is `none` when the algorithm field is a
`NULL` pointer, else the raised error (if any) and the port afterwards. -/
def Crypt_Open (P : Prims σ) (new_ctx : CRYPT_CTX σ) (port : Port σ) :
    Option (Option Trap × Port σ) :=
  match port.spec with
  | Option.none => some (some Trap.RE_INVALID_SPEC, port)
  | some spec =>
    match spec.algorithm with
    | Option.none => Option.none
    | some alg =>
      let r := init_crypt_algorithm P new_ctx alg
      if !r.1 then some (some Trap.RE_INVALID_SPEC, { port with state := StateVal.crypt r.2 })
      else
      let r := init_crypt_iv r.2 spec.init_vector
      if !r.1 then some (some Trap.RE_INVALID_SPEC, { port with state := StateVal.crypt r.2 })
      else
      let spec := { spec with init_vector := some REBVAL.none }
      let r := init_crypt_key r.2 spec.key
      if !r.1 then
        some (some Trap.RE_INVALID_SPEC, { spec := some spec, state := StateVal.crypt r.2 })
      else
      let spec := { spec with key := some REBVAL.none }
      let r := init_crypt_direction r.2 spec.direction
      if !r.1 then
        some (some Trap.RE_INVALID_SPEC, { spec := some spec, state := StateVal.crypt r.2 })
      else
      some (Option.none,
            { spec := some spec,
              state := StateVal.crypt { r.2 with buffer := some [],
                                                 state := PortState.CRYPT_PORT_NEEDS_INIT } })

/-- The `A_UPDATE` case of `Crypt_Actor` on the context `ctx`. -/
def Crypt_Update (P : Prims σ) (ctx : CRYPT_CTX σ) : Option (Outcome × CRYPT_CTX σ) :=
  if ctx.cipher_type = Sym.SYM_CHACHA20_POLY1305 then
    match ctx.buffer, ctx.cipher_ctx with
    | some bin, some s =>
      let r := P.mbedtls_chachapoly_finish s
      some (Outcome.ret Ret.R_ARG1,
            { ctx with cipher_ctx := some r.2.1,
                       buffer := some (bin ++ wr 16 r.2.2),
                       state := PortState.CRYPT_PORT_NEEDS_AAD })
    | _, _ => Option.none
  else if ctx.unprocessed_len > 0 then
    match ctx.buffer with
    | Option.none => Option.none
    | some _ =>
      let blk := ctx.cipher_block_size
      if ctx.unprocessed_len > blk then some (Outcome.abort, ctx) else
      let len := blk - ctx.unprocessed_len
      let ctx := { ctx with unprocessed_data :=
                     CLEAR_AT ctx.unprocessed_data ctx.unprocessed_len len }
      match Crypt_Crypt P ctx ctx.unprocessed_data blk with
      | Option.none => Option.none
      | some (_, ctx1, _) => some (Outcome.ret Ret.R_ARG1, { ctx1 with unprocessed_len := 0 })
  else some (Outcome.ret Ret.R_ARG1, ctx)

/-- The `A_MODIFY` case of `Crypt_Actor` on the context `ctx`. -/
def Crypt_Modify (P : Prims σ) (ctx : CRYPT_CTX σ) (arg1 arg2 : REBVAL) :
    Outcome × CRYPT_CTX σ :=
  match arg1 with
  | REBVAL.word Sym.SYM_ALGORITHM =>
    let r := init_crypt_algorithm P ctx arg2
    if !r.1 then (Outcome.ret Ret.C_FALSE, r.2) else (Outcome.ret Ret.R_ARG1, r.2)
  | REBVAL.word Sym.SYM_DIRECTION =>
    let r := init_crypt_direction ctx (some arg2)
    if !r.1 then (Outcome.ret Ret.R_FALSE, r.2) else (Outcome.ret Ret.R_ARG1, r.2)
  | REBVAL.word Sym.SYM_KEY =>
    let r := init_crypt_key ctx (some arg2)
    if !r.1 then (Outcome.ret Ret.R_FALSE, r.2) else (Outcome.ret Ret.R_ARG1, r.2)
  | REBVAL.word Sym.SYM_IV | REBVAL.word Sym.SYM_INIT_VECTOR =>
    let r := init_crypt_iv ctx (some arg2)
    if !r.1 then (Outcome.ret Ret.R_FALSE, r.2) else (Outcome.ret Ret.R_ARG1, r.2)
  | REBVAL.word _ => (Outcome.trap Trap.RE_INVALID_ARG, ctx)
  | _ => (Outcome.ret Ret.R_ARG1, ctx)

/-- `Crypt_Actor(ds, port, action)` on a port that passes `Validate_Port`: how the call ends
and the port afterwards. -/
def Crypt_Actor (P : Prims σ) (new_ctx : CRYPT_CTX σ) (port : Port σ) (action : Action) :
    Option (Outcome × Port σ) :=
  match port.state with
  | StateVal.other_handle => some (Outcome.trap Trap.RE_INVALID_PORT, port)
  | StateVal.not_handle =>
    if action = Action.A_OPEN then
      match Crypt_Open P new_ctx port with
      | Option.none => Option.none
      | some (some e, port1) => some (Outcome.trap e, port1)
      | some (Option.none, port1) => some (Outcome.ret Ret.R_ARG1, port1)
    else some (Outcome.trap Trap.RE_NOT_OPEN, port)
  | StateVal.crypt ctx =>
    match action with
    | Action.A_OPEN => some (Outcome.trap Trap.RE_ALREADY_OPEN, port)
    | Action.A_WRITE arg1 =>
      match arg1 with
      | REBVAL.binary bytes =>
        match Crypt_Write P ctx bytes with
        | Option.none => Option.none
        | some (_, ctx1) => some (Outcome.ret Ret.R_ARG1, { port with state := StateVal.crypt ctx1 })
      | _ => some (Outcome.trap Trap.RE_FEATURE_NA, port)
    | Action.A_READ | Action.A_TAKE =>
      match ctx.buffer with
      | Option.none => Option.none
      | some bin =>
        if bin.length > 0 then
          some (Outcome.ret (Ret.R_RET bin),
                { port with state := StateVal.crypt { ctx with buffer := some [] } })
        else some (Outcome.ret Ret.R_NONE, port)
    | Action.A_UPDATE =>
      match Crypt_Update P ctx with
      | Option.none => Option.none
      | some (o, ctx1) => some (o, { port with state := StateVal.crypt ctx1 })
    | Action.A_CLOSE =>
      match ctx.buffer with
      | Option.none => Option.none
      | some _ => some (Outcome.ret Ret.R_ARG1, { port with state := StateVal.not_handle })
    | Action.A_OPENQ => some (Outcome.ret Ret.R_TRUE, port)
    | Action.A_MODIFY arg1 arg2 =>
      let r := Crypt_Modify P ctx arg1 arg2
      some (r.1, { port with state := StateVal.crypt r.2 })
    | Action.A_OTHER _ => some (Outcome.trap Trap.NO_ACTION, port)

end PortActor

/-! ## The duplex native `chacha20poly1305` of `n-crypt.c` -/

/-- Constant `POLY1305_TAGLEN` of `sys-poly1305.h`. -/
def POLY1305_TAGLEN : Nat := 16

/-- The helper functions of the repository's ChaCha20 and Poly1305 units called by the native
`chacha20poly1305`; their sources are not at hand, so they are parameters.  `χ` is the memory
of a `chacha20_ctx`, `π` that of a `poly1305_context`.  A function that writes through a pointer
returns the bytes written. -/
structure ChaChaLib (χ π : Type) where
  chacha20_keysetup : χ → List Nat → Nat → χ
  chacha20_ivsetup : χ → List Nat → Nat → Nat → List Nat → χ
  chacha20_poly1305_key : χ → χ × List Nat
  chacha20_poly1305_aead : χ → List Nat → Nat → List Nat → Nat → List Nat → χ × List Nat
  chacha20_encrypt : χ → List Nat → Nat → χ × List Nat
  poly1305_init : List Nat → π
  poly1305_update : π → List Nat → π
  poly1305_finish : π → List Nat
  poly1305_verify : List Nat → List Nat → Bool

/-- The context `chacha20poly1305_ctx`, fields as used by the native. -/
structure chacha20poly1305_ctx (χ : Type) where
  local_chacha : χ
  remote_chacha : χ
  local_iv : List Nat
  remote_iv : List Nat
  deriving DecidableEq, Repr

/-- The arguments of the native: `val_ctx` is `some c` for a valid handle of type
`SYM_CHACHA20POLY1305` with context data `c`, and `none` for anything else. -/
structure NativeArgs (χ : Type) where
  val_ctx : Option (chacha20poly1305_ctx χ)
  ref_init : Bool
  val_local_key : List Nat
  val_local_iv : List Nat
  val_remote_key : List Nat
  val_remote_iv : List Nat
  ref_encrypt : Bool
  val_plain : List Nat
  val_local_aad : List Nat
  ref_decrypt : Bool
  val_cipher : List Nat
  val_remote_aad : List Nat

/-- The argument named by a `Trap1(RE_INVALID_DATA, arg)` of the native. -/
inductive InitArg where
  | val_local_key | val_local_iv | val_remote_key | val_remote_iv
  deriving DecidableEq, Repr

/-- How a call of the native ends: an error, `R_NONE`, or `R_ARG1` with the first argument
being then the handle or a binary. -/
inductive NativeResult where
  | trap_invalid_data (arg : InitArg)
  | trap_invalid_handle
  | R_NONE
  | R_ARG1_handle
  | R_ARG1_binary (bytes : List Nat)
  deriving DecidableEq, Repr

/-- Modelled from the spec: the macro `U32TO8_LE(p, v)` (not in the sources at hand) stores the
32-bit value `v` in little-endian byte order. -/
def U32TO8_LE (v : Nat) : List Nat :=
  [v % 256, v / 256 % 256, v / 65536 % 256, v / 16777216 % 256]

/-- The static array `zeropad` of the `/decrypt` branch (15 zero bytes). -/
def zeropad : List Nat := [0, 0, 0, 0, 0, 0, 0, 0, 0, 0, 0, 0, 0, 0, 0]

section Duplex

variable {χ π : Type}

/-- The Poly1305 computation of the `/decrypt` branch (lines 1045-1067): the bytes of `mac_tag`.
`cipher` is `VAL_BIN_AT(val_cipher)`, `len` the payload length. -/
def decrypt_mac_tag (L : ChaChaLib χ π) (poly1305_key : List Nat) (aad cipher : List Nat)
    (len : Nat) : List Nat :=
  let aead_ctx := L.poly1305_init poly1305_key
  let aad_size := aad.length
  let aead_ctx := L.poly1305_update aead_ctx (aad.take aad_size)
  let rem := aad_size % 16
  let aead_ctx := if rem ≠ 0 then L.poly1305_update aead_ctx (zeropad.take (16 - rem))
                  else aead_ctx
  let aead_ctx := L.poly1305_update aead_ctx (cipher.take len)
  let rem := len % 16
  let aead_ctx := if rem ≠ 0 then L.poly1305_update aead_ctx (zeropad.take (16 - rem))
                  else aead_ctx
  let trail := U32TO8_LE (if aad_size = 5 then 5 else 13) ++ [0, 0, 0, 0]
                 ++ U32TO8_LE (len % 4294967296) ++ [0, 0, 0, 0]
  let aead_ctx := L.poly1305_update aead_ctx (trail.take 16)
  wr POLY1305_TAGLEN (L.poly1305_finish aead_ctx)

/-- `REBNATIVE(chacha20poly1305)` (built without `EXCLUDE_CHACHA20POLY1305`): how the call ends
and the context data of the handle afterwards (`none` when there is no valid handle).
`new_ctx` is the context data of the handle made by `MAKE_HANDLE`. -/
def chacha20poly1305 (L : ChaChaLib χ π) (new_ctx : chacha20poly1305_ctx χ)
    (a : NativeArgs χ) : NativeResult × Option (chacha20poly1305_ctx χ) :=
  if a.ref_init then
    let chacha := new_ctx
    let len := a.val_local_key.length
    if !(len = 32 || len = 16) then
      (NativeResult.trap_invalid_data InitArg.val_local_key, some chacha) else
    let chacha := { chacha with
      local_chacha := L.chacha20_keysetup chacha.local_chacha a.val_local_key len }
    let len := a.val_remote_key.length
    if !(len = 32 || len = 16) then
      (NativeResult.trap_invalid_data InitArg.val_remote_key, some chacha) else
    let chacha := { chacha with
      remote_chacha := L.chacha20_keysetup chacha.remote_chacha a.val_remote_key len }
    let len := a.val_local_iv.length
    if !(len = 12 || len = 8) then
      (NativeResult.trap_invalid_data InitArg.val_local_iv, some chacha) else
    let chacha := { chacha with
      local_chacha := L.chacha20_ivsetup chacha.local_chacha a.val_local_iv len 1 (CLEAR 8),
      local_iv := COPY_MEM chacha.local_iv 0 a.val_local_iv len }
    let len := a.val_remote_iv.length
    if !(len = 12 || len = 8) then
      (NativeResult.trap_invalid_data InitArg.val_remote_iv, some chacha) else
    let chacha := { chacha with
      remote_chacha := L.chacha20_ivsetup chacha.remote_chacha a.val_remote_iv len 1 (CLEAR 8),
      remote_iv := COPY_MEM chacha.remote_iv 0 a.val_remote_iv len }
    (NativeResult.R_ARG1_handle, some chacha)
  else
  match a.val_ctx with
  | Option.none => (NativeResult.trap_invalid_handle, Option.none)
  | some chacha =>
    if a.ref_encrypt then
      let lc := L.chacha20_ivsetup chacha.local_chacha chacha.local_iv 12 1 a.val_local_aad
      let k := L.chacha20_poly1305_key lc
      let len := a.val_plain.length + POLY1305_TAGLEN
      let r := L.chacha20_poly1305_aead k.1 a.val_plain (len - POLY1305_TAGLEN) a.val_local_aad
                 a.val_local_aad.length k.2
      (NativeResult.R_ARG1_binary (wr len r.2), some { chacha with local_chacha := r.1 })
    else if a.ref_decrypt then
      let rc := L.chacha20_ivsetup chacha.remote_chacha chacha.remote_iv 12 1 a.val_remote_aad
      let len : Int := (a.val_cipher.length : Int) - (POLY1305_TAGLEN : Int)
      if len ≤ 0 then (NativeResult.R_NONE, some { chacha with remote_chacha := rc }) else
      let e := L.chacha20_encrypt rc a.val_cipher len.toNat
      let k := L.chacha20_poly1305_key e.1
      let chacha := { chacha with remote_chacha := k.1 }
      let mac_tag := decrypt_mac_tag L k.2 a.val_remote_aad a.val_cipher len.toNat
      if !L.poly1305_verify mac_tag (a.val_cipher.drop (a.val_cipher.length - POLY1305_TAGLEN))
      then (NativeResult.R_NONE, some chacha)
      else (NativeResult.R_ARG1_binary (wr len.toNat e.2), some chacha)
    else (NativeResult.R_ARG1_handle, some chacha)

end Duplex

/-! ## Running a port -/

section Run

variable {σ : Type}

/-- A script: the actions are sent to the port one after the other; a raised error ends the
action, not the script.  The result lists how each action ended. -/
def Port_run (P : Prims σ) (new_ctx : CRYPT_CTX σ) :
    Port σ → List Action → Option (List Outcome × Port σ)
  | port, [] => some ([], port)
  | port, a :: rest =>
    match Crypt_Actor P new_ctx port a with
    | Option.none => Option.none
    | some (o, port1) =>
      match Port_run P new_ctx port1 rest with
      | Option.none => Option.none
      | some (os, port2) => some (o :: os, port2)

/-- The context attached to a port, if any. -/
def Port.ctx (port : Port σ) : Option (CRYPT_CTX σ) :=
  match port.state with
  | StateVal.crypt c => some c
  | _ => Option.none

/-- The bytes of the output buffer of the context attached to a port. -/
def Port.output (port : Port σ) : Option (List Nat) :=
  match port.state with
  | StateVal.crypt c => c.buffer
  | _ => Option.none

/-- The context data of a handle whose memory is zero-filled. -/
def zero_ctx : CRYPT_CTX σ :=
  { cipher_ctx := Option.none, cipher_type := Sym.other 0,
    operation := Operation.MBEDTLS_DECRYPT, key_bitlen := 0,
    state := PortState.CRYPT_PORT_CLOSED, buffer := Option.none, cipher_block_size := 0,
    unprocessed_data := CLEAR MBEDTLS_MAX_BLOCK_LENGTH, unprocessed_len := 0,
    IV := CLEAR MBEDTLS_MAX_IV_LENGTH, nonce := CLEAR MBEDTLS_MAX_IV_LENGTH,
    key := CLEAR MBEDTLS_MAX_KEY_LENGTH }

/-- A closed port whose spec names an algorithm, an IV, a key and a direction. -/
def closed_port (alg : Sym) (iv : REBVAL) (key : List Nat) (dir : Sym) : Port σ :=
  { spec := some { algorithm := some (REBVAL.word alg), init_vector := some iv,
                   key := some (REBVAL.binary key), direction := some (REBVAL.word dir) },
    state := StateVal.not_handle }

end Run

/-! ## A small instance of the primitives, used to evaluate the code on concrete inputs -/

/-- Memory of the example primitives: a key byte, a MAC accumulator and a mode flag. -/
structure ToyState where
  k : Nat
  acc : Nat
  dec : Bool
  deriving DecidableEq, Repr

/-- Example key setup: the key byte is the first key byte plus one; the key length must be one
of 128, 192, 256 bits. -/
def toy_setkey (_s : ToyState) (key : List Nat) (bits : Nat) : Int × ToyState :=
  if bits = 128 ∨ bits = 192 ∨ bits = 256 then (0, ⟨(key.headD 0 + 1) % 256, 0, false⟩)
  else (-32, ⟨0, 0, false⟩)

/-- Example block function: every byte of the block is XOR-ed with the key byte. -/
def toy_block (s : ToyState) (b : List Nat) : Int × List Nat :=
  (0, (b.take 16).map (fun x => Nat.xor x s.k))

/-- Example CBC over `toy_block`, on `n` blocks: the updated IV and the output. -/
def toy_cbc (s : ToyState) (op : Operation) : Nat → List Nat → List Nat → List Nat × List Nat
  | 0, iv, _ => (iv, [])
  | n + 1, iv, x =>
    if op = Operation.MBEDTLS_ENCRYPT then
      let c := (toy_block s (List.zipWith Nat.xor (x.take 16) iv)).2
      let r := toy_cbc s op n c (x.drop 16)
      (r.1, c ++ r.2)
    else
      let p := List.zipWith Nat.xor (toy_block s (x.take 16)).2 iv
      let r := toy_cbc s op n (x.take 16) (x.drop 16)
      (r.1, p ++ r.2)

/-- Example tag: sixteen bytes derived from the accumulator and the key byte. -/
def toy_tag (s : ToyState) : List Nat :=
  (List.range 16).map (fun i => (s.acc + i * s.k) % 256)

/-- The example primitives. -/
def toy : Prims ToyState where
  malloc := ⟨0, 0, false⟩
  mbedtls_aes_init := fun _ => ⟨0, 0, false⟩
  mbedtls_aes_setkey_enc := toy_setkey
  mbedtls_aes_setkey_dec := toy_setkey
  mbedtls_aes_crypt_ecb := fun s _ b => toy_block s b
  mbedtls_aes_crypt_cbc := fun s op n iv x => (0, toy_cbc s op (n / 16) iv x)
  mbedtls_camellia_init := fun _ => ⟨0, 0, false⟩
  mbedtls_camellia_setkey_enc := toy_setkey
  mbedtls_camellia_setkey_dec := toy_setkey
  mbedtls_camellia_crypt_ecb := fun s _ b => toy_block s b
  mbedtls_camellia_crypt_cbc := fun s op n iv x => (0, toy_cbc s op (n / 16) iv x)
  mbedtls_aria_init := fun _ => ⟨0, 0, false⟩
  mbedtls_aria_setkey_enc := toy_setkey
  mbedtls_aria_setkey_dec := toy_setkey
  mbedtls_aria_crypt_ecb := fun s b => toy_block s b
  mbedtls_aria_crypt_cbc := fun s op n iv x => (0, toy_cbc s op (n / 16) iv x)
  mbedtls_chacha20_init := fun _ => ⟨0, 0, false⟩
  mbedtls_chacha20_setkey := fun _ key => (0, ⟨(key.headD 0 + 1) % 256, 0, false⟩)
  mbedtls_chacha20_starts := fun s nonce counter =>
    (0, ⟨(s.k + nonce.headD 0 + counter) % 256, 0, false⟩)
  mbedtls_chacha20_update := fun s n x => (0, s, (x.take n).map (fun b => Nat.xor b s.k))
  mbedtls_chachapoly_init := fun _ => ⟨0, 0, false⟩
  mbedtls_chachapoly_setkey := fun _ key => (0, ⟨(key.headD 0 + 1) % 256, 0, false⟩)
  mbedtls_chachapoly_starts := fun s nonce mode =>
    (0, ⟨s.k, (nonce.take 12).sum, decide (mode = Operation.MBEDTLS_DECRYPT)⟩)
  mbedtls_chachapoly_update_aad := fun s aad n => (0, ⟨s.k, s.acc + (aad.take n).sum, s.dec⟩)
  mbedtls_chachapoly_update := fun s n x =>
    let out := (x.take n).map (fun b => Nat.xor b s.k)
    (0, ⟨s.k, s.acc + (if s.dec then (x.take n).sum else out.sum), s.dec⟩, out)
  mbedtls_chachapoly_finish := fun s => (0, s, toy_tag s)

/-- Memory-free example of the ChaCha20 and Poly1305 helpers: the cipher XORs with a key byte,
the MAC adds up the bytes it is fed, starting from the first byte of its key. -/
def toyLib : ChaChaLib Nat Nat where
  chacha20_keysetup := fun _ key _ => (key.headD 0 + 1) % 256
  chacha20_ivsetup := fun c _ _ _ _ => c
  chacha20_poly1305_key := fun c => (c, List.replicate 32 c)
  chacha20_poly1305_aead := fun c pt len aad aad_len key =>
    let ct := (pt.take len).map (fun b => Nat.xor b c)
    (c, ct ++ List.replicate 16 ((key.headD 0 + (aad.take aad_len).sum + ct.sum
                                   + (U32TO8_LE aad_len).sum + (U32TO8_LE len).sum) % 256))
  chacha20_encrypt := fun c x len => (c, (x.take len).map (fun b => Nat.xor b c))
  poly1305_init := fun key => key.headD 0
  poly1305_update := fun acc x => acc + x.sum
  poly1305_finish := fun acc => List.replicate 16 (acc % 256)
  poly1305_verify := fun m t => decide (m = t)

/-- The context data of a duplex handle whose memory is zero-filled. -/
def zero_duplex : chacha20poly1305_ctx Nat :=
  { local_chacha := 0, remote_chacha := 0, local_iv := CLEAR 12, remote_iv := CLEAR 12 }

section DuplexCalls

variable {χ π : Type}

/-- The value of `poly1305_verify(mac_tag, VAL_BIN_TAIL(val_cipher) - POLY1305_TAGLEN)` computed
by the `/decrypt` branch for a cipher argument longer than the tag. -/
def decrypt_verify (L : ChaChaLib χ π) (chacha : chacha20poly1305_ctx χ)
    (val_cipher val_remote_aad : List Nat) : Bool :=
  let rc := L.chacha20_ivsetup chacha.remote_chacha chacha.remote_iv 12 1 val_remote_aad
  let len := val_cipher.length - POLY1305_TAGLEN
  let e := L.chacha20_encrypt rc val_cipher len
  let k := L.chacha20_poly1305_key e.1
  L.poly1305_verify (decrypt_mac_tag L k.2 val_remote_aad val_cipher len)
    (val_cipher.drop (val_cipher.length - POLY1305_TAGLEN))

/-- The call `chacha20poly1305 ctx /init local-key local-iv remote-key remote-iv`. -/
def init_args (lk liv rk riv : List Nat) : NativeArgs χ :=
  { val_ctx := Option.none, ref_init := true, val_local_key := lk, val_local_iv := liv,
    val_remote_key := rk, val_remote_iv := riv, ref_encrypt := false, val_plain := [],
    val_local_aad := [], ref_decrypt := false, val_cipher := [], val_remote_aad := [] }

/-- The call `chacha20poly1305 ctx /encrypt data-out aad-out` on a valid handle. -/
def encrypt_args (c : chacha20poly1305_ctx χ) (plain aad : List Nat) : NativeArgs χ :=
  { val_ctx := some c, ref_init := false, val_local_key := [], val_local_iv := [],
    val_remote_key := [], val_remote_iv := [], ref_encrypt := true, val_plain := plain,
    val_local_aad := aad, ref_decrypt := false, val_cipher := [], val_remote_aad := [] }

/-- The call `chacha20poly1305 ctx /decrypt data-in aad-in` on a valid handle. -/
def decrypt_args (c : chacha20poly1305_ctx χ) (cipher aad : List Nat) : NativeArgs χ :=
  { val_ctx := some c, ref_init := false, val_local_key := [], val_local_iv := [],
    val_remote_key := [], val_remote_iv := [], ref_encrypt := false, val_plain := [],
    val_local_aad := [], ref_decrypt := true, val_cipher := cipher, val_remote_aad := aad }

end DuplexCalls


/-! ## Concrete inputs used in the evaluations -/

/-- Sixteen zero bytes (an AES-128 key). -/
def zero_key16 : List Nat := List.replicate 16 0

/-- The sixteen bytes of `"HelloHelloHello!"`. -/
def hello16 : List Nat := [72, 101, 108, 108, 111, 72, 101, 108, 108, 111, 72, 101, 108, 108, 111, 33]

/-- Thirty-two bytes `0x01` (a ChaCha20 key). -/
def ones_key32 : List Nat := List.replicate 32 1

/-- Twelve zero bytes (a ChaCha20-Poly1305 IV). -/
def zero_iv12 : List Nat := List.replicate 12 0

/-- The four bytes of `"msg1"`. -/
def msg1 : List Nat := [109, 115, 103, 49]

/-- The duplex scenario: `/init` with the same key and IV for both directions, `/encrypt` of
`plain` with `aad`, then `/decrypt` of the returned binary with the same `aad`; the result of the
last call (`none` when `/init` or `/encrypt` does not end as expected). -/
def duplex_round_trip {χ π : Type} (L : ChaChaLib χ π) (new_ctx : chacha20poly1305_ctx χ)
    (key iv plain aad : List Nat) : Option NativeResult :=
  match chacha20poly1305 L new_ctx (init_args key iv key iv) with
  | (NativeResult.R_ARG1_handle, some c0) =>
    match chacha20poly1305 L new_ctx (encrypt_args c0 plain aad) with
    | (NativeResult.R_ARG1_binary c, some c1) =>
      some (chacha20poly1305 L new_ctx (decrypt_args c1 c aad)).1
    | _ => Option.none
  | _ => Option.none

/-- The duplex context made by `/init` with the example helpers `toyLib` from the key
`ones_key32` and the IV `zero_iv12` for both directions. -/
def duplex_ones : chacha20poly1305_ctx Nat :=
  { local_chacha := 2, remote_chacha := 2, local_iv := zero_iv12, remote_iv := zero_iv12 }

/-- A closed ChaCha20-Poly1305 port with key `ones_key32` and IV `zero_iv12`. -/
def chachapoly_port (dir : Sym) : Port ToyState :=
  closed_port Sym.SYM_CHACHA20_POLY1305 (REBVAL.binary zero_iv12) ones_key32 dir

/-- A closed AES-128-ECB port with the key `zero_key16` and no IV. -/
def aes128_port (dir : Sym) : Port ToyState :=
  closed_port Sym.SYM_AES_128_ECB REBVAL.none zero_key16 dir

/-- The ChaCha20-Poly1305 context of the port `chachapoly_port SYM_DECRYPT` after Open and the
Write of the AAD `msg1`, under the example primitives. -/
def chachapoly_ready : CRYPT_CTX ToyState :=
  { cipher_ctx := some ⟨2, 752, true⟩, cipher_type := Sym.SYM_CHACHA20_POLY1305,
    operation := Operation.MBEDTLS_DECRYPT, key_bitlen := 0,
    state := PortState.CRYPT_PORT_READY, buffer := some [], cipher_block_size := 0,
    unprocessed_data := CLEAR 16, unprocessed_len := 0,
    IV := zero_iv12 ++ [0, 0, 0, 0], nonce := [0, 0, 0, 0, 0, 0, 0, 0, 109, 115, 103, 49, 0, 0, 0, 0],
    key := ones_key32 ++ List.replicate 32 0 }

/-! ## What the primitives make of block-aligned data -/

section PrimOut

variable {σ : Type}

/-- The block function `crypt` applied to each of the first `k` 16-byte blocks of the input, the
results concatenated; `none` when a call reports an error. -/
def ecb_out (crypt : List Nat → Int × List Nat) : Nat → List Nat → Option (List Nat)
  | 0, _ => some []
  | k + 1, x =>
    if (crypt (x.take 16)).1 = 0 then
      (ecb_out crypt k (x.drop 16)).map (fun rest => wr 16 (crypt (x.take 16)).2 ++ rest)
    else Option.none

/-- One call of a CBC primitive on all of `q` with the IV `iv`: the bytes written, `none` when the
call reports an error. -/
def cbc_out (crypt_cbc : Nat → List Nat → List Nat → Int × List Nat × List Nat)
    (iv q : List Nat) : Option (List Nat) :=
  if (crypt_cbc q.length iv q).1 = 0 then some (wr q.length (crypt_cbc q.length iv q).2.2)
  else Option.none

/-- What the primitive of the context's algorithm (a non-AEAD one), with the context's key
schedule, direction and IV, makes of the bytes `q`: block by block for ECB, in one call for CBC
and ChaCha20.  `none` when there is no cipher context or a primitive reports an error. -/
def prim_out (P : Prims σ) (c : CRYPT_CTX σ) (q : List Nat) : Option (List Nat) :=
  match c.cipher_ctx with
  | Option.none => Option.none
  | some s =>
    if is_aes_ecb c.cipher_type then
      ecb_out (P.mbedtls_aes_crypt_ecb s c.operation) (q.length / 16) q
    else if is_aes_cbc c.cipher_type then
      cbc_out (P.mbedtls_aes_crypt_cbc s c.operation) c.IV q
    else if is_camellia_ecb c.cipher_type then
      ecb_out (P.mbedtls_camellia_crypt_ecb s c.operation) (q.length / 16) q
    else if is_camellia_cbc c.cipher_type then
      cbc_out (P.mbedtls_camellia_crypt_cbc s c.operation) c.nonce q
    else if is_aria_ecb c.cipher_type then
      ecb_out (P.mbedtls_aria_crypt_ecb s) (q.length / 16) q
    else if is_aria_cbc c.cipher_type then
      cbc_out (P.mbedtls_aria_crypt_cbc s c.operation) c.nonce q
    else if c.cipher_type = Sym.SYM_CHACHA20 then
      if (P.mbedtls_chacha20_update s q.length q).1 = 0
      then some (wr q.length (P.mbedtls_chacha20_update s q.length q).2.2)
      else Option.none
    else Option.none

/-- The non-AEAD algorithm identifiers: the ECB and CBC ones and `chacha20`. -/
def is_non_aead (type : Sym) : Bool :=
  is_aes_ecb type || is_aes_cbc type || is_camellia_ecb type || is_camellia_cbc type
    || is_aria_ecb type || is_aria_cbc type || type = Sym.SYM_CHACHA20

/-- The ECB algorithm identifiers. -/
def is_ecb (type : Sym) : Bool :=
  is_aes_ecb type || is_camellia_ecb type || is_aria_ecb type

end PrimOut

/-- The five bytes of `"Hello"`. -/
def hello5 : List Nat := [72, 101, 108, 108, 111]

/-! ## Tables and inputs for the configuration and AEAD properties -/

/-- The ECB and CBC algorithm identifiers with the number their name carries. -/
def ecb_cbc_table : List (Sym × Nat) :=
  [(Sym.SYM_AES_128_ECB, 128), (Sym.SYM_AES_192_ECB, 192), (Sym.SYM_AES_256_ECB, 256),
   (Sym.SYM_AES_128_CBC, 128), (Sym.SYM_AES_192_CBC, 192), (Sym.SYM_AES_256_CBC, 256),
   (Sym.SYM_CAMELLIA_128_ECB, 128), (Sym.SYM_CAMELLIA_192_ECB, 192),
   (Sym.SYM_CAMELLIA_256_ECB, 256), (Sym.SYM_CAMELLIA_128_CBC, 128),
   (Sym.SYM_CAMELLIA_192_CBC, 192), (Sym.SYM_CAMELLIA_256_CBC, 256),
   (Sym.SYM_ARIA_128_ECB, 128), (Sym.SYM_ARIA_192_ECB, 192), (Sym.SYM_ARIA_256_ECB, 256),
   (Sym.SYM_ARIA_128_CBC, 128), (Sym.SYM_ARIA_192_CBC, 192), (Sym.SYM_ARIA_256_CBC, 256)]

/-- Thirty-two bytes `0x07` (a second ChaCha20 key). -/
def sevens_key32 : List Nat := List.replicate 32 7

/-- The example primitives with a `mbedtls_chachapoly_starts` that reports the error -1 and
leaves its context alone. -/
def toy_starts_fails : Prims ToyState :=
  { toy with mbedtls_chachapoly_starts := fun s _ _ => (-1, s) }

/-- The ChaCha20-Poly1305 context of the port `chachapoly_port SYM_DECRYPT` after Open, the
Writes of an AAD and of a message, and Update: state NeedsAAD, with the sixteen bytes
`1, 2, ..., 16` taken as the not yet drained output. -/
def chachapoly_needs_aad : CRYPT_CTX ToyState :=
  { chachapoly_ready with
      state := PortState.CRYPT_PORT_NEEDS_AAD,
      buffer := some [1, 2, 3, 4, 5, 6, 7, 8, 9, 10, 11, 12, 13, 14, 15, 16] }


/-! ## Inputs and predicates for the finish, buffering and streaming properties -/

/-- The seventeen bytes `1, 2, ..., 17`. -/
def bytes17 : List Nat := [1, 2, 3, 4, 5, 6, 7, 8, 9, 10, 11, 12, 13, 14, 15, 16, 17]

/-- A closed port whose spec names as algorithm a word that is no algorithm identifier. -/
def unknown_alg_port : Port ToyState :=
  closed_port (Sym.other 7) REBVAL.none zero_key16 Sym.SYM_ENCRYPT

/-- The example primitives with an AES key setup that reports the error -32 and leaves its
context alone. -/
def toy_setkey_fails : Prims ToyState :=
  { toy with mbedtls_aes_setkey_enc := fun s _ _ => (-32, s),
             mbedtls_aes_setkey_dec := fun s _ _ => (-32, s) }

/-- One Write action per chunk, in order. -/
def write_actions (chunks : List (List Nat)) : List Action :=
  chunks.map (fun p => Action.A_WRITE (REBVAL.binary p))

/-- The ECB and CBC algorithm identifiers. -/
def is_ecb_cbc (type : Sym) : Bool :=
  is_aes_ecb type || is_aes_cbc type || is_camellia_ecb type || is_camellia_cbc type
    || is_aria_ecb type || is_aria_cbc type

/-- The block function that the ECB case of `Crypt_Crypt` for the context's algorithm calls on
each block, with the key schedule `s`. -/
def ecb_block {σ : Type} (P : Prims σ) (s : σ) (c : CRYPT_CTX σ) : List Nat → Int × List Nat :=
  if is_aes_ecb c.cipher_type then P.mbedtls_aes_crypt_ecb s c.operation
  else if is_camellia_ecb c.cipher_type then P.mbedtls_camellia_crypt_ecb s c.operation
  else P.mbedtls_aria_crypt_ecb s

/-- Every call of an ECB or CBC function of the primitives reports success. -/
def block_prims_succeed {σ : Type} (P : Prims σ) : Prop :=
  (∀ s op b, (P.mbedtls_aes_crypt_ecb s op b).1 = 0) ∧
  (∀ s op n iv x, (P.mbedtls_aes_crypt_cbc s op n iv x).1 = 0) ∧
  (∀ s op b, (P.mbedtls_camellia_crypt_ecb s op b).1 = 0) ∧
  (∀ s op n iv x, (P.mbedtls_camellia_crypt_cbc s op n iv x).1 = 0) ∧
  (∀ s b, (P.mbedtls_aria_crypt_ecb s b).1 = 0) ∧
  (∀ s op n iv x, (P.mbedtls_aria_crypt_cbc s op n iv x).1 = 0)

/-- The number `n` rounded up to the next multiple of 16. -/
def round_up16 (n : Nat) : Nat := (n + 15) / 16 * 16

/-- The primitive `mbedtls_chachapoly_update` always succeeds and works as a stream: feeding `x`
and then `y` leaves the same context and writes the same bytes as feeding `x ++ y` at once. -/
def chachapoly_update_streams {σ : Type} (P : Prims σ) : Prop :=
  ∀ (s : σ) (x y : List Nat),
    (P.mbedtls_chachapoly_update s x.length x).1 = 0 ∧
    (P.mbedtls_chachapoly_update s (x ++ y).length (x ++ y)).2.1
      = (P.mbedtls_chachapoly_update (P.mbedtls_chachapoly_update s x.length x).2.1
          y.length y).2.1 ∧
    wr (x ++ y).length (P.mbedtls_chachapoly_update s (x ++ y).length (x ++ y)).2.2
      = wr x.length (P.mbedtls_chachapoly_update s x.length x).2.2
        ++ wr y.length
            (P.mbedtls_chachapoly_update (P.mbedtls_chachapoly_update s x.length x).2.1
              y.length y).2.2

/-- The state of a block-cipher context between Writes: algorithm ECB or CBC, block size 16,
state Ready, a primitive context, at most 16 unprocessed bytes, and an output of whole blocks
which together with the unprocessed bytes counts `n` bytes. -/
def block_inv {σ : Type} (c : CRYPT_CTX σ) (n : Nat) : Prop :=
  is_ecb_cbc c.cipher_type = true ∧ c.cipher_block_size = 16 ∧
  c.state = PortState.CRYPT_PORT_READY ∧ c.cipher_ctx.isSome = true ∧
  c.unprocessed_len ≤ 16 ∧
  ∃ bin, c.buffer = some bin ∧ bin.length % 16 = 0 ∧ bin.length + c.unprocessed_len = n

/-! ## Inputs for the IV, reconfiguration and Open properties -/

/-- The sixteen bytes `1, 2, ..., 16` (an IV). -/
def iv16 : List Nat := [1, 2, 3, 4, 5, 6, 7, 8, 9, 10, 11, 12, 13, 14, 15, 16]

/-- A closed CBC port of the given algorithm with the key `zero_key16`, the IV `iv16` and the
direction `encrypt`. -/
def cbc_port (alg : Sym) : Port ToyState :=
  closed_port alg (REBVAL.binary iv16) zero_key16 Sym.SYM_ENCRYPT

/-- The script: Open, Write of `bytes17`, a Modify of the direction to `encrypt` (which asks for
a new initialisation), and the same Write again. -/
def write_reinit_write : List Action :=
  [Action.A_OPEN, Action.A_WRITE (REBVAL.binary bytes17),
   Action.A_MODIFY (REBVAL.word Sym.SYM_DIRECTION) (REBVAL.word Sym.SYM_ENCRYPT),
   Action.A_WRITE (REBVAL.binary bytes17)]

/-- A closed AES-128-ECB port whose spec names as direction a word that is neither `encrypt` nor
`decrypt`. -/
def bad_direction_port : Port ToyState :=
  closed_port Sym.SYM_AES_128_ECB REBVAL.none zero_key16 (Sym.other 7)

/-! ## The Poly1305 input of `/decrypt`, chunk by chunk -/

/-- The zero bytes that complete `n` bytes to a multiple of 16, as one chunk; no chunk when `n`
is a multiple of 16 (the two `if (rem)` statements of the `/decrypt` branch). -/
def mac_pad (n : Nat) : List (List Nat) :=
  if n % 16 ≠ 0 then [List.replicate (16 - n % 16) 0] else []

/-- The array `trail` of the `/decrypt` branch (lines 1059-1062) for an AAD of `aad_size` bytes
and a payload of `len` bytes. -/
def decrypt_trailer (aad_size len : Nat) : List Nat :=
  U32TO8_LE (if aad_size = 5 then 5 else 13) ++ [0, 0, 0, 0]
    ++ U32TO8_LE (len % 4294967296) ++ [0, 0, 0, 0]

/-- The chunks handed to `poly1305_update` by the `/decrypt` branch, in order: the AAD, its
padding, the bytes `data`, their padding, and the trailer. -/
def mac_chunks (aad data trailer : List Nat) : List (List Nat) :=
  [aad] ++ mac_pad aad.length ++ [data] ++ mac_pad data.length ++ [trailer]

/-- The little-endian encoding of `v` in 8 bytes. -/
def le64 (v : Nat) : List Nat :=
  [v % 256, v / 256 % 256, v / 65536 % 256, v / 16777216 % 256, v / 4294967296 % 256,
   v / 1099511627776 % 256, v / 281474976710656 % 256, v / 72057594037927936 % 256]

/-- Example helpers whose Poly1305 keeps the bytes it is fed and gives them back as the tag, so
that the 16 bytes of `mac_tag` are the first 16 bytes fed; the cipher XORs with a key byte. -/
def feed_head : ChaChaLib Nat (List Nat) where
  chacha20_keysetup := fun _ key _ => (key.headD 0 + 1) % 256
  chacha20_ivsetup := fun c _ _ _ _ => c
  chacha20_poly1305_key := fun c => (c, List.replicate 32 c)
  chacha20_poly1305_aead := fun c pt len _ _ _ =>
    (c, (pt.take len).map (fun b => Nat.xor b c) ++ List.replicate 16 0)
  chacha20_encrypt := fun c x len => (c, (x.take len).map (fun b => Nat.xor b c))
  poly1305_init := fun _ => []
  poly1305_update := fun acc x => acc ++ x
  poly1305_finish := fun acc => acc
  poly1305_verify := fun m t => decide (m = t)

/-- Example helpers like `feed_head`, but the tag is the last 16 bytes fed. -/
def feed_tail : ChaChaLib Nat (List Nat) :=
  { feed_head with poly1305_finish := fun acc => acc.drop (acc.length - 16) }

/-! ## Releasing a context -/

section Release

variable {σ : Type}

/-- Modelled from the spec: the macro `CLEARS(m)` (not in the sources at hand) zero-fills the
object `m` points to, as `CLEAR(p, n)` zero-fills `n` bytes at `p`; for a `CRYPT_CTX` the result
is the zero-filled context. -/
def CLEARS (_crypt : CRYPT_CTX σ) : CRYPT_CTX σ := zero_ctx

/-- `crypt_context_free(ctx)` (lines 58-71); `ctx = none` is the `NULL` pointer and `data` the
memory of the output series, the `crypt->buffer->rest` bytes at `crypt->buffer->data`.  The
result is that memory as it is when `Free_Series` gets the series (`none` when no series is
freed) and the context afterwards. -/
def crypt_context_free (ctx : Option (CRYPT_CTX σ)) (data : List Nat) :
    Option (List Nat) × Option (CRYPT_CTX σ) :=
  match ctx with
  | Option.none => (Option.none, Option.none)
  | some crypt =>
    let freed :=
      match crypt.buffer with
      | Option.none => Option.none
      | some _ => some (CLEAR_AT data 0 data.length)
    let crypt := free_crypt_cipher_context crypt
    (freed, some (CLEARS crypt))

end Release
/-! ## Properties -/

set_option maxRecDepth 100000

section Theorems

variable {σ χ π : Type}

/-! ### Output is only appended -/

/-- The ECB loop only appends to the output series. -/
theorem ecb_loop_prefix (crypt : List Nat → Int × List Nat) (blk len : Nat) :
    ∀ (fuel ofs : Nat) (input bin : List Nat) (used : Nat) (r : Int × List Nat × Nat),
      ecb_loop crypt blk len fuel ofs input bin used = some r → bin <+: r.2.1 := by
  intro fuel
  induction fuel with
  | zero => intro ofs input bin used r h; simp [ecb_loop] at h
  | succ n ih =>
    intro ofs input bin used r h
    simp only [ecb_loop] at h
    split_ifs at h with h1 h2
    · simp only [Option.some.injEq] at h
      subst h
      exact List.prefix_refl _
    · exact (List.prefix_append bin _).trans (ih _ _ _ _ _ h)
    · simp only [Option.some.injEq] at h
      subst h
      exact List.prefix_refl _

/-- An ECB case of `Crypt_Crypt` only appends to the output series. -/
theorem ecb_case_prefix (crypt : List Nat → Int × List Nat) (ctx : CRYPT_CTX σ)
    (bin input : List Nat) (len : Nat) (r : Int × CRYPT_CTX σ × Nat)
    (h : ecb_case crypt ctx bin input len = some r) :
    ∃ bin1, r.2.1.buffer = some bin1 ∧ bin <+: bin1 := by
  unfold ecb_case at h
  split at h
  · simp at h
  · rename_i err bin1 used heq
    have hp := ecb_loop_prefix _ _ _ _ _ _ _ _ _ heq
    split_ifs at h <;>
      (simp only [Option.some.injEq] at h; subst h; exact ⟨_, rfl, hp⟩)

/-- The AES CBC case of `Crypt_Crypt` only appends to the output series. -/
theorem aes_cbc_case_prefix (P : Prims σ) (s : σ) (ctx : CRYPT_CTX σ)
    (bin input : List Nat) (len : Nat) (r : Int × CRYPT_CTX σ × Nat)
    (hbuf : ctx.buffer = some bin) (h : aes_cbc_case P s ctx bin input len = some r) :
    ∃ bin1, r.2.1.buffer = some bin1 ∧ bin <+: bin1 := by
  unfold aes_cbc_case at h
  simp only at h
  split_ifs at h <;> (simp only [Option.some.injEq] at h; subst h)
  · exact ⟨bin, hbuf, List.prefix_refl _⟩
  · exact ⟨_, rfl, List.prefix_append _ _⟩

/-- A Camellia or ARIA CBC case of `Crypt_Crypt` only appends to the output series. -/
theorem nonce_cbc_case_prefix
    (crypt_cbc : Operation → Nat → List Nat → List Nat → Int × List Nat × List Nat)
    (ctx : CRYPT_CTX σ) (bin input : List Nat) (len : Nat) (r : Int × CRYPT_CTX σ × Nat)
    (hbuf : ctx.buffer = some bin) (h : nonce_cbc_case crypt_cbc ctx bin input len = some r) :
    ∃ bin1, r.2.1.buffer = some bin1 ∧ bin <+: bin1 := by
  unfold nonce_cbc_case at h
  simp only at h
  split_ifs at h <;> (simp only [Option.some.injEq] at h; subst h)
  · exact ⟨bin, hbuf, List.prefix_refl _⟩
  · exact ⟨_, rfl, List.prefix_append _ _⟩

/-- The ChaCha20 case of `Crypt_Crypt` only appends to the output series. -/
theorem chacha20_case_prefix (P : Prims σ) (s : σ) (ctx : CRYPT_CTX σ)
    (bin input : List Nat) (len : Nat) (r : Int × CRYPT_CTX σ × Nat)
    (hbuf : ctx.buffer = some bin) (h : chacha20_case P s ctx bin input len = some r) :
    ∃ bin1, r.2.1.buffer = some bin1 ∧ bin <+: bin1 := by
  unfold chacha20_case at h
  simp only at h
  split_ifs at h <;> (simp only [Option.some.injEq] at h; subst h)
  · exact ⟨bin, hbuf, List.prefix_refl _⟩
  · exact ⟨_, rfl, List.prefix_append _ _⟩

/-- The ChaCha20-Poly1305 case of `Crypt_Crypt` only appends to the output series. -/
theorem chachapoly_case_prefix (P : Prims σ) (s : σ) (ctx : CRYPT_CTX σ)
    (bin input : List Nat) (len : Nat) (r : Int × CRYPT_CTX σ × Nat)
    (hbuf : ctx.buffer = some bin) (h : chachapoly_case P s ctx bin input len = some r) :
    ∃ bin1, r.2.1.buffer = some bin1 ∧ bin <+: bin1 := by
  unfold chachapoly_case at h
  simp only at h
  split_ifs at h <;> (simp only [Option.some.injEq] at h; subst h) <;>
    first
    | exact ⟨bin, hbuf, List.prefix_refl _⟩
    | exact ⟨_, rfl, List.prefix_append _ _⟩

/-- Whenever `Crypt_Crypt` has a result, the old output is a prefix of the new output. -/
theorem Crypt_Crypt_buffer_prefix (P : Prims σ) (ctx : CRYPT_CTX σ) (x : List Nat) (len : Nat)
    (bin : List Nat) (r : Int × CRYPT_CTX σ × Nat)
    (h : Crypt_Crypt P ctx x len = some r) (hbuf : ctx.buffer = some bin) :
    ∃ bin1, r.2.1.buffer = some bin1 ∧ bin <+: bin1 := by
  unfold Crypt_Crypt at h
  rw [hbuf] at h
  simp only at h
  split_ifs at h with h1 h2 h3
  · simp only [Option.some.injEq] at h; subst h; exact ⟨bin, hbuf, List.prefix_refl _⟩
  · simp only [Option.some.injEq] at h; subst h; exact ⟨bin, hbuf, List.prefix_refl _⟩
  · cases hs : ctx.cipher_ctx with
    | none => simp [hs] at h
    | some s =>
      simp only [hs] at h
      unfold Crypt_Crypt_switch at h
      simp only at h
      split_ifs at h
      · exact ecb_case_prefix _ _ _ _ _ _ h
      · exact aes_cbc_case_prefix _ _ _ _ _ _ _ hbuf h
      · exact ecb_case_prefix _ _ _ _ _ _ h
      · exact nonce_cbc_case_prefix _ _ _ _ _ _ hbuf h
      · exact ecb_case_prefix _ _ _ _ _ _ h
      · exact nonce_cbc_case_prefix _ _ _ _ _ _ hbuf h
      · exact chacha20_case_prefix _ _ _ _ _ _ _ hbuf h
      · exact chachapoly_case_prefix _ _ _ _ _ _ _ hbuf h
      · simp only [Option.some.injEq] at h; subst h; exact ⟨bin, hbuf, List.prefix_refl _⟩
  · simp only [Option.some.injEq] at h; subst h; exact ⟨bin, hbuf, List.prefix_refl _⟩

/-- Storing the tail of the input does not touch the output series. -/
theorem Crypt_Write_tail_buffer (ctx : CRYPT_CTX σ) (input : List Nat) (len : Nat) :
    (Crypt_Write_tail ctx input len).2.buffer = ctx.buffer := by
  unfold Crypt_Write_tail
  split_ifs <;> rfl

/-- The direct part of `Crypt_Write` only appends to the output series. -/
theorem Crypt_Write_direct_prefix (P : Prims σ) (ctx : CRYPT_CTX σ) (blk : Nat)
    (input : List Nat) (len : Nat) (bin : List Nat) (r : CryptResult × CRYPT_CTX σ)
    (h : Crypt_Write_direct P ctx blk input len = some r) (hbuf : ctx.buffer = some bin) :
    ∃ bin1, r.2.buffer = some bin1 ∧ bin <+: bin1 := by
  unfold Crypt_Write_direct at h
  split_ifs at h with h0 h1
  · simp only [Option.some.injEq] at h; subst h; exact ⟨bin, hbuf, List.prefix_refl _⟩
  · cases hc : Crypt_Crypt P ctx input len with
    | none => simp [hc] at h
    | some rc =>
      obtain ⟨e, c1, olen⟩ := rc
      obtain ⟨bin1, hb1, hp⟩ := Crypt_Crypt_buffer_prefix P ctx input len bin _ hc hbuf
      simp only [hc] at h
      split_ifs at h <;> (simp only [Option.some.injEq] at h; subst h)
      · exact ⟨bin1, hb1, hp⟩
      · exact ⟨bin1, by rw [Crypt_Write_tail_buffer]; exact hb1, hp⟩
  · simp only [Option.some.injEq] at h; subst h
    exact ⟨bin, by rw [Crypt_Write_tail_buffer]; exact hbuf, List.prefix_refl _⟩

/-- `Crypt_Write` without its initialisation only appends to the output series. -/
theorem Crypt_Write_body_prefix (P : Prims σ) (ctx : CRYPT_CTX σ) (input : List Nat)
    (len : Nat) (bin : List Nat) (r : CryptResult × CRYPT_CTX σ) (hbuf : ctx.buffer = some bin)
    (h : Crypt_Write_body P ctx input len = some r) :
    ∃ bin1, r.2.buffer = some bin1 ∧ bin <+: bin1 := by
  unfold Crypt_Write_body at h
  simp only at h
  split_ifs at h with h0 h1 h2 h3 h4 h5 h6 <;>
    first
    | (simp only [Option.some.injEq] at h; subst h; exact ⟨bin, hbuf, List.prefix_refl _⟩)
    | exact Crypt_Write_direct_prefix P _ _ _ _ bin r h hbuf
    | (split at h
       · simp at h
       · rename_i e c1 ol hc
         obtain ⟨bin1, hb1, hp⟩ := Crypt_Crypt_buffer_prefix P _ _ _ bin _ hc hbuf
         obtain ⟨bin2, hb2, hp2⟩ := Crypt_Write_direct_prefix P _ _ _ _ bin1 r h hb1
         exact ⟨bin2, hb2, hp.trans hp2⟩)

/-- A `Crypt_Write` in a state other than NeedsInit only appends to the output series. -/
theorem Crypt_Write_prefix (P : Prims σ) (ctx : CRYPT_CTX σ) (input : List Nat)
    (bin : List Nat) (r : CryptResult × CRYPT_CTX σ) (hbuf : ctx.buffer = some bin)
    (hstate : ctx.state ≠ PortState.CRYPT_PORT_NEEDS_INIT)
    (h : Crypt_Write P ctx input = some r) :
    ∃ bin1, r.2.buffer = some bin1 ∧ bin <+: bin1 := by
  unfold Crypt_Write at h
  simp only [hstate, if_false] at h
  split_ifs at h
  · simp only [Option.some.injEq] at h; subst h; exact ⟨bin, hbuf, List.prefix_refl _⟩
  · exact Crypt_Write_body_prefix P ctx input _ bin r hbuf h

/-- The Update action only appends to the output series. -/
theorem Crypt_Update_prefix (P : Prims σ) (ctx : CRYPT_CTX σ) (bin : List Nat)
    (r : Outcome × CRYPT_CTX σ) (hbuf : ctx.buffer = some bin)
    (h : Crypt_Update P ctx = some r) :
    ∃ bin1, r.2.buffer = some bin1 ∧ bin <+: bin1 := by
  unfold Crypt_Update at h
  rw [hbuf] at h
  simp only at h
  split_ifs at h with h0 h1 h2
  · cases hs : ctx.cipher_ctx with
    | none => simp [hs] at h
    | some s =>
      simp only [hs, Option.some.injEq] at h
      subst h
      exact ⟨_, rfl, List.prefix_append _ _⟩
  · simp only [Option.some.injEq] at h; subst h; exact ⟨bin, hbuf, List.prefix_refl _⟩
  · split at h
    · simp at h
    · rename_i e c1 ol hc
      obtain ⟨bin1, hb1, hp⟩ := Crypt_Crypt_buffer_prefix P _ _ _ bin _ hc rfl
      simp only [Option.some.injEq] at h; subst h
      exact ⟨bin1, hb1, hp⟩
  · simp only [Option.some.injEq] at h; subst h; exact ⟨bin, hbuf, List.prefix_refl _⟩

/-- Freeing the cipher context does not touch the output series. -/
theorem free_crypt_cipher_context_buffer (ctx : CRYPT_CTX σ) :
    (free_crypt_cipher_context ctx).buffer = ctx.buffer := by
  unfold free_crypt_cipher_context
  split <;> rfl

/-- `init_crypt_algorithm` does not touch the output series. -/
theorem init_crypt_algorithm_buffer (P : Prims σ) (ctx : CRYPT_CTX σ) (val : REBVAL) :
    (init_crypt_algorithm P ctx val).2.buffer = ctx.buffer := by
  unfold init_crypt_algorithm
  split
  · simp only
    split_ifs <;> simp [free_crypt_cipher_context_buffer]
  · rfl

/-- `init_crypt_key` does not touch the output series. -/
theorem init_crypt_key_buffer (ctx : CRYPT_CTX σ) (val : Option REBVAL) :
    (init_crypt_key ctx val).2.buffer = ctx.buffer := by
  unfold init_crypt_key
  split
  · rfl
  · simp only
    split <;> first | rfl | (split_ifs <;> rfl)

/-- `init_crypt_iv` does not touch the output series. -/
theorem init_crypt_iv_buffer (ctx : CRYPT_CTX σ) (val : Option REBVAL) :
    (init_crypt_iv ctx val).2.buffer = ctx.buffer := by
  unfold init_crypt_iv
  split
  · rfl
  · simp only
    split <;> first | rfl | (split_ifs <;> rfl)

/-- `init_crypt_direction` does not touch the output series. -/
theorem init_crypt_direction_buffer (ctx : CRYPT_CTX σ) (val : Option REBVAL) :
    (init_crypt_direction ctx val).2.buffer = ctx.buffer := by
  unfold init_crypt_direction
  split
  · simp only
    split <;> rfl
  · rfl

/-- The Modify action does not touch the output series. -/
theorem Crypt_Modify_buffer (P : Prims σ) (ctx : CRYPT_CTX σ) (arg1 arg2 : REBVAL) :
    (Crypt_Modify P ctx arg1 arg2).2.buffer = ctx.buffer := by
  unfold Crypt_Modify
  split <;> simp only <;>
    first
    | rfl
    | (split_ifs <;>
        first
        | exact init_crypt_algorithm_buffer P ctx arg2
        | exact init_crypt_direction_buffer ctx _
        | exact init_crypt_key_buffer ctx _
        | exact init_crypt_iv_buffer ctx _)

/-- `Crypt_Init` clears the output series: its result does not depend on the old content. -/
theorem Crypt_Init_ignores_buffer (P : Prims σ) (ctx : CRYPT_CTX σ) (bin : List Nat)
    (hbuf : ctx.buffer = some bin) :
    Crypt_Init P ctx = Crypt_Init P { ctx with buffer := some [] } := by
  simp [Crypt_Init, hbuf]

/-! ### One Write and one Update on a port just opened -/

/-- With block size 16 and every block call succeeding, the ECB loop appends `ecb_out` and
consumes `16 * k` bytes, `k` the number of whole blocks left. -/
theorem ecb_loop_eq_ecb_out (crypt : List Nat → Int × List Nat) (len : Nat) :
    ∀ (k fuel ofs : Nat) (x bin : List Nat) (used : Nat) (out : List Nat),
      ecb_out crypt k x = some out → ofs + 16 * k ≤ len → len < ofs + 16 * k + 16 →
      16 ≤ len → k < fuel →
      ecb_loop crypt 16 len fuel ofs x bin used = some (0, bin ++ out, used + 16 * k) := by
  intro k
  induction k with
  | zero =>
    intro fuel ofs x bin used out hout h1 h2 h3 h4
    simp only [ecb_out, Option.some.injEq] at hout
    subst hout
    obtain ⟨f, rfl⟩ : ∃ f, fuel = f + 1 := ⟨fuel - 1, by omega⟩
    have hc : ¬ ofs ≤ len - 16 := by omega
    simp [ecb_loop, hc]
  | succ k ih =>
    intro fuel ofs x bin used out hout h1 h2 h3 h4
    obtain ⟨f, rfl⟩ : ∃ f, fuel = f + 1 := ⟨fuel - 1, by omega⟩
    simp only [ecb_out] at hout
    split_ifs at hout with he
    cases hrest : ecb_out crypt k (List.drop 16 x) with
    | none => simp [hrest] at hout
    | some rest =>
      simp only [hrest, Option.map_some', Option.some.injEq] at hout
      subst hout
      have hc : ofs ≤ len - 16 := by omega
      have := ih f (ofs + 16) (x.drop 16) (bin ++ wr 16 (crypt (x.take 16)).2) (used + 16) rest
        hrest (by omega) (by omega) h3 (by omega)
      simp only [ecb_loop, hc, if_true, he, ne_eq, not_true_eq_false, if_false]
      rw [this]
      simp only [List.append_assoc, Option.some.injEq, Prod.mk.injEq, true_and]
      omega

/-- An ECB case of `Crypt_Crypt` on a block-aligned input whose block calls all succeed. -/
theorem ecb_case_eq (crypt : List Nat → Int × List Nat) (ctx : CRYPT_CTX σ)
    (bin q out : List Nat) (hblk : ctx.cipher_block_size = 16) (hlen : 16 ≤ q.length)
    (h16 : q.length % 16 = 0) (hout : ecb_out crypt (q.length / 16) q = some out) :
    ecb_case crypt ctx bin q q.length
      = some (0, { ctx with buffer := some (bin ++ out) }, q.length) := by
  unfold ecb_case
  rw [hblk, ecb_loop_eq_ecb_out crypt q.length (q.length / 16) (q.length + 1) 0 q bin 0 out hout
    (by omega) (by omega) hlen (by omega)]
  simp
  omega

/-- A CBC call yields as many bytes as it is given. -/
theorem cbc_out_length (crypt_cbc : Nat → List Nat → List Nat → Int × List Nat × List Nat)
    (iv q out : List Nat) (h : cbc_out crypt_cbc iv q = some out) : out.length = q.length := by
  unfold cbc_out at h
  split_ifs at h
  simp only [Option.some.injEq] at h
  subst h
  simp [wr]

/-- `ecb_out` on `k` blocks yields `16 * k` bytes. -/
theorem ecb_out_length (crypt : List Nat → Int × List Nat) :
    ∀ (k : Nat) (x out : List Nat), ecb_out crypt k x = some out → out.length = 16 * k := by
  intro k
  induction k with
  | zero => intro x out h; simp [ecb_out] at h; subst h; rfl
  | succ k ih =>
    intro x out h
    simp only [ecb_out] at h
    split_ifs at h
    cases hrest : ecb_out crypt k (List.drop 16 x) with
    | none => simp [hrest] at h
    | some rest =>
      simp only [hrest, Option.map_some', Option.some.injEq] at h
      subst h
      have := ih _ _ hrest
      simp [wr, this]
      omega

/-- The AES CBC case of `Crypt_Crypt` on a block-aligned input when the primitive succeeds. -/
theorem aes_cbc_case_eq (P : Prims σ) (s : σ) (ctx : CRYPT_CTX σ) (bin q out : List Nat)
    (h16 : q.length % 16 = 0)
    (hout : cbc_out (P.mbedtls_aes_crypt_cbc s ctx.operation) ctx.IV q = some out) :
    ∃ c1, aes_cbc_case P s ctx bin q q.length = some (0, c1, q.length) ∧
      c1.buffer = some (bin ++ out) ∧ c1.unprocessed_len = ctx.unprocessed_len ∧
      c1.cipher_type = ctx.cipher_type := by
  unfold cbc_out at hout
  split_ifs at hout with he
  simp only [Option.some.injEq] at hout
  subst hout
  unfold aes_cbc_case
  simp only [h16, Nat.sub_zero, List.take_length, he, ne_eq, not_true_eq_false, if_false]
  exact ⟨_, rfl, rfl, rfl, rfl⟩

/-- A Camellia or ARIA CBC case of `Crypt_Crypt` on a block-aligned input when the primitive
succeeds. -/
theorem nonce_cbc_case_eq
    (crypt_cbc : Operation → Nat → List Nat → List Nat → Int × List Nat × List Nat)
    (ctx : CRYPT_CTX σ) (bin q out : List Nat) (hblk : ctx.cipher_block_size = 16)
    (h16 : q.length % 16 = 0)
    (hout : cbc_out (crypt_cbc ctx.operation) ctx.nonce q = some out) :
    ∃ c1, nonce_cbc_case crypt_cbc ctx bin q q.length = some (0, c1, q.length) ∧
      c1.buffer = some (bin ++ out) ∧ c1.unprocessed_len = ctx.unprocessed_len ∧
      c1.cipher_type = ctx.cipher_type := by
  unfold cbc_out at hout
  split_ifs at hout with he
  simp only [Option.some.injEq] at hout
  subst hout
  unfold nonce_cbc_case
  simp only [hblk, h16, Nat.sub_zero, List.take_length, he, ne_eq, not_true_eq_false, if_false,
    OfNat.ofNat_ne_zero]
  exact ⟨_, rfl, rfl, rfl, rfl⟩

/-- The ChaCha20 case of `Crypt_Crypt` when the primitive succeeds. -/
theorem chacha20_case_eq (P : Prims σ) (s : σ) (ctx : CRYPT_CTX σ) (bin q out : List Nat)
    (hout : (if (P.mbedtls_chacha20_update s q.length q).1 = 0
             then some (wr q.length (P.mbedtls_chacha20_update s q.length q).2.2)
             else Option.none) = some out) :
    ∃ c1, chacha20_case P s ctx bin q q.length = some (0, c1, q.length) ∧
      c1.buffer = some (bin ++ out) ∧ c1.unprocessed_len = ctx.unprocessed_len ∧
      c1.cipher_type = ctx.cipher_type := by
  split_ifs at hout with he
  simp only [Option.some.injEq] at hout
  subst hout
  unfold chacha20_case
  simp only [List.take_length, he, ne_eq, not_true_eq_false, if_false]
  exact ⟨_, rfl, rfl, rfl, rfl⟩

/-- An ECB or CBC identifier is not `chacha20`. -/
theorem not_chacha20_of_block (t : Sym)
    (h : is_aes_ecb t = true ∨ is_aes_cbc t = true ∨ is_camellia_ecb t = true ∨
      is_camellia_cbc t = true ∨ is_aria_ecb t = true ∨ is_aria_cbc t = true) :
    t ≠ Sym.SYM_CHACHA20 := by
  intro ht
  subst ht
  simp [is_aes_ecb, is_aes_cbc, is_camellia_ecb, is_camellia_cbc, is_aria_ecb, is_aria_cbc] at h

/-- One call of `Crypt_Crypt` on a non-AEAD context with block size 16: on a block-aligned input
(any input of at least 16 bytes for ChaCha20) it appends what the primitive makes of the input and
consumes all of it. -/
theorem Crypt_Crypt_single (P : Prims σ) (ctx : CRYPT_CTX σ) (bin q out : List Nat)
    (ht : is_non_aead ctx.cipher_type = true) (hblk : ctx.cipher_block_size = 16)
    (hbuf : ctx.buffer = some bin) (hlen : 16 ≤ q.length)
    (h16 : q.length % 16 = 0 ∨ ctx.cipher_type = Sym.SYM_CHACHA20)
    (hout : prim_out P ctx q = some out) :
    ∃ c1, Crypt_Crypt P ctx q q.length = some (0, c1, q.length) ∧
      c1.buffer = some (bin ++ out) ∧ c1.unprocessed_len = ctx.unprocessed_len ∧
      c1.cipher_type = ctx.cipher_type := by
  unfold prim_out at hout
  cases hs : ctx.cipher_ctx with
  | none => simp [hs] at hout
  | some s =>
    have hne : q.length ≠ 0 := by omega
    have hnl : ¬ q.length < 16 := by omega
    have hcipher : is_cipher ctx.cipher_type = true := by
      simp only [is_non_aead, Bool.or_eq_true] at ht
      simp only [is_cipher, Bool.or_eq_true]
      tauto
    have hblock : ∀ (_ : is_aes_ecb ctx.cipher_type = true ∨ is_aes_cbc ctx.cipher_type = true ∨
        is_camellia_ecb ctx.cipher_type = true ∨ is_camellia_cbc ctx.cipher_type = true ∨
        is_aria_ecb ctx.cipher_type = true ∨ is_aria_cbc ctx.cipher_type = true),
        q.length % 16 = 0 := by
      intro hb
      rcases h16 with h | h
      · exact h
      · exact absurd h (not_chacha20_of_block _ hb)
    simp only [hs] at hout
    unfold Crypt_Crypt Crypt_Crypt_switch
    simp only [hne, hblk, hnl, hbuf, hs, hcipher, if_true, if_false, and_false, gt_iff_lt]
    by_cases h1 : is_aes_ecb ctx.cipher_type = true
    · simp only [h1, if_true] at hout ⊢
      rw [ecb_case_eq _ ctx bin q out hblk hlen (hblock (Or.inl h1)) hout]
      exact ⟨_, rfl, rfl, rfl, rfl⟩
    by_cases h2 : is_aes_cbc ctx.cipher_type = true
    · simp only [h1, h2, if_true, if_false] at hout ⊢
      exact aes_cbc_case_eq P s ctx bin q out (hblock (Or.inr (Or.inl h2))) hout
    by_cases h3 : is_camellia_ecb ctx.cipher_type = true
    · simp only [h1, h2, h3, if_true, if_false] at hout ⊢
      rw [ecb_case_eq _ ctx bin q out hblk hlen (hblock (Or.inr (Or.inr (Or.inl h3)))) hout]
      exact ⟨_, rfl, rfl, rfl, rfl⟩
    by_cases h4 : is_camellia_cbc ctx.cipher_type = true
    · simp only [h1, h2, h3, h4, if_true, if_false] at hout ⊢
      exact nonce_cbc_case_eq _ ctx bin q out hblk
        (hblock (Or.inr (Or.inr (Or.inr (Or.inl h4))))) hout
    by_cases h5 : is_aria_ecb ctx.cipher_type = true
    · simp only [h1, h2, h3, h4, h5, if_true, if_false] at hout ⊢
      rw [ecb_case_eq _ ctx bin q out hblk hlen
        (hblock (Or.inr (Or.inr (Or.inr (Or.inr (Or.inl h5)))))) hout]
      exact ⟨_, rfl, rfl, rfl, rfl⟩
    by_cases h6 : is_aria_cbc ctx.cipher_type = true
    · simp only [h1, h2, h3, h4, h5, h6, if_true, if_false] at hout ⊢
      exact nonce_cbc_case_eq _ ctx bin q out hblk
        (hblock (Or.inr (Or.inr (Or.inr (Or.inr (Or.inr h6)))))) hout
    by_cases h7 : ctx.cipher_type = Sym.SYM_CHACHA20
    · simp only [h1, h2, h3, h4, h5, h6, if_false] at hout ⊢
      rw [if_pos h7] at hout ⊢
      exact chacha20_case_eq P s ctx bin q out hout
    · simp [h1, h2, h3, h4, h5, h6, h7] at hout

/-- The primitive yields as many bytes as it is given, for block-aligned input. -/
theorem prim_out_length (P : Prims σ) (ctx : CRYPT_CTX σ) (q out : List Nat)
    (h16 : q.length % 16 = 0 ∨ ctx.cipher_type = Sym.SYM_CHACHA20)
    (hout : prim_out P ctx q = some out) : out.length = q.length := by
  unfold prim_out at hout
  cases hs : ctx.cipher_ctx with
  | none => simp [hs] at hout
  | some s =>
    have hblock : ∀ (_ : is_aes_ecb ctx.cipher_type = true ∨ is_aes_cbc ctx.cipher_type = true ∨
        is_camellia_ecb ctx.cipher_type = true ∨ is_camellia_cbc ctx.cipher_type = true ∨
        is_aria_ecb ctx.cipher_type = true ∨ is_aria_cbc ctx.cipher_type = true),
        q.length % 16 = 0 := by
      intro hb
      rcases h16 with h | h
      · exact h
      · exact absurd h (not_chacha20_of_block _ hb)
    simp only [hs] at hout
    split_ifs at hout with h1 h2 h3 h4 h5 h6 h7 h8
    · have := ecb_out_length _ _ _ _ hout
      have := hblock (Or.inl h1)
      omega
    · exact cbc_out_length _ _ _ _ hout
    · have := ecb_out_length _ _ _ _ hout
      have := hblock (Or.inr (Or.inr (Or.inl h3)))
      omega
    · exact cbc_out_length _ _ _ _ hout
    · have := ecb_out_length _ _ _ _ hout
      have := hblock (Or.inr (Or.inr (Or.inr (Or.inr (Or.inl h5)))))
      omega
    · exact cbc_out_length _ _ _ _ hout
    · simp only [Option.some.injEq] at hout
      subst hout
      simp [wr]

/-- Update on a non-AEAD context with an empty unprocessed buffer changes nothing. -/
theorem Crypt_Update_idle (P : Prims σ) (ctx : CRYPT_CTX σ)
    (ht : ctx.cipher_type ≠ Sym.SYM_CHACHA20_POLY1305) (hulen : ctx.unprocessed_len = 0) :
    Crypt_Update P ctx = some (Outcome.ret Ret.R_ARG1, ctx) := by
  simp [Crypt_Update, ht, hulen]

/-- Update on a non-AEAD context with a non-empty unprocessed buffer: the buffer is zero-padded
and handed to `Crypt_Crypt`. -/
theorem Crypt_Update_block (P : Prims σ) (ctx c1 : CRYPT_CTX σ) (bin : List Nat) (e : Int)
    (o : Nat) (ht : ctx.cipher_type ≠ Sym.SYM_CHACHA20_POLY1305)
    (hbuf : ctx.buffer = some bin) (hpos : 0 < ctx.unprocessed_len)
    (hle : ctx.unprocessed_len ≤ ctx.cipher_block_size)
    (hc : Crypt_Crypt P
        { ctx with unprocessed_data := (CLEAR_AT ctx.unprocessed_data ctx.unprocessed_len
            (ctx.cipher_block_size - ctx.unprocessed_len)) }
        (CLEAR_AT ctx.unprocessed_data ctx.unprocessed_len
            (ctx.cipher_block_size - ctx.unprocessed_len))
        ctx.cipher_block_size = some (e, c1, o)) :
    Crypt_Update P ctx = some (Outcome.ret Ret.R_ARG1, { c1 with unprocessed_len := 0 }) := by
  have h1 : ¬ ctx.cipher_block_size < ctx.unprocessed_len := by omega
  rw [hbuf] at hc
  simp [Crypt_Update, ht, hbuf, hpos, h1, hc]

/-- A non-AEAD identifier is not `chacha20-poly1305`. -/
theorem non_aead_ne_chachapoly (t : Sym) (h : is_non_aead t = true) :
    t ≠ Sym.SYM_CHACHA20_POLY1305 := by
  intro ht
  subst ht
  simp [is_non_aead, is_aes_ecb, is_aes_cbc, is_camellia_ecb, is_camellia_cbc, is_aria_ecb,
    is_aria_cbc] at h

/-- What the switch of `Crypt_Init` leaves alone, and the state it sets. -/
theorem Crypt_Init_switch_spec (P : Prims σ) (s : σ) (c : CRYPT_CTX σ) :
    (Crypt_Init_switch P s c).2.buffer = c.buffer ∧
    (Crypt_Init_switch P s c).2.unprocessed_len = c.unprocessed_len ∧
    (Crypt_Init_switch P s c).2.unprocessed_data = c.unprocessed_data ∧
    (Crypt_Init_switch P s c).2.cipher_type = c.cipher_type ∧
    (Crypt_Init_switch P s c).2.cipher_block_size = c.cipher_block_size ∧
    ((Crypt_Init_switch P s c).1 = 0 → c.cipher_type ≠ Sym.SYM_CHACHA20_POLY1305 →
      (Crypt_Init_switch P s c).2.state = PortState.CRYPT_PORT_READY) ∧
    ((Crypt_Init_switch P s c).1 ≠ 0 → (Crypt_Init_switch P s c).2.state = c.state) := by
  unfold Crypt_Init_switch
  simp only
  split_ifs <;> simp_all

/-- What `Crypt_Init` resets, what it leaves alone, and the state it sets. -/
theorem Crypt_Init_spec (P : Prims σ) (c c1 : CRYPT_CTX σ) (e : Int)
    (h : Crypt_Init P c = some (e, c1)) :
    c1.buffer = some [] ∧ c1.unprocessed_len = 0 ∧
    c1.unprocessed_data = CLEAR MBEDTLS_MAX_BLOCK_LENGTH ∧
    c1.cipher_type = c.cipher_type ∧ c1.cipher_block_size = c.cipher_block_size ∧
    (e = 0 → c.cipher_type ≠ Sym.SYM_CHACHA20_POLY1305 →
      c1.state = PortState.CRYPT_PORT_READY) ∧
    (e ≠ 0 → c1.state = c.state) := by
  unfold Crypt_Init at h
  split at h
  · simp at h
  · simp only at h
    split_ifs at h with hc
    · cases hs : c.cipher_ctx with
      | none => simp [hs] at h
      | some s =>
        simp only [hs, Option.some.injEq] at h
        have hsp := Crypt_Init_switch_spec P s
          { c with buffer := some [], unprocessed_data := CLEAR MBEDTLS_MAX_BLOCK_LENGTH,
                   unprocessed_len := 0 }
        simp only [hs] at hsp
        rw [h] at hsp
        exact hsp
    · simp only [Option.some.injEq, Prod.mk.injEq] at h
      obtain ⟨rfl, rfl⟩ := h
      simp

/-- C9 (evaluation of the code): `init_crypt_algorithm` given a word that is none of the
enumerated algorithm identifiers reports success and records that word as the context's
algorithm (the `switch` has no `default`). -/
theorem C9_unknown_word_accepted (P : Prims σ) (ctx : CRYPT_CTX σ) (n : Nat) :
    (init_crypt_algorithm P ctx (REBVAL.word (Sym.other n))).1 = true ∧
    (init_crypt_algorithm P ctx (REBVAL.word (Sym.other n))).2.cipher_type = Sym.other n := by
  simp [init_crypt_algorithm, is_aes_ecb, is_aes_cbc, is_camellia_ecb, is_camellia_cbc,
    is_aria_ecb, is_aria_cbc]

/-! ### Legal order of the port actions -/

/-- C1 (evaluation of the code): on a freshly opened AES-128-ECB port, one Write of the sixteen
bytes of `"HelloHelloHello!"` leaves the output buffer empty, while the same bytes written as
two chunks of eight leave a sixteen-byte output buffer. -/
theorem C1_one_write_differs_from_two :
    (Port_run toy zero_ctx (closed_port Sym.SYM_AES_128_ECB REBVAL.none zero_key16 Sym.SYM_ENCRYPT)
        [Action.A_OPEN, Action.A_WRITE (REBVAL.binary hello16)]).map (fun r => r.2.output)
      = some (some []) ∧
    (Port_run toy zero_ctx (closed_port Sym.SYM_AES_128_ECB REBVAL.none zero_key16 Sym.SYM_ENCRYPT)
        [Action.A_OPEN, Action.A_WRITE (REBVAL.binary (hello16.take 8)),
         Action.A_WRITE (REBVAL.binary (hello16.drop 8))]).map (fun r => r.2.output)
      = some (some [73, 100, 109, 109, 110, 73, 100, 109, 109, 110, 73, 100, 109, 109, 110, 32]) := by
  decide

/-- C2 (evaluation of the code): after Open and one Write of sixteen bytes on an AES-128-ECB
port, `unprocessed_len` is 16, equal to `cipher_block_size`: the unprocessed buffer holds a full
block. -/
theorem C2_full_block_left_unprocessed :
    ((Port_run toy zero_ctx (closed_port Sym.SYM_AES_128_ECB REBVAL.none zero_key16 Sym.SYM_ENCRYPT)
        [Action.A_OPEN, Action.A_WRITE (REBVAL.binary hello16)]).bind (fun r => r.2.ctx)).map
        (fun c => (c.unprocessed_len, c.cipher_block_size))
      = some (16, 16) := by
  decide

/-! ### The duplex native -/

/-- C6: in `/decrypt`, when the recomputed Poly1305 tag does not verify against the last 16
bytes of the cipher argument, the native returns `none`; the result then carries no bytes. -/
theorem C6_duplex_decrypt_fail_closed (L : ChaChaLib χ π) (new_ctx : chacha20poly1305_ctx χ)
    (chacha : chacha20poly1305_ctx χ) (cipher aad : List Nat)
    (hbad : decrypt_verify L chacha cipher aad = false) :
    (chacha20poly1305 L new_ctx (decrypt_args chacha cipher aad)).1 = NativeResult.R_NONE := by
  simp only [chacha20poly1305, decrypt_args]
  by_cases hlen : ((cipher.length : Int) - (POLY1305_TAGLEN : Int)) ≤ 0
  · simp [hlen]
  · have htn : ((cipher.length : Int) - (POLY1305_TAGLEN : Int)).toNat
        = cipher.length - POLY1305_TAGLEN := by omega
    simp only [decrypt_verify] at hbad
    simp [hlen, htn, hbad]

/-- C6, at a concrete input: the message made by `/encrypt` of `"HelloHelloHello!"` with a
five-byte AAD verifies; with the last byte of its tag changed from 55 to 54 it does not, and
`/decrypt` returns `none`. -/
theorem C6_duplex_decrypt_fail_closed_witness :
    (chacha20poly1305 toyLib zero_duplex (encrypt_args duplex_ones hello16 [1, 2, 3, 4, 5])).1
      = NativeResult.R_ARG1_binary
          (hello16.map (fun b => Nat.xor b 2) ++ List.replicate 15 55 ++ [55]) ∧
    decrypt_verify toyLib duplex_ones
        (hello16.map (fun b => Nat.xor b 2) ++ List.replicate 15 55 ++ [55]) [1, 2, 3, 4, 5]
      = true ∧
    decrypt_verify toyLib duplex_ones
        (hello16.map (fun b => Nat.xor b 2) ++ List.replicate 15 55 ++ [54]) [1, 2, 3, 4, 5]
      = false ∧
    (chacha20poly1305 toyLib zero_duplex
        (decrypt_args duplex_ones
          (hello16.map (fun b => Nat.xor b 2) ++ List.replicate 15 55 ++ [54])
          [1, 2, 3, 4, 5])).1 = NativeResult.R_NONE :=
  ⟨by decide, by decide, by decide,
   C6_duplex_decrypt_fail_closed toyLib zero_duplex duplex_ones _ _ (by decide)⟩

/-- C7 (counterexample): with both keys 32 bytes `0x01` and both IVs 12 zero bytes, `/decrypt`
(AAD `"msg1"`) of the result of `/encrypt` of the empty plaintext with AAD `"msg1"` returns
`none`, not the binary `"msg1"`. -/
theorem C7_counterexample :
    duplex_round_trip toyLib zero_duplex ones_key32 zero_iv12 [] msg1
        = some NativeResult.R_NONE ∧
    duplex_round_trip toyLib zero_duplex ones_key32 zero_iv12 [] msg1
        ≠ some (NativeResult.R_ARG1_binary msg1) := by
  decide

/-- C7 (amended): whatever the ChaCha20 and Poly1305 helpers compute, in the scenario with both
keys 32 bytes `0x01` and both IVs 12 zero bytes, `/encrypt` of the empty plaintext with any AAD
returns a binary of exactly 16 bytes (the tag alone), and `/decrypt` of that binary returns
`none`, because a cipher argument with no payload beyond the tag is rejected by the length
check. -/
theorem C7_empty_plaintext_decrypts_to_none (L : ChaChaLib χ π)
    (new_ctx : chacha20poly1305_ctx χ) (aad : List Nat) :
    duplex_round_trip L new_ctx ones_key32 zero_iv12 [] aad = some NativeResult.R_NONE ∧
    ∃ c0 c c1,
      chacha20poly1305 L new_ctx (init_args ones_key32 zero_iv12 ones_key32 zero_iv12)
        = (NativeResult.R_ARG1_handle, some c0) ∧
      chacha20poly1305 L new_ctx (encrypt_args c0 [] aad)
        = (NativeResult.R_ARG1_binary c, some c1) ∧
      c.length = 16 := by
  constructor
  · simp [duplex_round_trip, chacha20poly1305, init_args, encrypt_args, decrypt_args,
      ones_key32, zero_iv12, POLY1305_TAGLEN, wr]
  · simp [chacha20poly1305, init_args, encrypt_args, ones_key32, zero_iv12, POLY1305_TAGLEN, wr]

/-! ### The ChaCha20-Poly1305 port and tampering -/

/-- C5 (counterexample): the ChaCha20-Poly1305 port with key `ones_key32` and IV `zero_iv12`
encrypts `"HelloHelloHello!"` under the AAD `"msg1"` to the ciphertext `74, 103, ...` and the
tag `1, 3, ..., 31`.  Fed to the decrypting port with the lowest bit of the first ciphertext
byte flipped (75 for 74), every action returns normally (no failure is raised), the Write
places the plaintext candidate in the output buffer, and Read returns it with the tag computed
by the primitive. -/
theorem C5_counterexample :
    (Port_run toy zero_ctx (chachapoly_port Sym.SYM_ENCRYPT)
        [Action.A_OPEN, Action.A_WRITE (REBVAL.binary msg1),
         Action.A_WRITE (REBVAL.binary hello16), Action.A_UPDATE, Action.A_READ]).map
        (fun r => r.1)
      = some [Outcome.ret Ret.R_ARG1, Outcome.ret Ret.R_ARG1, Outcome.ret Ret.R_ARG1,
              Outcome.ret Ret.R_ARG1,
              Outcome.ret (Ret.R_RET
                ([74, 103, 110, 110, 109, 74, 103, 110, 110, 109, 74, 103, 110, 110, 109, 35]
                  ++ [1, 3, 5, 7, 9, 11, 13, 15, 17, 19, 21, 23, 25, 27, 29, 31]))] ∧
    (Port_run toy zero_ctx (chachapoly_port Sym.SYM_DECRYPT)
        [Action.A_OPEN, Action.A_WRITE (REBVAL.binary msg1),
         Action.A_WRITE (REBVAL.binary
           [75, 103, 110, 110, 109, 74, 103, 110, 110, 109, 74, 103, 110, 110, 109, 35])]).map
        (fun r => (r.1, r.2.output))
      = some ([Outcome.ret Ret.R_ARG1, Outcome.ret Ret.R_ARG1, Outcome.ret Ret.R_ARG1],
              some [73, 101, 108, 108, 111, 72, 101, 108, 108, 111, 72, 101, 108, 108, 111, 33]) ∧
    (Port_run toy zero_ctx (chachapoly_port Sym.SYM_DECRYPT)
        [Action.A_OPEN, Action.A_WRITE (REBVAL.binary msg1),
         Action.A_WRITE (REBVAL.binary
           [75, 103, 110, 110, 109, 74, 103, 110, 110, 109, 74, 103, 110, 110, 109, 35]),
         Action.A_UPDATE, Action.A_READ]).map (fun r => r.1)
      = some [Outcome.ret Ret.R_ARG1, Outcome.ret Ret.R_ARG1, Outcome.ret Ret.R_ARG1,
              Outcome.ret Ret.R_ARG1,
              Outcome.ret (Ret.R_RET
                ([73, 101, 108, 108, 111, 72, 101, 108, 108, 111, 72, 101, 108, 108, 111, 33]
                  ++ [2, 4, 6, 8, 10, 12, 14, 16, 18, 20, 22, 24, 26, 28, 30, 32]))] := by
  decide

/-- C5 (amended): on a ChaCha20-Poly1305 port in state Ready (decrypt direction included), a
Write of `n ≥ 1` bytes for which the primitive's update succeeds returns normally and appends
at once the `n` bytes produced by the primitive (the plaintext candidate) to the output buffer;
Update returns normally whatever the primitive's finish reports, appends the 16 tag bytes the
primitive computed and sets the state to NeedsAAD.  The port compares no tag and raises no
authentication failure. -/
theorem C5_port_outputs_without_verifying (P : Prims σ) (new_ctx : CRYPT_CTX σ)
    (spec : Option PortSpec) (ctx : CRYPT_CTX σ) (s : σ) (bin input : List Nat)
    (htype : ctx.cipher_type = Sym.SYM_CHACHA20_POLY1305)
    (hstate : ctx.state = PortState.CRYPT_PORT_READY)
    (hblk : ctx.cipher_block_size = 0) (hulen : ctx.unprocessed_len = 0)
    (hbuf : ctx.buffer = some bin) (hctx : ctx.cipher_ctx = some s)
    (hlen : 0 < input.length)
    (hok : (P.mbedtls_chachapoly_update s input.length input).1 = 0) :
    (∃ ctx1, Crypt_Actor P new_ctx ⟨spec, StateVal.crypt ctx⟩ (Action.A_WRITE (REBVAL.binary input))
          = some (Outcome.ret Ret.R_ARG1, ⟨spec, StateVal.crypt ctx1⟩) ∧
        ctx1.buffer
          = some (bin ++ wr input.length (P.mbedtls_chachapoly_update s input.length input).2.2)) ∧
    (∃ ctx2, Crypt_Actor P new_ctx ⟨spec, StateVal.crypt ctx⟩ Action.A_UPDATE
          = some (Outcome.ret Ret.R_ARG1, ⟨spec, StateVal.crypt ctx2⟩) ∧
        ctx2.buffer = some (bin ++ wr 16 (P.mbedtls_chachapoly_finish s).2.2) ∧
        ctx2.state = PortState.CRYPT_PORT_NEEDS_AAD) := by
  have hne : input.length ≠ 0 := by omega
  constructor
  · simp [Crypt_Actor, Crypt_Write, Crypt_Write_body, Crypt_Write_direct, Crypt_Write_tail,
      Crypt_Crypt, Crypt_Crypt_switch, chachapoly_case, is_cipher, hne, hstate, hblk, hulen,
      hbuf, hctx, htype, hok, hlen, sub32, MBEDTLS_MAX_BLOCK_LENGTH, is_aes_ecb, is_aes_cbc,
      is_camellia_ecb, is_camellia_cbc, is_aria_ecb, is_aria_cbc]
  · simp [Crypt_Actor, Crypt_Update, htype, hbuf, hctx]

/-- C5 (amended), at a concrete input: the decrypting port after the AAD `"msg1"`, given the
tampered ciphertext. -/
theorem C5_port_outputs_without_verifying_witness :
    (∃ ctx1, Crypt_Actor toy zero_ctx ⟨Option.none, StateVal.crypt chachapoly_ready⟩
          (Action.A_WRITE (REBVAL.binary
            [75, 103, 110, 110, 109, 74, 103, 110, 110, 109, 74, 103, 110, 110, 109, 35]))
          = some (Outcome.ret Ret.R_ARG1, ⟨Option.none, StateVal.crypt ctx1⟩) ∧
        ctx1.buffer
          = some ([] ++ wr 16 (toy.mbedtls_chachapoly_update ⟨2, 752, true⟩ 16
              [75, 103, 110, 110, 109, 74, 103, 110, 110, 109, 74, 103, 110, 110, 109, 35]).2.2)) ∧
    (∃ ctx2, Crypt_Actor toy zero_ctx ⟨Option.none, StateVal.crypt chachapoly_ready⟩
          Action.A_UPDATE
          = some (Outcome.ret Ret.R_ARG1, ⟨Option.none, StateVal.crypt ctx2⟩) ∧
        ctx2.buffer = some ([] ++ wr 16 (toy.mbedtls_chachapoly_finish ⟨2, 752, true⟩).2.2) ∧
        ctx2.state = PortState.CRYPT_PORT_NEEDS_AAD) :=
  C5_port_outputs_without_verifying toy zero_ctx Option.none chachapoly_ready ⟨2, 752, true⟩ []
    [75, 103, 110, 110, 109, 74, 103, 110, 110, 109, 74, 103, 110, 110, 109, 35]
    (by decide) (by decide) (by decide) (by decide) (by decide) (by decide) (by decide)
    (by decide)

/-! ### The output buffer between drains -/

/-- C8 (counterexample): on an AES-128-ECB port, after Open and a Write of 32 bytes the output
buffer holds 32 bytes; a Modify of the key followed by a Write of one byte leaves it empty,
although no Read, Take or Close took place. -/
theorem C8_counterexample :
    (Port_run toy zero_ctx (aes128_port Sym.SYM_ENCRYPT)
        [Action.A_OPEN, Action.A_WRITE (REBVAL.binary (hello16 ++ hello16))]).map
        (fun r => r.2.output.map List.length)
      = some (some 32) ∧
    (Port_run toy zero_ctx (aes128_port Sym.SYM_ENCRYPT)
        [Action.A_OPEN, Action.A_WRITE (REBVAL.binary (hello16 ++ hello16)),
         Action.A_MODIFY (REBVAL.word Sym.SYM_KEY) (REBVAL.binary ones_key32),
         Action.A_WRITE (REBVAL.binary [1])]).map (fun r => (r.1, r.2.output))
      = some ([Outcome.ret Ret.R_ARG1, Outcome.ret Ret.R_ARG1, Outcome.ret Ret.R_ARG1,
               Outcome.ret Ret.R_ARG1], some []) := by
  decide

/-- C8 (amended): on an open port whose output buffer holds `bin`, an Update, a Modify, or a
Write sent while the state is not NeedsInit keeps `bin` as a prefix of the output buffer (so
its length does not decrease); a non-empty Write sent in state NeedsInit (the first one after
Open or after a Modify) re-initialises the context and discards `bin`: it ends exactly as on
the same context with an empty output buffer. -/
theorem C8_output_kept_unless_reinitialised (P : Prims σ) (new_ctx : CRYPT_CTX σ)
    (spec : Option PortSpec) (ctx : CRYPT_CTX σ) (bin : List Nat)
    (hbuf : ctx.buffer = some bin) :
    (∀ a o port1,
        (a = Action.A_UPDATE ∨ (∃ f v, a = Action.A_MODIFY f v) ∨
          (∃ v, a = Action.A_WRITE v ∧ ctx.state ≠ PortState.CRYPT_PORT_NEEDS_INIT)) →
        Crypt_Actor P new_ctx ⟨spec, StateVal.crypt ctx⟩ a = some (o, port1) →
        ∃ bin1, port1.output = some bin1 ∧ bin <+: bin1) ∧
    (∀ x : List Nat, x ≠ [] → ctx.state = PortState.CRYPT_PORT_NEEDS_INIT →
        Crypt_Actor P new_ctx ⟨spec, StateVal.crypt ctx⟩ (Action.A_WRITE (REBVAL.binary x))
          = Crypt_Actor P new_ctx ⟨spec, StateVal.crypt { ctx with buffer := some [] }⟩
              (Action.A_WRITE (REBVAL.binary x))) := by
  constructor
  · intro a o port1 ha hrun
    rcases ha with rfl | ⟨f, v, rfl⟩ | ⟨v, rfl, hstate⟩
    · simp only [Crypt_Actor] at hrun
      cases hu : Crypt_Update P ctx with
      | none => simp [hu] at hrun
      | some r =>
        obtain ⟨bin1, hb1, hp⟩ := Crypt_Update_prefix P ctx bin r hbuf hu
        simp only [hu, Option.some.injEq, Prod.mk.injEq] at hrun
        rw [← hrun.2]
        exact ⟨bin1, hb1, hp⟩
    · simp only [Crypt_Actor, Option.some.injEq, Prod.mk.injEq] at hrun
      rw [← hrun.2]
      exact ⟨bin, by simp [Port.output, Crypt_Modify_buffer, hbuf], List.prefix_refl _⟩
    · cases v with
      | binary bytes =>
        simp only [Crypt_Actor] at hrun
        cases hw : Crypt_Write P ctx bytes with
        | none => simp [hw] at hrun
        | some r =>
          obtain ⟨bin1, hb1, hp⟩ := Crypt_Write_prefix P ctx bytes bin r hbuf hstate hw
          simp only [hw, Option.some.injEq, Prod.mk.injEq] at hrun
          rw [← hrun.2]
          exact ⟨bin1, hb1, hp⟩
      | none | word _ | string _ | other _ =>
        simp only [Crypt_Actor, Option.some.injEq, Prod.mk.injEq] at hrun
        rw [← hrun.2]
        exact ⟨bin, hbuf, List.prefix_refl _⟩
  · intro x hx hstate
    have hlen : x.length ≠ 0 := by
      intro h0
      exact hx (List.length_eq_zero.mp h0)
    simp [Crypt_Actor, Crypt_Write, hlen, hstate, Crypt_Init_ignores_buffer P ctx bin hbuf]

/-- C8 (amended), at concrete inputs: an Update on the ChaCha20-Poly1305 context
`chachapoly_ready` with an output buffer of three bytes, and a Write of sixteen bytes on the
same context put in state NeedsInit. -/
theorem C8_output_kept_unless_reinitialised_witness :
    (∃ bin1, (Port.mk Option.none (StateVal.crypt
          { chachapoly_ready with
              buffer := some ([7, 8, 9] ++ toy_tag ⟨2, 752, true⟩),
              state := PortState.CRYPT_PORT_NEEDS_AAD })).output = some bin1 ∧
        [7, 8, 9] <+: bin1) ∧
    Crypt_Actor toy zero_ctx
        ⟨Option.none, StateVal.crypt { chachapoly_ready with
            buffer := some [7, 8, 9], state := PortState.CRYPT_PORT_NEEDS_INIT }⟩
        (Action.A_WRITE (REBVAL.binary hello16))
      = Crypt_Actor toy zero_ctx
          ⟨Option.none, StateVal.crypt { chachapoly_ready with
              buffer := some [], state := PortState.CRYPT_PORT_NEEDS_INIT }⟩
          (Action.A_WRITE (REBVAL.binary hello16)) :=
  ⟨(C8_output_kept_unless_reinitialised toy zero_ctx Option.none
      { chachapoly_ready with buffer := some [7, 8, 9] } [7, 8, 9] rfl).1
      Action.A_UPDATE (Outcome.ret Ret.R_ARG1) _ (Or.inl rfl) (by decide),
   (C8_output_kept_unless_reinitialised toy zero_ctx Option.none
      { chachapoly_ready with buffer := some [7, 8, 9],
                              state := PortState.CRYPT_PORT_NEEDS_INIT } [7, 8, 9] rfl).2
      hello16 (by decide) rfl⟩

/-! ### Round trips through the port -/

/-- C11 (evaluation of the code): OpenQ on a port with an attached context returns `true`; on a
port with no attached context it does not return `false` but raises `not-open`, because the
guard for a missing context comes before the `A_OPENQ` case. -/
theorem C11_openq_on_closed_port_raises (P : Prims σ) (new_ctx : CRYPT_CTX σ)
    (spec : Option PortSpec) (ctx : CRYPT_CTX σ) :
    Crypt_Actor P new_ctx ⟨spec, StateVal.crypt ctx⟩ Action.A_OPENQ
        = some (Outcome.ret Ret.R_TRUE, ⟨spec, StateVal.crypt ctx⟩) ∧
    Crypt_Actor P new_ctx ⟨spec, StateVal.not_handle⟩ Action.A_OPENQ
        = some (Outcome.trap Trap.RE_NOT_OPEN, ⟨spec, StateVal.not_handle⟩) ∧
    Crypt_Actor P new_ctx ⟨spec, StateVal.not_handle⟩ Action.A_OPENQ
        ≠ some (Outcome.ret Ret.R_FALSE, ⟨spec, StateVal.not_handle⟩) := by
  simp [Crypt_Actor]

/-- C12: on an open port whose output buffer holds the bytes `bin`, Read (and Take) returns a
binary equal to `bin` and leaves the output buffer empty when `bin` is not empty, and returns
`none`, changing nothing, when it is empty; so a Read right after a Read or Take returns
`none`. -/
theorem C12_drain_semantics (P : Prims σ) (new_ctx : CRYPT_CTX σ) (spec : Option PortSpec)
    (ctx : CRYPT_CTX σ) (bin : List Nat) (a : Action)
    (ha : a = Action.A_READ ∨ a = Action.A_TAKE) (hbuf : ctx.buffer = some bin) :
    (0 < bin.length →
      Crypt_Actor P new_ctx ⟨spec, StateVal.crypt ctx⟩ a
        = some (Outcome.ret (Ret.R_RET bin),
                ⟨spec, StateVal.crypt { ctx with buffer := some [] }⟩) ∧
      Port_run P new_ctx ⟨spec, StateVal.crypt ctx⟩ [a, Action.A_READ]
        = some ([Outcome.ret (Ret.R_RET bin), Outcome.ret Ret.R_NONE],
                ⟨spec, StateVal.crypt { ctx with buffer := some [] }⟩)) ∧
    (bin.length = 0 →
      Crypt_Actor P new_ctx ⟨spec, StateVal.crypt ctx⟩ a
        = some (Outcome.ret Ret.R_NONE, ⟨spec, StateVal.crypt ctx⟩)) := by
  constructor
  · intro hpos
    rcases ha with rfl | rfl <;> simp [Port_run, Crypt_Actor, hbuf, hpos]
  · intro h0
    rcases ha with rfl | rfl <;> simp [Crypt_Actor, hbuf, h0]

/-- C12, at a concrete port: a Take on an output buffer of three bytes followed by a Read, and a
Read on an empty output buffer. -/
theorem C12_drain_semantics_witness :
    (Crypt_Actor toy zero_ctx
        ⟨Option.none, StateVal.crypt { chachapoly_ready with buffer := some [7, 8, 9] }⟩
        Action.A_TAKE
      = some (Outcome.ret (Ret.R_RET [7, 8, 9]),
              ⟨Option.none, StateVal.crypt { chachapoly_ready with buffer := some [] }⟩) ∧
     Port_run toy zero_ctx
        ⟨Option.none, StateVal.crypt { chachapoly_ready with buffer := some [7, 8, 9] }⟩
        [Action.A_TAKE, Action.A_READ]
      = some ([Outcome.ret (Ret.R_RET [7, 8, 9]), Outcome.ret Ret.R_NONE],
              ⟨Option.none, StateVal.crypt { chachapoly_ready with buffer := some [] }⟩)) ∧
    Crypt_Actor toy zero_ctx ⟨Option.none, StateVal.crypt chachapoly_ready⟩ Action.A_READ
      = some (Outcome.ret Ret.R_NONE, ⟨Option.none, StateVal.crypt chachapoly_ready⟩) :=
  ⟨(C12_drain_semantics toy zero_ctx Option.none
      { chachapoly_ready with buffer := some [7, 8, 9] } [7, 8, 9] Action.A_TAKE
      (Or.inr rfl) rfl).1 (by decide),
   (C12_drain_semantics toy zero_ctx Option.none chachapoly_ready [] Action.A_READ
      (Or.inl rfl) rfl).2 rfl⟩

/-! ### Key, IV and algorithm configuration -/

/-- C15: `init_crypt_key` with `none` succeeds and zeroes the whole stored key; with a binary of
length `n ≥ 1` it succeeds for every `n` and leaves the stored key equal to the first
`min n MBEDTLS_MAX_KEY_LENGTH` bytes of the input followed by zero bytes up to the capacity; in
both cases the state becomes NeedsInit and nothing else changes. -/
theorem C15_set_key_bounded_copy (ctx : CRYPT_CTX σ) :
    init_crypt_key ctx (some REBVAL.none)
      = (true, { ctx with state := PortState.CRYPT_PORT_NEEDS_INIT,
                          key := List.replicate MBEDTLS_MAX_KEY_LENGTH 0 }) ∧
    ∀ bin : List Nat, 0 < bin.length →
      init_crypt_key ctx (some (REBVAL.binary bin))
        = (true, { ctx with
            state := PortState.CRYPT_PORT_NEEDS_INIT,
            key := bin.take (min bin.length MBEDTLS_MAX_KEY_LENGTH)
              ++ List.replicate
                  (MBEDTLS_MAX_KEY_LENGTH - min bin.length MBEDTLS_MAX_KEY_LENGTH) 0 }) := by
  constructor
  · simp [init_crypt_key, CLEAR]
  · intro bin hpos
    by_cases h : MBEDTLS_MAX_KEY_LENGTH < bin.length
    · have hm : min bin.length MBEDTLS_MAX_KEY_LENGTH = MBEDTLS_MAX_KEY_LENGTH := by omega
      simp [init_crypt_key, CLEAR, COPY_MEM, hpos, h, hm]
    · have hm : min bin.length MBEDTLS_MAX_KEY_LENGTH = bin.length := by omega
      simp [init_crypt_key, CLEAR, COPY_MEM, hpos, h, hm]

/-- C15, at concrete inputs: a key of three bytes, and a key of seventy bytes, which is cut to
its first sixty-four. -/
theorem C15_set_key_bounded_copy_witness :
    (init_crypt_key (zero_ctx : CRYPT_CTX ToyState) (some (REBVAL.binary [1, 2, 3]))).2.key
      = [1, 2, 3] ++ List.replicate 61 0 ∧
    (init_crypt_key (zero_ctx : CRYPT_CTX ToyState)
        (some (REBVAL.binary (List.replicate 70 9)))).2.key
      = List.replicate 64 9 :=
  ⟨by rw [(C15_set_key_bounded_copy (zero_ctx : CRYPT_CTX ToyState)).2 [1, 2, 3] (by decide)]
      decide,
   by rw [(C15_set_key_bounded_copy (zero_ctx : CRYPT_CTX ToyState)).2 (List.replicate 70 9)
        (by decide)]
      decide⟩

/-- C16 (counterexample): on an AES-128-CBC port opened with the IV `1, 2, 3`, a Modify of the
IV with the empty binary succeeds, and the configured IV is still `1, 2, 3` followed by zero
bytes, not all zero. -/
theorem C16_counterexample :
    (Port_run toy zero_ctx
        (closed_port Sym.SYM_AES_128_CBC (REBVAL.binary [1, 2, 3]) zero_key16 Sym.SYM_ENCRYPT)
        [Action.A_OPEN, Action.A_MODIFY (REBVAL.word Sym.SYM_IV) (REBVAL.binary [])]).map
        (fun r => (r.1, r.2.ctx.map (fun c => c.IV)))
      = some ([Outcome.ret Ret.R_ARG1, Outcome.ret Ret.R_ARG1],
              some ([1, 2, 3] ++ List.replicate 13 0)) ∧
    (init_crypt_iv chachapoly_ready (some (REBVAL.binary []))).1 = true ∧
    (init_crypt_iv chachapoly_ready (some (REBVAL.binary []))).2.nonce
      = [0, 0, 0, 0, 0, 0, 0, 0, 109, 115, 103, 49, 0, 0, 0, 0] := by
  decide

/-- C16 (amended): `init_crypt_iv` with `none` succeeds and zeroes both the configured IV and
the working nonce; with a binary of length `n ≥ 1` it succeeds and leaves the configured IV
equal to the first `min n MBEDTLS_MAX_IV_LENGTH` bytes of the input followed by zero bytes up to
the capacity and the working nonce all zero; with the empty binary it succeeds and leaves both
the configured IV and the working nonce as they were; in all three cases the state becomes
NeedsInit and nothing else changes. -/
theorem C16_set_iv (ctx : CRYPT_CTX σ) :
    init_crypt_iv ctx (some REBVAL.none)
      = (true, { ctx with state := PortState.CRYPT_PORT_NEEDS_INIT,
                          IV := List.replicate MBEDTLS_MAX_IV_LENGTH 0,
                          nonce := List.replicate MBEDTLS_MAX_IV_LENGTH 0 }) ∧
    (∀ bin : List Nat, 0 < bin.length →
      init_crypt_iv ctx (some (REBVAL.binary bin))
        = (true, { ctx with
            state := PortState.CRYPT_PORT_NEEDS_INIT,
            IV := bin.take (min bin.length MBEDTLS_MAX_IV_LENGTH)
              ++ List.replicate
                  (MBEDTLS_MAX_IV_LENGTH - min bin.length MBEDTLS_MAX_IV_LENGTH) 0,
            nonce := List.replicate MBEDTLS_MAX_IV_LENGTH 0 })) ∧
    init_crypt_iv ctx (some (REBVAL.binary []))
      = (true, { ctx with state := PortState.CRYPT_PORT_NEEDS_INIT }) := by
  refine ⟨?_, ?_, ?_⟩
  · simp [init_crypt_iv, CLEAR]
  · intro bin hpos
    by_cases h : MBEDTLS_MAX_IV_LENGTH < bin.length
    · have hm : min bin.length MBEDTLS_MAX_IV_LENGTH = MBEDTLS_MAX_IV_LENGTH := by omega
      simp [init_crypt_iv, CLEAR, COPY_MEM, hpos, h, hm]
    · have hm : min bin.length MBEDTLS_MAX_IV_LENGTH = bin.length := by omega
      simp [init_crypt_iv, CLEAR, COPY_MEM, hpos, h, hm]
  · simp [init_crypt_iv]

/-- C16 (amended), at concrete inputs: an IV of three bytes and an IV of twenty bytes, which is
cut to its first sixteen. -/
theorem C16_set_iv_witness :
    (init_crypt_iv chachapoly_ready (some (REBVAL.binary [1, 2, 3]))).2.IV
      = [1, 2, 3] ++ List.replicate 13 0 ∧
    (init_crypt_iv chachapoly_ready (some (REBVAL.binary (List.replicate 20 9)))).2.nonce
      = List.replicate 16 0 :=
  ⟨by rw [(C16_set_iv chachapoly_ready).2.1 [1, 2, 3] (by decide)]
      decide,
   by rw [(C16_set_iv chachapoly_ready).2.1 (List.replicate 20 9) (by decide)]
      decide⟩

/-- C17: for every ECB or CBC identifier (AES, Camellia, ARIA with 128, 192 or 256),
`init_crypt_algorithm` succeeds and leaves `cipher_block_size = 16`, `key_bitlen` equal to the
number in the identifier, `cipher_type` equal to the identifier and the state NeedsInit. -/
theorem C17_algorithm_table (P : Prims σ) (ctx : CRYPT_CTX σ) (e : Sym × Nat)
    (he : e ∈ ecb_cbc_table) :
    (init_crypt_algorithm P ctx (REBVAL.word e.1)).1 = true ∧
    (init_crypt_algorithm P ctx (REBVAL.word e.1)).2.cipher_block_size = 16 ∧
    (init_crypt_algorithm P ctx (REBVAL.word e.1)).2.key_bitlen = e.2 ∧
    (init_crypt_algorithm P ctx (REBVAL.word e.1)).2.cipher_type = e.1 ∧
    (init_crypt_algorithm P ctx (REBVAL.word e.1)).2.state
      = PortState.CRYPT_PORT_NEEDS_INIT := by
  simp only [ecb_cbc_table, List.mem_cons, List.mem_singleton, List.not_mem_nil, or_false] at he
  rcases he with h | h | h | h | h | h | h | h | h | h | h | h | h | h | h | h | h | h <;>
    (subst h
     simp [init_crypt_algorithm, is_aes_ecb, is_aes_cbc, is_camellia_ecb, is_camellia_cbc,
       is_aria_ecb, is_aria_cbc, key_bitlen_of])

/-- C17, at a concrete input: `camellia-192-cbc` on the zero-filled context. -/
theorem C17_algorithm_table_witness :
    (init_crypt_algorithm toy zero_ctx (REBVAL.word Sym.SYM_CAMELLIA_192_CBC)).1 = true ∧
    (init_crypt_algorithm toy zero_ctx (REBVAL.word Sym.SYM_CAMELLIA_192_CBC)).2.cipher_block_size
      = 16 ∧
    (init_crypt_algorithm toy zero_ctx (REBVAL.word Sym.SYM_CAMELLIA_192_CBC)).2.key_bitlen
      = 192 ∧
    (init_crypt_algorithm toy zero_ctx (REBVAL.word Sym.SYM_CAMELLIA_192_CBC)).2.cipher_type
      = Sym.SYM_CAMELLIA_192_CBC ∧
    (init_crypt_algorithm toy zero_ctx (REBVAL.word Sym.SYM_CAMELLIA_192_CBC)).2.state
      = PortState.CRYPT_PORT_NEEDS_INIT :=
  C17_algorithm_table toy zero_ctx (Sym.SYM_CAMELLIA_192_CBC, 192) (by decide)

/-! ### The ChaCha20-Poly1305 port: AAD and tag -/

/-- The working nonce after line 512 of `Crypt_Crypt`: the first twelve bytes of the IV, then
the old bytes of the nonce. -/
theorem aad_nonce_eq (nonce IV : List Nat) :
    COPY_MEM (CLEAR_AT nonce 0 12) 0 IV 12 = IV.take 12 ++ nonce.drop 12 := by
  simp [COPY_MEM, CLEAR_AT]

/-- Bytes before the offset are not touched by `xor_at`. -/
theorem xor_at_getD_lt (m a : List Nat) (ofs n i : Nat) (hi : i < ofs)
    (hm : ofs + n ≤ m.length) :
    (xor_at m ofs a n).getD i 0 = m.getD i 0 := by
  unfold xor_at
  rw [List.append_assoc, List.getD_append _ _ _ _ (by simp; omega)]
  simp [List.getD_eq_getElem?_getD, List.getElem?_take, hi]

/-- The byte at `ofs + j` after `xor_at` is the old byte xor-ed with `a[j]`. -/
theorem xor_at_getD_mid (m a : List Nat) (ofs n j : Nat) (hj : j < n)
    (hm : ofs + n ≤ m.length) (ha : n ≤ a.length) :
    (xor_at m ofs a n).getD (ofs + j) 0 = Nat.xor (m.getD (ofs + j) 0) (a.getD j 0) := by
  unfold xor_at
  have h1 : (List.take ofs m).length = ofs := by simp; omega
  rw [List.append_assoc, List.getD_append_right _ _ _ _ (by omega), h1,
    List.getD_append _ _ _ _ (by simp; omega)]
  have h2 : ofs + j - ofs = j := by omega
  rw [h2]
  have hj1 : j < (List.zipWith Nat.xor ((m.drop ofs).take n) (a.take n)).length := by
    simp; omega
  rw [List.getD_eq_getElem _ _ hj1, List.getElem_zipWith]
  have hj2 : ofs + j < m.length := by omega
  have hj3 : j < a.length := by omega
  rw [List.getD_eq_getElem _ _ hj2, List.getD_eq_getElem _ _ hj3]
  simp

/-- Storing the tail of the input touches neither the IV, the working nonce nor the state. -/
theorem Crypt_Write_tail_frame (ctx : CRYPT_CTX σ) (input : List Nat) (len : Nat) :
    (Crypt_Write_tail ctx input len).2.IV = ctx.IV ∧
    (Crypt_Write_tail ctx input len).2.nonce = ctx.nonce ∧
    (Crypt_Write_tail ctx input len).2.state = ctx.state := by
  unfold Crypt_Write_tail
  split_ifs <;> exact ⟨rfl, rfl, rfl⟩

/-- A non-empty `Crypt_Write` on a ChaCha20-Poly1305 context in state NeedsAAD: it has a result,
the output series is the same, the working nonce is derived from the IV and the input, and when
both `mbedtls_chachapoly_starts` and `mbedtls_chachapoly_update_aad` report success the result
is `CRYPT_OK`, the state Ready and `unprocessed_len` still zero; when one of them reports an
error the state is still NeedsAAD. -/
theorem Crypt_Write_aad (P : Prims σ) (ctx : CRYPT_CTX σ) (s : σ) (bin a : List Nat)
    (htype : ctx.cipher_type = Sym.SYM_CHACHA20_POLY1305)
    (hstate : ctx.state = PortState.CRYPT_PORT_NEEDS_AAD)
    (hblk : ctx.cipher_block_size = 0) (hulen : ctx.unprocessed_len = 0)
    (hbuf : ctx.buffer = some bin) (hctx : ctx.cipher_ctx = some s) (hlen : 0 < a.length) :
    ∃ r, Crypt_Write P ctx a = some r ∧ r.2.buffer = some bin ∧ r.2.IV = ctx.IV ∧
      r.2.nonce = xor_at (ctx.IV.take 12 ++ ctx.nonce.drop 12) (12 - min a.length 8) a
        (min a.length 8) ∧
      (((P.mbedtls_chachapoly_starts s r.2.nonce ctx.operation).1 = 0 ∧
        (P.mbedtls_chachapoly_update_aad
          (P.mbedtls_chachapoly_starts s r.2.nonce ctx.operation).2 a a.length).1 = 0) →
        r.1 = CryptResult.CRYPT_OK ∧ r.2.state = PortState.CRYPT_PORT_READY ∧
        r.2.unprocessed_len = 0) ∧
      (¬ ((P.mbedtls_chachapoly_starts s r.2.nonce ctx.operation).1 = 0 ∧
        (P.mbedtls_chachapoly_update_aad
          (P.mbedtls_chachapoly_starts s r.2.nonce ctx.operation).2 a a.length).1 = 0) →
        r.2.state = PortState.CRYPT_PORT_NEEDS_AAD) := by
  have hd : (if a.length < 8 then a.length else 8) = min a.length 8 := by
    split_ifs <;> omega
  have hs0 : sub32 0 0 = 0 := by decide
  have hne : a.length ≠ 0 := by omega
  have hcr : Crypt_Crypt P ctx a a.length = chachapoly_case P s ctx bin a a.length := by
    simp [Crypt_Crypt, Crypt_Crypt_switch, is_cipher, is_aes_ecb, is_aes_cbc, is_camellia_ecb,
      is_camellia_cbc, is_aria_ecb, is_aria_cbc, htype, hblk, hbuf, hctx, hne]
  have hw : Crypt_Write P ctx a = Crypt_Write_direct P ctx 0 a a.length := by
    simp [Crypt_Write, Crypt_Write_body, hstate, hblk, hulen, hs0, hne,
      MBEDTLS_MAX_BLOCK_LENGTH]
  rw [hw]
  unfold Crypt_Write_direct
  rw [if_neg hne, if_pos hlen, hcr]
  unfold chachapoly_case
  simp only [hstate, if_true, hd, aad_nonce_eq, List.take_length]
  by_cases h1 : (P.mbedtls_chachapoly_starts s
      (xor_at (ctx.IV.take 12 ++ ctx.nonce.drop 12) (12 - min a.length 8) a (min a.length 8))
      ctx.operation).1 = 0
  · by_cases h2 : (P.mbedtls_chachapoly_update_aad (P.mbedtls_chachapoly_starts s
        (xor_at (ctx.IV.take 12 ++ ctx.nonce.drop 12) (12 - min a.length 8) a (min a.length 8))
        ctx.operation).2 a a.length).1 = 0
    · simp [h1, h2, Crypt_Write_tail, hbuf, hulen]
    · simp [h1, h2, Crypt_Write_tail_buffer, Crypt_Write_tail_frame, hbuf]
  · simp [h1, Crypt_Write_tail_buffer, Crypt_Write_tail_frame, hbuf]

/-- C20: on a ChaCha20-Poly1305 port with the output `bin`, Update returns normally, leaves the
output equal to `bin` followed by exactly 16 bytes, the tag written by the primitive's finish,
and sets the state to NeedsAAD. -/
theorem C20_aead_finish (P : Prims σ) (new_ctx : CRYPT_CTX σ) (spec : Option PortSpec)
    (ctx : CRYPT_CTX σ) (s : σ) (bin : List Nat)
    (htype : ctx.cipher_type = Sym.SYM_CHACHA20_POLY1305)
    (hbuf : ctx.buffer = some bin) (hctx : ctx.cipher_ctx = some s) :
    ∃ ctx1 tag,
      Crypt_Actor P new_ctx ⟨spec, StateVal.crypt ctx⟩ Action.A_UPDATE
        = some (Outcome.ret Ret.R_ARG1, ⟨spec, StateVal.crypt ctx1⟩) ∧
      ctx1.buffer = some (bin ++ tag) ∧ tag.length = 16 ∧
      tag = wr 16 (P.mbedtls_chachapoly_finish s).2.2 ∧
      ctx1.state = PortState.CRYPT_PORT_NEEDS_AAD := by
  refine ⟨{ ctx with cipher_ctx := some (P.mbedtls_chachapoly_finish s).2.1,
                     buffer := some (bin ++ wr 16 (P.mbedtls_chachapoly_finish s).2.2),
                     state := PortState.CRYPT_PORT_NEEDS_AAD },
    wr 16 (P.mbedtls_chachapoly_finish s).2.2, ?_, rfl, by simp [wr], rfl, rfl⟩
  simp [Crypt_Actor, Crypt_Update, htype, hbuf, hctx]

/-- C20, at a concrete input: Update on the context `chachapoly_ready` with an output of three
bytes. -/
theorem C20_aead_finish_witness :
    ∃ ctx1 tag,
      Crypt_Actor toy zero_ctx
          ⟨Option.none, StateVal.crypt { chachapoly_ready with buffer := some [7, 8, 9] }⟩
          Action.A_UPDATE
        = some (Outcome.ret Ret.R_ARG1, ⟨Option.none, StateVal.crypt ctx1⟩) ∧
      ctx1.buffer = some ([7, 8, 9] ++ tag) ∧ tag.length = 16 ∧
      tag = wr 16 (toy.mbedtls_chachapoly_finish ⟨2, 752, true⟩).2.2 ∧
      ctx1.state = PortState.CRYPT_PORT_NEEDS_AAD :=
  C20_aead_finish toy zero_ctx Option.none { chachapoly_ready with buffer := some [7, 8, 9] }
    ⟨2, 752, true⟩ [7, 8, 9] (by decide) (by decide) (by decide)

/-- C18: for a ChaCha20-Poly1305 context in state NeedsAAD, a Write of the AAD bytes `a` of
length `n ≥ 1` leaves the first 12 bytes of the working nonce equal to the first 12 bytes of the
configured IV with the last `d = min n 8` of them XOR-ed with `a[0..d)`: `nonce[i] = IV[i]` for
`i < 12 - d` and `nonce[12 - d + j] = IV[12 - d + j] xor a[j]` for `j < d`. -/
theorem C18_aead_nonce_derivation (P : Prims σ) (ctx : CRYPT_CTX σ) (s : σ) (bin a : List Nat)
    (htype : ctx.cipher_type = Sym.SYM_CHACHA20_POLY1305)
    (hstate : ctx.state = PortState.CRYPT_PORT_NEEDS_AAD)
    (hblk : ctx.cipher_block_size = 0) (hulen : ctx.unprocessed_len = 0)
    (hbuf : ctx.buffer = some bin) (hctx : ctx.cipher_ctx = some s) (hlen : 1 ≤ a.length)
    (hiv : ctx.IV.length = MBEDTLS_MAX_IV_LENGTH)
    (hnonce : ctx.nonce.length = MBEDTLS_MAX_IV_LENGTH) :
    ∃ r, Crypt_Write P ctx a = some r ∧ r.2.IV = ctx.IV ∧
      (∀ i, i < 12 - min a.length 8 → r.2.nonce.getD i 0 = ctx.IV.getD i 0) ∧
      (∀ j, j < min a.length 8 →
        r.2.nonce.getD (12 - min a.length 8 + j) 0
          = Nat.xor (ctx.IV.getD (12 - min a.length 8 + j) 0) (a.getD j 0)) := by
  obtain ⟨r, hr, _, hIV, hn, _, _⟩ :=
    Crypt_Write_aad P ctx s bin a htype hstate hblk hulen hbuf hctx hlen
  simp only [MBEDTLS_MAX_IV_LENGTH] at hiv hnonce
  have hm : (ctx.IV.take 12 ++ ctx.nonce.drop 12).length = 16 := by simp; omega
  have hg : ∀ i, i < 12 → (ctx.IV.take 12 ++ ctx.nonce.drop 12).getD i 0 = ctx.IV.getD i 0 := by
    intro i hi
    rw [List.getD_append _ _ _ _ (by simp; omega)]
    simp [List.getD_eq_getElem?_getD, List.getElem?_take, hi]
  refine ⟨r, hr, hIV, ?_, ?_⟩
  · intro i hi
    rw [hn, xor_at_getD_lt _ _ _ _ _ hi (by omega)]
    exact hg i (by omega)
  · intro j hj
    rw [hn, xor_at_getD_mid _ _ _ _ _ hj (by omega) (by omega)]
    rw [hg _ (by omega)]

/-- C18, at a concrete input: the AAD `5, 6, 7` written to a context in state NeedsAAD whose IV
is `1, 2, ..., 12`. -/
theorem C18_aead_nonce_derivation_witness :
    ∃ r, Crypt_Write toy
        { chachapoly_needs_aad with IV := [1, 2, 3, 4, 5, 6, 7, 8, 9, 10, 11, 12, 0, 0, 0, 0] }
        [5, 6, 7] = some r ∧
      r.2.IV = [1, 2, 3, 4, 5, 6, 7, 8, 9, 10, 11, 12, 0, 0, 0, 0] ∧
      (∀ i, i < 12 - min ([5, 6, 7] : List Nat).length 8 →
        r.2.nonce.getD i 0
          = ([1, 2, 3, 4, 5, 6, 7, 8, 9, 10, 11, 12, 0, 0, 0, 0] : List Nat).getD i 0) ∧
      (∀ j, j < min ([5, 6, 7] : List Nat).length 8 →
        r.2.nonce.getD (12 - min ([5, 6, 7] : List Nat).length 8 + j) 0
          = Nat.xor
              (([1, 2, 3, 4, 5, 6, 7, 8, 9, 10, 11, 12, 0, 0, 0, 0] : List Nat).getD
                (12 - min ([5, 6, 7] : List Nat).length 8 + j) 0)
              (([5, 6, 7] : List Nat).getD j 0)) :=
  C18_aead_nonce_derivation toy
    { chachapoly_needs_aad with IV := [1, 2, 3, 4, 5, 6, 7, 8, 9, 10, 11, 12, 0, 0, 0, 0] }
    ⟨2, 752, true⟩ [1, 2, 3, 4, 5, 6, 7, 8, 9, 10, 11, 12, 13, 14, 15, 16] [5, 6, 7]
    (by decide) (by decide) (by decide) (by decide) (by decide) (by decide) (by decide)
    (by decide) (by decide)

/-- C19 (evaluation of the code): on an AES-128-ECB port, after Open, a Write of the five bytes
of `hello5`, a Modify of the algorithm to `chacha20-poly1305` and an Update, the port is a
ChaCha20-Poly1305 port in state NeedsAAD with `unprocessed_len` still 5 and block size 0; the
Write of the four AAD bytes `msg1` then returns normally, but `Crypt_Write` has stopped with
`CRYPT_ERROR_BAD_UNPROCESSED_SIZE`: the AAD is appended to the unprocessed buffer,
`unprocessed_len` is 9 and the state is still NeedsAAD.  On a port opened for
ChaCha20-Poly1305 the same Write leaves `unprocessed_len` at 0 and the state Ready.  With a
`mbedtls_chachapoly_starts` that reports an error, the Write of `msg1` to a context in state
NeedsAAD returns `CRYPT_OK` and leaves `unprocessed_len` at 4. -/
theorem C19_aad_left_unprocessed :
    (Port_run toy zero_ctx (aes128_port Sym.SYM_ENCRYPT)
        [Action.A_OPEN, Action.A_WRITE (REBVAL.binary hello5),
         Action.A_MODIFY (REBVAL.word Sym.SYM_ALGORITHM)
           (REBVAL.word Sym.SYM_CHACHA20_POLY1305),
         Action.A_UPDATE]).bind
        (fun r => r.2.ctx.map (fun c =>
          (c.cipher_type, c.state, c.cipher_block_size, c.unprocessed_len,
           c.buffer.map List.length)))
      = some (Sym.SYM_CHACHA20_POLY1305, PortState.CRYPT_PORT_NEEDS_AAD, 0, 5, some 16) ∧
    (Port_run toy zero_ctx (aes128_port Sym.SYM_ENCRYPT)
        [Action.A_OPEN, Action.A_WRITE (REBVAL.binary hello5),
         Action.A_MODIFY (REBVAL.word Sym.SYM_ALGORITHM)
           (REBVAL.word Sym.SYM_CHACHA20_POLY1305),
         Action.A_UPDATE, Action.A_WRITE (REBVAL.binary msg1)]).map (fun r => r.1)
      = some (List.replicate 5 (Outcome.ret Ret.R_ARG1)) ∧
    (Port_run toy zero_ctx (aes128_port Sym.SYM_ENCRYPT)
        [Action.A_OPEN, Action.A_WRITE (REBVAL.binary hello5),
         Action.A_MODIFY (REBVAL.word Sym.SYM_ALGORITHM)
           (REBVAL.word Sym.SYM_CHACHA20_POLY1305),
         Action.A_UPDATE, Action.A_WRITE (REBVAL.binary msg1)]).bind
        (fun r => r.2.ctx.map (fun c =>
          (c.state, c.unprocessed_len, c.unprocessed_data.take 9, c.buffer.map List.length)))
      = some (PortState.CRYPT_PORT_NEEDS_AAD, 9, hello5 ++ msg1, some 16) ∧
    (Port_run toy zero_ctx (aes128_port Sym.SYM_ENCRYPT)
        [Action.A_OPEN, Action.A_WRITE (REBVAL.binary hello5),
         Action.A_MODIFY (REBVAL.word Sym.SYM_ALGORITHM)
           (REBVAL.word Sym.SYM_CHACHA20_POLY1305),
         Action.A_UPDATE]).bind
        (fun r => r.2.ctx.bind (fun c => (Crypt_Write toy c msg1).map (fun q => q.1)))
      = some CryptResult.CRYPT_ERROR_BAD_UNPROCESSED_SIZE ∧
    (Port_run toy zero_ctx (chachapoly_port Sym.SYM_ENCRYPT)
        [Action.A_OPEN, Action.A_WRITE (REBVAL.binary msg1)]).bind
        (fun r => r.2.ctx.map (fun c =>
          (c.state, c.unprocessed_len, c.buffer.map List.length)))
      = some (PortState.CRYPT_PORT_READY, 0, some 0) ∧
    (Crypt_Write toy_starts_fails chachapoly_needs_aad msg1).map
        (fun r => (r.1, r.2.unprocessed_len, r.2.unprocessed_data.take 4, r.2.state, r.2.buffer))
      = some (CryptResult.CRYPT_OK, 4, msg1, PortState.CRYPT_PORT_NEEDS_AAD,
              some [1, 2, 3, 4, 5, 6, 7, 8, 9, 10, 11, 12, 13, 14, 15, 16]) ∧
    chachapoly_needs_aad.unprocessed_len = 0 := by
  refine ⟨by decide, by decide, by decide, by decide, by decide, by decide, by decide⟩

/-! ### Re-initialisation after a reconfiguration -/

/-- In `Crypt_Init` a successful key setup of ChaCha20-Poly1305 leaves the state NeedsAAD. -/
theorem Crypt_Init_aead_state (P : Prims σ) (c c1 : CRYPT_CTX σ)
    (htype : c.cipher_type = Sym.SYM_CHACHA20_POLY1305)
    (h : Crypt_Init P c = some (0, c1)) :
    c1.state = PortState.CRYPT_PORT_NEEDS_AAD := by
  unfold Crypt_Init at h
  split at h
  · simp at h
  · cases hs : c.cipher_ctx with
    | none => simp [hs, htype, is_cipher] at h
    | some s =>
      simp only [hs, htype, is_cipher, Crypt_Init_switch, is_aes_ecb, is_aes_cbc,
        is_camellia_ecb, is_camellia_cbc, is_aria_ecb, is_aria_cbc] at h
      simp at h
      split_ifs at h with he
      · simp only [Prod.mk.injEq] at h
        rw [← h.2]
      · simp only [Prod.mk.injEq] at h
        exact absurd h.1 he

/-- C13 (evaluation of the code): on a ChaCha20-Poly1305 port, an Update between a successful
Modify of the key and the next non-empty Write makes that Write skip the key setup.  After Open,
Write of the AAD `msg1`, Write of `hello16`, Modify of the key to `sevens_key32`, Update and
Write of `msg1`, every action has returned normally, the stored key is the new one, but the
primitive context still carries the key byte 2 of the old key and the 32 bytes of old output
are still there; without the Update the Write runs the key setup: the key byte is 8 and the
output is empty. -/
theorem C13_update_cancels_reinitialisation :
    (Port_run toy zero_ctx (chachapoly_port Sym.SYM_ENCRYPT)
        [Action.A_OPEN, Action.A_WRITE (REBVAL.binary msg1),
         Action.A_WRITE (REBVAL.binary hello16),
         Action.A_MODIFY (REBVAL.word Sym.SYM_KEY) (REBVAL.binary sevens_key32),
         Action.A_UPDATE, Action.A_WRITE (REBVAL.binary msg1)]).map (fun r => r.1)
      = some (List.replicate 6 (Outcome.ret Ret.R_ARG1)) ∧
    (Port_run toy zero_ctx (chachapoly_port Sym.SYM_ENCRYPT)
        [Action.A_OPEN, Action.A_WRITE (REBVAL.binary msg1),
         Action.A_WRITE (REBVAL.binary hello16),
         Action.A_MODIFY (REBVAL.word Sym.SYM_KEY) (REBVAL.binary sevens_key32),
         Action.A_UPDATE, Action.A_WRITE (REBVAL.binary msg1)]).bind
        (fun r => r.2.ctx.map (fun c =>
          (c.state, c.cipher_ctx.map (fun t => t.k), c.key.take 2,
           c.buffer.map List.length)))
      = some (PortState.CRYPT_PORT_READY, some 2, [7, 7], some 32) ∧
    (Port_run toy zero_ctx (chachapoly_port Sym.SYM_ENCRYPT)
        [Action.A_OPEN, Action.A_WRITE (REBVAL.binary msg1),
         Action.A_WRITE (REBVAL.binary hello16),
         Action.A_MODIFY (REBVAL.word Sym.SYM_KEY) (REBVAL.binary sevens_key32)]).bind
        (fun r => r.2.ctx.map (fun c => c.state))
      = some PortState.CRYPT_PORT_NEEDS_INIT ∧
    (Port_run toy zero_ctx (chachapoly_port Sym.SYM_ENCRYPT)
        [Action.A_OPEN, Action.A_WRITE (REBVAL.binary msg1),
         Action.A_WRITE (REBVAL.binary hello16),
         Action.A_MODIFY (REBVAL.word Sym.SYM_KEY) (REBVAL.binary sevens_key32),
         Action.A_UPDATE]).bind
        (fun r => r.2.ctx.map (fun c => c.state))
      = some PortState.CRYPT_PORT_NEEDS_AAD ∧
    (Port_run toy zero_ctx (chachapoly_port Sym.SYM_ENCRYPT)
        [Action.A_OPEN, Action.A_WRITE (REBVAL.binary msg1),
         Action.A_WRITE (REBVAL.binary hello16),
         Action.A_MODIFY (REBVAL.word Sym.SYM_KEY) (REBVAL.binary sevens_key32),
         Action.A_WRITE (REBVAL.binary msg1)]).bind
        (fun r => r.2.ctx.map (fun c =>
          (c.state, c.cipher_ctx.map (fun t => t.k), c.key.take 2,
           c.buffer.map List.length)))
      = some (PortState.CRYPT_PORT_READY, some 8, [7, 7], some 0) := by
  decide

/-- The error the switch of `Crypt_Init` returns is the error of the key setup of the
algorithm's primitive (for ChaCha20, of `mbedtls_chacha20_starts` when the key setup
succeeds). -/
theorem Crypt_Init_switch_error (P : Prims σ) (s : σ) (c : CRYPT_CTX σ) :
    ((is_aes_ecb c.cipher_type || is_aes_cbc c.cipher_type) = true →
      (Crypt_Init_switch P s c).1
        = (if c.operation = Operation.MBEDTLS_ENCRYPT
           then P.mbedtls_aes_setkey_enc s c.key c.key_bitlen
           else P.mbedtls_aes_setkey_dec s c.key c.key_bitlen).1) ∧
    ((is_camellia_ecb c.cipher_type || is_camellia_cbc c.cipher_type) = true →
      (Crypt_Init_switch P s c).1
        = (if c.operation = Operation.MBEDTLS_ENCRYPT
           then P.mbedtls_camellia_setkey_enc (P.mbedtls_camellia_init s) c.key c.key_bitlen
           else P.mbedtls_camellia_setkey_dec (P.mbedtls_camellia_init s) c.key
                  c.key_bitlen).1) ∧
    ((is_aria_ecb c.cipher_type || is_aria_cbc c.cipher_type) = true →
      (Crypt_Init_switch P s c).1
        = (if c.operation = Operation.MBEDTLS_ENCRYPT
           then P.mbedtls_aria_setkey_enc (P.mbedtls_aria_init s) c.key c.key_bitlen
           else P.mbedtls_aria_setkey_dec (P.mbedtls_aria_init s) c.key c.key_bitlen).1) ∧
    (c.cipher_type = Sym.SYM_CHACHA20 →
      (Crypt_Init_switch P s c).1
        = (if (P.mbedtls_chacha20_setkey s c.key).1 ≠ 0 then (P.mbedtls_chacha20_setkey s c.key).1
           else (P.mbedtls_chacha20_starts (P.mbedtls_chacha20_setkey s c.key).2 c.IV
                  (MBEDTLS_GET_UINT32_BE c.IV 12)).1)) ∧
    (c.cipher_type = Sym.SYM_CHACHA20_POLY1305 →
      (Crypt_Init_switch P s c).1 = (P.mbedtls_chachapoly_setkey s c.key).1) := by
  refine ⟨?_, ?_, ?_, ?_, ?_⟩ <;> intro h <;>
    cases ht : c.cipher_type <;>
    simp only [ht, is_aes_ecb, is_aes_cbc, is_camellia_ecb, is_camellia_cbc, is_aria_ecb,
      is_aria_cbc, Bool.or_self, Bool.false_eq_true, Bool.or_false, Bool.or_true,
      reduceCtorEq] at h <;>
    simp only [Crypt_Init_switch, setkey_case, ht, is_aes_ecb, is_aes_cbc, is_camellia_ecb,
      is_camellia_cbc, is_aria_ecb, is_aria_cbc, Bool.or_self, Bool.false_eq_true,
      Bool.or_false, Bool.or_true, if_true, if_false, reduceCtorEq] <;>
    split_ifs <;> simp_all

/-- The error `Crypt_Init` returns for a cipher is the error of the key setup of the algorithm's
primitive (for ChaCha20, of `mbedtls_chacha20_starts` when the key setup succeeds). -/
theorem Crypt_Init_error (P : Prims σ) (ctx c1 : CRYPT_CTX σ) (s : σ) (bin : List Nat)
    (e : Int) (hbuf : ctx.buffer = some bin) (hctx : ctx.cipher_ctx = some s)
    (hi : Crypt_Init P ctx = some (e, c1)) :
    ((is_aes_ecb ctx.cipher_type || is_aes_cbc ctx.cipher_type) = true →
      e = (if ctx.operation = Operation.MBEDTLS_ENCRYPT
           then P.mbedtls_aes_setkey_enc s ctx.key ctx.key_bitlen
           else P.mbedtls_aes_setkey_dec s ctx.key ctx.key_bitlen).1) ∧
    ((is_camellia_ecb ctx.cipher_type || is_camellia_cbc ctx.cipher_type) = true →
      e = (if ctx.operation = Operation.MBEDTLS_ENCRYPT
           then P.mbedtls_camellia_setkey_enc (P.mbedtls_camellia_init s) ctx.key
                  ctx.key_bitlen
           else P.mbedtls_camellia_setkey_dec (P.mbedtls_camellia_init s) ctx.key
                  ctx.key_bitlen).1) ∧
    ((is_aria_ecb ctx.cipher_type || is_aria_cbc ctx.cipher_type) = true →
      e = (if ctx.operation = Operation.MBEDTLS_ENCRYPT
           then P.mbedtls_aria_setkey_enc (P.mbedtls_aria_init s) ctx.key ctx.key_bitlen
           else P.mbedtls_aria_setkey_dec (P.mbedtls_aria_init s) ctx.key
                  ctx.key_bitlen).1) ∧
    (ctx.cipher_type = Sym.SYM_CHACHA20 →
      e = (if (P.mbedtls_chacha20_setkey s ctx.key).1 ≠ 0
           then (P.mbedtls_chacha20_setkey s ctx.key).1
           else (P.mbedtls_chacha20_starts (P.mbedtls_chacha20_setkey s ctx.key).2 ctx.IV
                  (MBEDTLS_GET_UINT32_BE ctx.IV 12)).1)) ∧
    (ctx.cipher_type = Sym.SYM_CHACHA20_POLY1305 →
      e = (P.mbedtls_chachapoly_setkey s ctx.key).1) := by
  have hsw := Crypt_Init_switch_error P s
    { ctx with cipher_ctx := some s, buffer := some [],
               unprocessed_data := CLEAR MBEDTLS_MAX_BLOCK_LENGTH, unprocessed_len := 0 }
  dsimp only at hsw
  have hcip : is_cipher ctx.cipher_type = true →
      e = (Crypt_Init_switch P s
        { ctx with cipher_ctx := some s, buffer := some [],
                   unprocessed_data := CLEAR MBEDTLS_MAX_BLOCK_LENGTH, unprocessed_len := 0 }).1 := by
    intro hc
    unfold Crypt_Init at hi
    rw [hbuf] at hi
    simp only [hctx, hc, if_true, Option.some.injEq] at hi
    rw [hi]
  refine ⟨?_, ?_, ?_, ?_, ?_⟩
  · intro h
    rw [hcip (by cases ht : ctx.cipher_type <;> simp_all [is_cipher, is_aes_ecb, is_aes_cbc])]
    exact hsw.1 h
  · intro h
    rw [hcip (by cases ht : ctx.cipher_type <;>
      simp_all [is_cipher, is_camellia_ecb, is_camellia_cbc])]
    exact hsw.2.1 h
  · intro h
    rw [hcip (by cases ht : ctx.cipher_type <;> simp_all [is_cipher, is_aria_ecb, is_aria_cbc])]
    exact hsw.2.2.1 h
  · intro h
    rw [hcip (by simp [is_cipher, h])]
    exact hsw.2.2.2.1 h
  · intro h
    rw [hcip (by simp [is_cipher, h])]
    exact hsw.2.2.2.2 h

/-- C14: on a context in state NeedsInit, a non-empty `Crypt_Write` runs `Crypt_Init`, whose
result `e` is the result of the key setup of the algorithm's primitive (`mbedtls_aes_setkey_enc`
or `_dec`, and so on; for ChaCha20 the result of `mbedtls_chacha20_starts` when the key setup
itself succeeds); when the key setup reports the error `e ≠ 0`, `Crypt_Write` returns that
error, the output and the unprocessed buffer are empty and the state is still NeedsInit; when it
succeeds, `Crypt_Write` goes on with the data on a context whose state is Ready, or NeedsAAD for
ChaCha20-Poly1305. -/
theorem C14_setup_failure_reported (P : Prims σ) (ctx : CRYPT_CTX σ) (s : σ)
    (bin input : List Nat)
    (hstate : ctx.state = PortState.CRYPT_PORT_NEEDS_INIT)
    (hbuf : ctx.buffer = some bin) (hctx : ctx.cipher_ctx = some s)
    (hlen : 1 ≤ input.length) :
    ∃ e c1, Crypt_Init P ctx = some (e, c1) ∧
      ((is_aes_ecb ctx.cipher_type || is_aes_cbc ctx.cipher_type) = true →
        e = (if ctx.operation = Operation.MBEDTLS_ENCRYPT
             then P.mbedtls_aes_setkey_enc s ctx.key ctx.key_bitlen
             else P.mbedtls_aes_setkey_dec s ctx.key ctx.key_bitlen).1) ∧
      ((is_camellia_ecb ctx.cipher_type || is_camellia_cbc ctx.cipher_type) = true →
        e = (if ctx.operation = Operation.MBEDTLS_ENCRYPT
             then P.mbedtls_camellia_setkey_enc (P.mbedtls_camellia_init s) ctx.key
                    ctx.key_bitlen
             else P.mbedtls_camellia_setkey_dec (P.mbedtls_camellia_init s) ctx.key
                    ctx.key_bitlen).1) ∧
      ((is_aria_ecb ctx.cipher_type || is_aria_cbc ctx.cipher_type) = true →
        e = (if ctx.operation = Operation.MBEDTLS_ENCRYPT
             then P.mbedtls_aria_setkey_enc (P.mbedtls_aria_init s) ctx.key ctx.key_bitlen
             else P.mbedtls_aria_setkey_dec (P.mbedtls_aria_init s) ctx.key
                    ctx.key_bitlen).1) ∧
      (ctx.cipher_type = Sym.SYM_CHACHA20 →
        e = (if (P.mbedtls_chacha20_setkey s ctx.key).1 ≠ 0
             then (P.mbedtls_chacha20_setkey s ctx.key).1
             else (P.mbedtls_chacha20_starts (P.mbedtls_chacha20_setkey s ctx.key).2 ctx.IV
                    (MBEDTLS_GET_UINT32_BE ctx.IV 12)).1)) ∧
      (ctx.cipher_type = Sym.SYM_CHACHA20_POLY1305 →
        e = (P.mbedtls_chachapoly_setkey s ctx.key).1) ∧
      (e ≠ 0 →
        Crypt_Write P ctx input = some (CryptResult.primitive e, c1) ∧
        c1.state = PortState.CRYPT_PORT_NEEDS_INIT ∧
        c1.buffer = some [] ∧ c1.unprocessed_len = 0 ∧
        c1.unprocessed_data = CLEAR MBEDTLS_MAX_BLOCK_LENGTH) ∧
      (e = 0 →
        Crypt_Write P ctx input = Crypt_Write_body P c1 input input.length ∧
        c1.state = (if ctx.cipher_type = Sym.SYM_CHACHA20_POLY1305
                    then PortState.CRYPT_PORT_NEEDS_AAD else PortState.CRYPT_PORT_READY)) := by
  have hi : ∃ e c1, Crypt_Init P ctx = some (e, c1) := by
    unfold Crypt_Init
    rw [hbuf]
    simp only [hctx]
    split_ifs <;> exact ⟨_, _, rfl⟩
  obtain ⟨e, c1, hi⟩ := hi
  have hne : input.length ≠ 0 := by omega
  obtain ⟨hb, hu, hd, _, _, hready, hkeep⟩ := Crypt_Init_spec P ctx c1 e hi
  obtain ⟨h1, h2, h3, h4, h5⟩ := Crypt_Init_error P ctx c1 s bin e hbuf hctx hi
  refine ⟨e, c1, hi, h1, h2, h3, h4, h5, ?_, ?_⟩
  · intro he
    refine ⟨?_, by rw [hkeep he, hstate], hb, hu, hd⟩
    simp [Crypt_Write, hne, hstate, hi, he]
  · intro he
    refine ⟨by simp [Crypt_Write, hne, hstate, hi, he], ?_⟩
    split_ifs with ht
    · subst he
      exact Crypt_Init_aead_state P ctx c1 ht hi
    · exact hready he ht

/-- C14, at a concrete input: an AES context in state NeedsInit with a key length of 100 bits,
which the example key setup refuses with the error -32; the Write of sixteen bytes returns that
error and leaves the state NeedsInit with nothing transformed or buffered. -/
theorem C14_setup_failure_reported_witness :
    (toy.mbedtls_aes_setkey_dec ⟨2, 752, true⟩ chachapoly_ready.key 100).1 = -32 ∧
    ∃ c1, Crypt_Write toy
        { chachapoly_ready with cipher_type := Sym.SYM_AES_128_ECB, key_bitlen := 100,
                                cipher_block_size := 16, buffer := some [9],
                                state := PortState.CRYPT_PORT_NEEDS_INIT } hello16
        = some (CryptResult.primitive (-32), c1) ∧
      c1.state = PortState.CRYPT_PORT_NEEDS_INIT ∧
      c1.buffer = some [] ∧ c1.unprocessed_len = 0 ∧
      c1.unprocessed_data = CLEAR MBEDTLS_MAX_BLOCK_LENGTH := by
  obtain ⟨e, c1, _, haes, _, _, _, _, hfail, _⟩ := C14_setup_failure_reported toy
    { chachapoly_ready with cipher_type := Sym.SYM_AES_128_ECB, key_bitlen := 100,
                            cipher_block_size := 16, buffer := some [9],
                            state := PortState.CRYPT_PORT_NEEDS_INIT }
    ⟨2, 752, true⟩ [9] hello16 (by decide) (by decide) (by decide) (by decide)
  have he : e = -32 := (haes (by decide)).trans (by decide)
  subst he
  exact ⟨by decide, c1, hfail (by decide)⟩

/-! ### Block size of the stream ciphers -/

/-- C28 (counterexample): `init_crypt_algorithm` with `chacha20-poly1305` leaves
`cipher_block_size = 0`, not 16. -/
theorem C28_counterexample :
    (init_crypt_algorithm toy zero_ctx
        (REBVAL.word Sym.SYM_CHACHA20_POLY1305)).2.cipher_block_size = 0 ∧
    (init_crypt_algorithm toy zero_ctx
        (REBVAL.word Sym.SYM_CHACHA20_POLY1305)).2.cipher_block_size ≠ 16 := by
  decide

/-- C28 (amended): `init_crypt_algorithm` succeeds on `chacha20` and on `chacha20-poly1305`; it
sets `cipher_block_size` to 16 for `chacha20` and to 0 for `chacha20-poly1305`. -/
theorem C28_stream_cipher_block_size (P : Prims σ) (ctx : CRYPT_CTX σ) :
    (init_crypt_algorithm P ctx (REBVAL.word Sym.SYM_CHACHA20)).1 = true ∧
    (init_crypt_algorithm P ctx (REBVAL.word Sym.SYM_CHACHA20)).2.cipher_block_size = 16 ∧
    (init_crypt_algorithm P ctx (REBVAL.word Sym.SYM_CHACHA20_POLY1305)).1 = true ∧
    (init_crypt_algorithm P ctx (REBVAL.word Sym.SYM_CHACHA20_POLY1305)).2.cipher_block_size
      = 0 := by
  simp [init_crypt_algorithm, is_aes_ecb, is_aes_cbc, is_camellia_ecb, is_camellia_cbc,
    is_aria_ecb, is_aria_cbc]

/-! ### The port's Write and the result of `Crypt_Write` -/

/-- C30 (evaluation of the code): the Write action of the port returns normally whatever
`Crypt_Write` returns: its outcome is `R_ARG1` for every result of `Crypt_Write`.  With a key
setup that reports the error -32, `Crypt_Write` on a port just opened returns that error and
the Write action returns `R_ARG1`; the same for `CRYPT_ERROR_BAD_UNPROCESSED_SIZE`. -/
theorem C30_write_result_dropped (P : Prims σ) (new_ctx : CRYPT_CTX σ)
    (spec : Option PortSpec) (ctx : CRYPT_CTX σ) (bytes : List Nat) :
    Crypt_Actor P new_ctx ⟨spec, StateVal.crypt ctx⟩ (Action.A_WRITE (REBVAL.binary bytes))
      = (Crypt_Write P ctx bytes).map
          (fun r => (Outcome.ret Ret.R_ARG1, ⟨spec, StateVal.crypt r.2⟩)) ∧
    (Port_run toy_setkey_fails zero_ctx (aes128_port Sym.SYM_ENCRYPT) [Action.A_OPEN]).bind
        (fun r => r.2.ctx.bind (fun c => (Crypt_Write toy_setkey_fails c hello16).map
          (fun w => w.1)))
      = some (CryptResult.primitive (-32)) ∧
    (Port_run toy_setkey_fails zero_ctx (aes128_port Sym.SYM_ENCRYPT)
        [Action.A_OPEN, Action.A_WRITE (REBVAL.binary hello16)]).map (fun r => r.1)
      = some [Outcome.ret Ret.R_ARG1, Outcome.ret Ret.R_ARG1] ∧
    (Port_run toy zero_ctx (aes128_port Sym.SYM_ENCRYPT)
        [Action.A_OPEN,
         Action.A_MODIFY (REBVAL.word Sym.SYM_ALGORITHM) (REBVAL.word (Sym.other 7))]).bind
        (fun r => r.2.ctx.bind (fun c => (Crypt_Write toy c bytes17).map (fun w => w.1)))
      = some CryptResult.CRYPT_ERROR_BAD_UNPROCESSED_SIZE ∧
    (Port_run toy zero_ctx (aes128_port Sym.SYM_ENCRYPT)
        [Action.A_OPEN,
         Action.A_MODIFY (REBVAL.word Sym.SYM_ALGORITHM) (REBVAL.word (Sym.other 7)),
         Action.A_WRITE (REBVAL.binary bytes17)]).map (fun r => r.1)
      = some [Outcome.ret Ret.R_ARG1, Outcome.ret Ret.R_ARG1, Outcome.ret Ret.R_ARG1] := by
  refine ⟨?_, by decide, by decide, by decide, by decide⟩
  simp only [Crypt_Actor]
  cases Crypt_Write P ctx bytes with
  | none => rfl
  | some r => rfl

/-! ### Establishing the duplex channel -/

/-- C22: `chacha20poly1305 /init` returns the handle if and only if `local-key` and `remote-key`
each have length 16 or 32 and `local-iv` and `remote-iv` each have length 8 or 12; otherwise it
raises `invalid-data` with the first argument, in the order `local-key`, `remote-key`,
`local-iv`, `remote-iv`, whose length is not one of those. -/
theorem C22_duplex_init_validates_lengths (L : ChaChaLib χ π)
    (new_ctx : chacha20poly1305_ctx χ) (a : NativeArgs χ) (hinit : a.ref_init = true) :
    ((chacha20poly1305 L new_ctx a).1 = NativeResult.R_ARG1_handle ↔
      (a.val_local_key.length = 16 ∨ a.val_local_key.length = 32) ∧
      (a.val_remote_key.length = 16 ∨ a.val_remote_key.length = 32) ∧
      (a.val_local_iv.length = 8 ∨ a.val_local_iv.length = 12) ∧
      (a.val_remote_iv.length = 8 ∨ a.val_remote_iv.length = 12)) ∧
    (¬ (a.val_local_key.length = 16 ∨ a.val_local_key.length = 32) →
      (chacha20poly1305 L new_ctx a).1 = NativeResult.trap_invalid_data InitArg.val_local_key) ∧
    ((a.val_local_key.length = 16 ∨ a.val_local_key.length = 32) →
      ¬ (a.val_remote_key.length = 16 ∨ a.val_remote_key.length = 32) →
      (chacha20poly1305 L new_ctx a).1
        = NativeResult.trap_invalid_data InitArg.val_remote_key) ∧
    ((a.val_local_key.length = 16 ∨ a.val_local_key.length = 32) →
      (a.val_remote_key.length = 16 ∨ a.val_remote_key.length = 32) →
      ¬ (a.val_local_iv.length = 8 ∨ a.val_local_iv.length = 12) →
      (chacha20poly1305 L new_ctx a).1 = NativeResult.trap_invalid_data InitArg.val_local_iv) ∧
    ((a.val_local_key.length = 16 ∨ a.val_local_key.length = 32) →
      (a.val_remote_key.length = 16 ∨ a.val_remote_key.length = 32) →
      (a.val_local_iv.length = 8 ∨ a.val_local_iv.length = 12) →
      ¬ (a.val_remote_iv.length = 8 ∨ a.val_remote_iv.length = 12) →
      (chacha20poly1305 L new_ctx a).1
        = NativeResult.trap_invalid_data InitArg.val_remote_iv) := by
  unfold chacha20poly1305
  simp only [hinit, if_true]
  split_ifs with g1 g2 g3 g4 <;>
    simp only [Bool.not_eq_true', Bool.or_eq_false_iff, decide_eq_false_iff_not,
      Bool.not_eq_false, Bool.not_eq_true, Bool.or_eq_true, decide_eq_true_eq, not_and_or,
      not_not] at * <;>
    simp <;> omega

/-- C22, at concrete inputs: with a `local-iv` of 7 bytes and a `remote-key` of 5 bytes the
error names `remote-key`, the argument checked first; with all four lengths right the handle is
returned. -/
theorem C22_duplex_init_validates_lengths_witness :
    (chacha20poly1305 toyLib zero_duplex
        (init_args ones_key32 (List.replicate 7 0) hello5 zero_iv12)).1
      = NativeResult.trap_invalid_data InitArg.val_remote_key ∧
    (chacha20poly1305 toyLib zero_duplex
        (init_args ones_key32 zero_iv12 zero_key16 (List.replicate 8 0))).1
      = NativeResult.R_ARG1_handle :=
  ⟨(C22_duplex_init_validates_lengths toyLib zero_duplex
      (init_args ones_key32 (List.replicate 7 0) hello5 zero_iv12) rfl).2.2.1
      (by decide) (by decide),
   (C22_duplex_init_validates_lengths toyLib zero_duplex
      (init_args ones_key32 zero_iv12 zero_key16 (List.replicate 8 0)) rfl).1.2
      (by decide)⟩

/-! ### The defensive checks -/

/-- C23 (evaluation of the code): the defensive checks can be reached from the port without any
primitive reporting an error, through an algorithm word that is no algorithm identifier (which
`init_crypt_algorithm` accepts).  On a port opened with such a word, Write of five bytes and
Update end in `abort()`: the block size is 0 and five bytes are unprocessed.  On an AES port
whose algorithm is changed to such a word, `Crypt_Write` of seventeen bytes returns
`CRYPT_ERROR_BAD_UNPROCESSED_SIZE`. -/
theorem C23_defensive_checks_reached :
    (Port_run toy zero_ctx unknown_alg_port
        [Action.A_OPEN, Action.A_WRITE (REBVAL.binary hello5), Action.A_UPDATE]).map
        (fun r => r.1)
      = some [Outcome.ret Ret.R_ARG1, Outcome.ret Ret.R_ARG1, Outcome.abort] ∧
    (Port_run toy zero_ctx unknown_alg_port
        [Action.A_OPEN, Action.A_WRITE (REBVAL.binary hello5)]).bind
        (fun r => r.2.ctx.map (fun c => (c.cipher_block_size, c.unprocessed_len)))
      = some (0, 5) ∧
    (Port_run toy zero_ctx (aes128_port Sym.SYM_ENCRYPT)
        [Action.A_OPEN,
         Action.A_MODIFY (REBVAL.word Sym.SYM_ALGORITHM) (REBVAL.word (Sym.other 7))]).map
        (fun r => r.1)
      = some [Outcome.ret Ret.R_ARG1, Outcome.ret Ret.R_ARG1] ∧
    (Port_run toy zero_ctx (aes128_port Sym.SYM_ENCRYPT)
        [Action.A_OPEN,
         Action.A_MODIFY (REBVAL.word Sym.SYM_ALGORITHM) (REBVAL.word (Sym.other 7))]).bind
        (fun r => r.2.ctx.bind (fun c => (Crypt_Write toy c bytes17).map (fun w => w.1)))
      = some CryptResult.CRYPT_ERROR_BAD_UNPROCESSED_SIZE := by
  decide

/-! ### Where the tail of a long Write goes -/

/-- C24 (evaluation of the code): on an AES-128-ECB port just opened, the Write of the
seventeen bytes `1, 2, ..., 17` leaves `unprocessed_len = 1` and the unprocessed buffer holding
the byte `1`, the first byte of the input, not its last byte `17`; Update and Read then return
the first block followed by the transform of the block `1, 0, ..., 0`.  The same on a
Camellia-256-CBC port. -/
theorem C24_tail_is_head_of_input :
    (Port_run toy zero_ctx (aes128_port Sym.SYM_ENCRYPT)
        [Action.A_OPEN, Action.A_WRITE (REBVAL.binary bytes17)]).bind
        (fun r => r.2.ctx.map (fun c =>
          (c.state, c.unprocessed_len, c.unprocessed_data.take c.unprocessed_len)))
      = some (PortState.CRYPT_PORT_READY, 1, [1]) ∧
    bytes17.drop (bytes17.length - 1) = [17] ∧
    (Port_run toy zero_ctx (aes128_port Sym.SYM_ENCRYPT)
        [Action.A_OPEN, Action.A_WRITE (REBVAL.binary bytes17), Action.A_UPDATE,
         Action.A_READ]).map (fun r => r.1.drop 3)
      = some [Outcome.ret (Ret.R_RET
          ((toy_block ⟨1, 0, false⟩ (bytes17.take 16)).2
            ++ (toy_block ⟨1, 0, false⟩ ([1] ++ List.replicate 15 0)).2))] ∧
    (Port_run toy zero_ctx
        (closed_port Sym.SYM_CAMELLIA_256_CBC REBVAL.none zero_key16 Sym.SYM_ENCRYPT)
        [Action.A_OPEN, Action.A_WRITE (REBVAL.binary bytes17)]).bind
        (fun r => r.2.ctx.map (fun c =>
          (c.state, c.unprocessed_len, c.unprocessed_data.take c.unprocessed_len)))
      = some (PortState.CRYPT_PORT_READY, 1, [1]) := by
  decide

/-! ### A short Write -/

/-- `REBCNT` subtraction is plain subtraction when nothing wraps. -/
theorem sub32_of_le (a b : Nat) (hb : b ≤ a) (ha : a < 4294967296) : sub32 a b = a - b := by
  unfold sub32
  omega

/-- C25: with block size 16, a `Crypt_Write` on a Ready context with an input of length
`0 < len < 16 - unprocessed_len` returns `CRYPT_OK` and changes only the unprocessed buffer: its
first `unprocessed_len + len` bytes are the old unprocessed bytes followed by the input, and
`unprocessed_len` grows by `len`; the output is untouched and the result is the same for every
instance of the primitives, none of which is called. -/
theorem C25_short_write_buffered (P : Prims σ) (ctx : CRYPT_CTX σ) (p : List Nat)
    (hblk : ctx.cipher_block_size = 16) (hstate : ctx.state = PortState.CRYPT_PORT_READY)
    (hud : ctx.unprocessed_data.length = MBEDTLS_MAX_BLOCK_LENGTH)
    (hpos : 0 < p.length) (hlt : p.length < 16 - ctx.unprocessed_len) :
    Crypt_Write P ctx p
      = some (CryptResult.CRYPT_OK,
              { ctx with
                  unprocessed_data :=
                    COPY_MEM ctx.unprocessed_data ctx.unprocessed_len p p.length,
                  unprocessed_len := ctx.unprocessed_len + p.length }) ∧
    (COPY_MEM ctx.unprocessed_data ctx.unprocessed_len p p.length).take
        (ctx.unprocessed_len + p.length)
      = ctx.unprocessed_data.take ctx.unprocessed_len ++ p ∧
    (COPY_MEM ctx.unprocessed_data ctx.unprocessed_len p p.length).length
      = MBEDTLS_MAX_BLOCK_LENGTH ∧
    ∀ Q : Prims σ, Crypt_Write Q ctx p = Crypt_Write P ctx p := by
  have hs : sub32 16 ctx.unprocessed_len = 16 - ctx.unprocessed_len :=
    sub32_of_le 16 ctx.unprocessed_len (by omega) (by omega)
  have hne : p.length ≠ 0 := by omega
  have hw : ∀ Q : Prims σ, Crypt_Write Q ctx p
      = some (CryptResult.CRYPT_OK,
              { ctx with
                  unprocessed_data :=
                    COPY_MEM ctx.unprocessed_data ctx.unprocessed_len p p.length,
                  unprocessed_len := ctx.unprocessed_len + p.length }) := by
    intro Q
    have h2 : ctx.unprocessed_len + p.length < 16 := by omega
    simp [Crypt_Write, Crypt_Write_body, hstate, hblk, hs, hne, hlt, h2,
      MBEDTLS_MAX_BLOCK_LENGTH]
  simp only [MBEDTLS_MAX_BLOCK_LENGTH] at hud
  refine ⟨hw P, ?_, ?_, fun Q => (hw Q).trans (hw P).symm⟩
  · unfold COPY_MEM
    rw [List.take_length, List.take_append_of_le_length (by simp; omega)]
    rw [List.take_of_length_le (by simp)]
  · unfold COPY_MEM
    simp [MBEDTLS_MAX_BLOCK_LENGTH]
    omega

/-- C25, at a concrete input: the three bytes `7, 8, 9` written to a Ready AES context that
already holds the two unprocessed bytes `1, 2`. -/
theorem C25_short_write_buffered_witness :
    Crypt_Write toy
        { chachapoly_ready with cipher_type := Sym.SYM_AES_128_ECB, cipher_block_size := 16,
                                unprocessed_data := [1, 2] ++ List.replicate 14 0,
                                unprocessed_len := 2 } [7, 8, 9]
      = some (CryptResult.CRYPT_OK,
              { chachapoly_ready with
                  cipher_type := Sym.SYM_AES_128_ECB, cipher_block_size := 16,
                  unprocessed_data := [1, 2, 7, 8, 9] ++ List.replicate 11 0,
                  unprocessed_len := 5 }) :=
  (C25_short_write_buffered toy
    { chachapoly_ready with cipher_type := Sym.SYM_AES_128_ECB, cipher_block_size := 16,
                            unprocessed_data := [1, 2] ++ List.replicate 14 0,
                            unprocessed_len := 2 } [7, 8, 9]
    (by decide) (by decide) (by decide) (by decide) (by decide)).1

/-! ### What `Crypt_Crypt` leaves alone -/

/-- An ECB case of `Crypt_Crypt` changes the output series only. -/
theorem ecb_case_frame (crypt : List Nat → Int × List Nat) (ctx : CRYPT_CTX σ)
    (bin input : List Nat) (len : Nat) (r : Int × CRYPT_CTX σ × Nat)
    (h : ecb_case crypt ctx bin input len = some r) :
    r.2.1.cipher_type = ctx.cipher_type ∧ r.2.1.cipher_block_size = ctx.cipher_block_size ∧
    r.2.1.unprocessed_len = ctx.unprocessed_len ∧
    r.2.1.unprocessed_data = ctx.unprocessed_data ∧ r.2.1.state = ctx.state ∧
    r.2.1.cipher_ctx = ctx.cipher_ctx := by
  unfold ecb_case at h
  split at h
  · simp at h
  · split_ifs at h <;>
      (simp only [Option.some.injEq] at h; subst h; exact ⟨rfl, rfl, rfl, rfl, rfl, rfl⟩)

/-- The AES CBC case of `Crypt_Crypt` changes the output series and the IV only. -/
theorem aes_cbc_case_frame (P : Prims σ) (s : σ) (ctx : CRYPT_CTX σ)
    (bin input : List Nat) (len : Nat) (r : Int × CRYPT_CTX σ × Nat)
    (h : aes_cbc_case P s ctx bin input len = some r) :
    r.2.1.cipher_type = ctx.cipher_type ∧ r.2.1.cipher_block_size = ctx.cipher_block_size ∧
    r.2.1.unprocessed_len = ctx.unprocessed_len ∧
    r.2.1.unprocessed_data = ctx.unprocessed_data ∧ r.2.1.state = ctx.state ∧
    r.2.1.cipher_ctx = ctx.cipher_ctx := by
  unfold aes_cbc_case at h
  simp only at h
  split_ifs at h <;>
    (simp only [Option.some.injEq] at h; subst h; exact ⟨rfl, rfl, rfl, rfl, rfl, rfl⟩)

/-- A Camellia or ARIA CBC case of `Crypt_Crypt` changes the output series and the working
nonce only. -/
theorem nonce_cbc_case_frame
    (crypt_cbc : Operation → Nat → List Nat → List Nat → Int × List Nat × List Nat)
    (ctx : CRYPT_CTX σ) (bin input : List Nat) (len : Nat) (r : Int × CRYPT_CTX σ × Nat)
    (h : nonce_cbc_case crypt_cbc ctx bin input len = some r) :
    r.2.1.cipher_type = ctx.cipher_type ∧ r.2.1.cipher_block_size = ctx.cipher_block_size ∧
    r.2.1.unprocessed_len = ctx.unprocessed_len ∧
    r.2.1.unprocessed_data = ctx.unprocessed_data ∧ r.2.1.state = ctx.state ∧
    r.2.1.cipher_ctx = ctx.cipher_ctx := by
  unfold nonce_cbc_case at h
  simp only at h
  split_ifs at h <;>
    first
    | (exfalso; simp at h; done)
    | (simp only [Option.some.injEq] at h; subst h; exact ⟨rfl, rfl, rfl, rfl, rfl, rfl⟩)

/-- The ChaCha20 case of `Crypt_Crypt` changes the output series and the primitive context
only. -/
theorem chacha20_case_frame (P : Prims σ) (s : σ) (ctx : CRYPT_CTX σ)
    (bin input : List Nat) (len : Nat) (r : Int × CRYPT_CTX σ × Nat)
    (h : chacha20_case P s ctx bin input len = some r) :
    r.2.1.cipher_type = ctx.cipher_type ∧ r.2.1.cipher_block_size = ctx.cipher_block_size ∧
    r.2.1.unprocessed_len = ctx.unprocessed_len ∧
    r.2.1.unprocessed_data = ctx.unprocessed_data ∧ r.2.1.state = ctx.state := by
  unfold chacha20_case at h
  simp only at h
  split_ifs at h <;>
    (simp only [Option.some.injEq] at h; subst h; exact ⟨rfl, rfl, rfl, rfl, rfl⟩)

/-- The ChaCha20-Poly1305 case of `Crypt_Crypt` changes neither the algorithm, the block size
nor the unprocessed buffer. -/
theorem chachapoly_case_frame (P : Prims σ) (s : σ) (ctx : CRYPT_CTX σ)
    (bin input : List Nat) (len : Nat) (r : Int × CRYPT_CTX σ × Nat)
    (h : chachapoly_case P s ctx bin input len = some r) :
    r.2.1.cipher_type = ctx.cipher_type ∧ r.2.1.cipher_block_size = ctx.cipher_block_size ∧
    r.2.1.unprocessed_len = ctx.unprocessed_len ∧
    r.2.1.unprocessed_data = ctx.unprocessed_data := by
  unfold chachapoly_case at h
  simp only at h
  split_ifs at h <;>
    (simp only [Option.some.injEq] at h; subst h; exact ⟨rfl, rfl, rfl, rfl⟩)

/-- Whenever `Crypt_Crypt` has a result, the algorithm, the block size and the unprocessed
buffer are as before; the state is as before unless the algorithm is ChaCha20-Poly1305, and the
primitive context is as before for the ECB and CBC algorithms. -/
theorem Crypt_Crypt_frame (P : Prims σ) (ctx : CRYPT_CTX σ) (x : List Nat) (len : Nat)
    (r : Int × CRYPT_CTX σ × Nat) (h : Crypt_Crypt P ctx x len = some r) :
    r.2.1.cipher_type = ctx.cipher_type ∧ r.2.1.cipher_block_size = ctx.cipher_block_size ∧
    r.2.1.unprocessed_len = ctx.unprocessed_len ∧
    r.2.1.unprocessed_data = ctx.unprocessed_data ∧
    (ctx.cipher_type ≠ Sym.SYM_CHACHA20_POLY1305 → r.2.1.state = ctx.state) ∧
    (is_ecb_cbc ctx.cipher_type = true → r.2.1.cipher_ctx = ctx.cipher_ctx) := by
  unfold Crypt_Crypt at h
  cases hb : ctx.buffer with
  | none =>
    rw [hb] at h
    simp only at h
    split_ifs at h <;>
      first
      | (exfalso; simp at h; done)
      | (simp only [Option.some.injEq] at h; subst h
         exact ⟨rfl, rfl, rfl, rfl, fun _ => rfl, fun _ => rfl⟩)
  | some bin =>
    rw [hb] at h
    simp only at h
    split_ifs at h with h1 h2 h3
    · simp only [Option.some.injEq] at h; subst h
      exact ⟨rfl, rfl, rfl, rfl, fun _ => rfl, fun _ => rfl⟩
    · simp only [Option.some.injEq] at h; subst h
      exact ⟨rfl, rfl, rfl, rfl, fun _ => rfl, fun _ => rfl⟩
    · cases hs : ctx.cipher_ctx with
      | none => simp [hs] at h
      | some s =>
        simp only [hs] at h
        unfold Crypt_Crypt_switch at h
        simp only at h
        split_ifs at h with t1 t2 t3 t4 t5 t6 t7 t8
        · obtain ⟨a, b, c, d, e, f⟩ := ecb_case_frame _ _ _ _ _ _ h
          exact ⟨a, b, c, d, fun _ => e, fun _ => f.trans hs⟩
        · obtain ⟨a, b, c, d, e, f⟩ := aes_cbc_case_frame _ _ _ _ _ _ _ h
          exact ⟨a, b, c, d, fun _ => e, fun _ => f.trans hs⟩
        · obtain ⟨a, b, c, d, e, f⟩ := ecb_case_frame _ _ _ _ _ _ h
          exact ⟨a, b, c, d, fun _ => e, fun _ => f.trans hs⟩
        · obtain ⟨a, b, c, d, e, f⟩ := nonce_cbc_case_frame _ _ _ _ _ _ h
          exact ⟨a, b, c, d, fun _ => e, fun _ => f.trans hs⟩
        · obtain ⟨a, b, c, d, e, f⟩ := ecb_case_frame _ _ _ _ _ _ h
          exact ⟨a, b, c, d, fun _ => e, fun _ => f.trans hs⟩
        · obtain ⟨a, b, c, d, e, f⟩ := nonce_cbc_case_frame _ _ _ _ _ _ h
          exact ⟨a, b, c, d, fun _ => e, fun _ => f.trans hs⟩
        · obtain ⟨a, b, c, d, e⟩ := chacha20_case_frame _ _ _ _ _ _ _ h
          exact ⟨a, b, c, d, fun _ => e,
            fun hc => by simp [is_ecb_cbc, t1, t2, t3, t4, t5, t6] at hc⟩
        · obtain ⟨a, b, c, d⟩ := chachapoly_case_frame _ _ _ _ _ _ _ h
          exact ⟨a, b, c, d, fun hn => absurd t8 hn,
            fun hc => by simp [is_ecb_cbc, t1, t2, t3, t4, t5, t6] at hc⟩
        · simp only [Option.some.injEq] at h; subst h
          exact ⟨rfl, rfl, rfl, rfl, fun _ => rfl, fun _ => hs⟩
    · simp only [Option.some.injEq] at h; subst h
      exact ⟨rfl, rfl, rfl, rfl, fun _ => rfl, fun _ => rfl⟩

/-! ### Update on the block ciphers and ChaCha20 -/

/-- The unprocessed buffer after Update cleared the bytes behind the unprocessed ones: the
unprocessed bytes followed by zero bytes up to 16. -/
theorem clear_behind_unprocessed (ud : List Nat) (n : Nat) (hud : ud.length = 16)
    (hn : n ≤ 16) :
    CLEAR_AT ud n (16 - n) = ud.take n ++ List.replicate (16 - n) 0 := by
  unfold CLEAR_AT
  have h1 : n + (16 - n) = 16 := by omega
  rw [h1, List.drop_eq_nil_of_le (by omega), List.append_nil]

/-- C21: for every non-AEAD algorithm (block size 16), Update with `0 < unprocessed_len` returns
normally and leaves the output equal to the old output followed by what the primitive makes of
the block (the unprocessed bytes followed by zero bytes up to 16), sets `unprocessed_len` to 0
and keeps the state; Update with `unprocessed_len = 0` returns normally and leaves the context,
output and state included, unchanged. -/
theorem C21_non_aead_finish (P : Prims σ) (new_ctx : CRYPT_CTX σ) (spec : Option PortSpec)
    (ctx : CRYPT_CTX σ) (bin : List Nat)
    (ht : is_non_aead ctx.cipher_type = true) (hblk : ctx.cipher_block_size = 16)
    (hbuf : ctx.buffer = some bin)
    (hud : ctx.unprocessed_data.length = MBEDTLS_MAX_BLOCK_LENGTH)
    (hle : ctx.unprocessed_len ≤ 16) :
    (0 < ctx.unprocessed_len → ∀ out,
      prim_out P ctx (ctx.unprocessed_data.take ctx.unprocessed_len
          ++ List.replicate (16 - ctx.unprocessed_len) 0) = some out →
      ∃ c1, Crypt_Actor P new_ctx ⟨spec, StateVal.crypt ctx⟩ Action.A_UPDATE
          = some (Outcome.ret Ret.R_ARG1, ⟨spec, StateVal.crypt c1⟩) ∧
        c1.buffer = some (bin ++ out) ∧ out.length = 16 ∧ c1.unprocessed_len = 0 ∧
        c1.state = ctx.state) ∧
    (ctx.unprocessed_len = 0 →
      Crypt_Actor P new_ctx ⟨spec, StateVal.crypt ctx⟩ Action.A_UPDATE
        = some (Outcome.ret Ret.R_ARG1, ⟨spec, StateVal.crypt ctx⟩)) := by
  have hnp := non_aead_ne_chachapoly _ ht
  simp only [MBEDTLS_MAX_BLOCK_LENGTH] at hud
  constructor
  · intro hpos out hout
    have hq := clear_behind_unprocessed ctx.unprocessed_data ctx.unprocessed_len hud hle
    have hqlen : (ctx.unprocessed_data.take ctx.unprocessed_len
        ++ List.replicate (16 - ctx.unprocessed_len) 0).length = 16 := by
      simp
      omega
    obtain ⟨c1, hc, hb, -, -⟩ := Crypt_Crypt_single P
      { ctx with unprocessed_data := ctx.unprocessed_data.take ctx.unprocessed_len
          ++ List.replicate (16 - ctx.unprocessed_len) 0 } bin
      (ctx.unprocessed_data.take ctx.unprocessed_len
          ++ List.replicate (16 - ctx.unprocessed_len) 0) out ht hblk hbuf
      (by omega) (Or.inl (by omega)) hout
    have hfr := Crypt_Crypt_frame P _ _ _ _ hc
    have hol := prim_out_length P ctx _ out (Or.inl (by omega)) hout
    rw [hqlen] at hc hol
    have hupd : Crypt_Update P ctx
        = some (Outcome.ret Ret.R_ARG1, { c1 with unprocessed_len := 0 }) := by
      apply Crypt_Update_block P ctx c1 bin 0 16 hnp hbuf hpos (by omega)
      simp only [hblk, hq]
      simp only [hblk] at hc
      exact hc
    refine ⟨{ c1 with unprocessed_len := 0 }, ?_, hb, hol, rfl, hfr.2.2.2.2.1 hnp⟩
    simp [Crypt_Actor, hupd]
  · intro h0
    simp [Crypt_Actor, Crypt_Update_idle P ctx hnp h0]

/-- C21, at a concrete input: Update on a Ready AES context holding the two unprocessed bytes
`1, 2` and the output `9`, and on the same context with nothing unprocessed. -/
theorem C21_non_aead_finish_witness :
    (∃ c1, Crypt_Actor toy zero_ctx
          ⟨Option.none, StateVal.crypt
            { chachapoly_ready with cipher_type := Sym.SYM_AES_128_ECB, cipher_block_size := 16,
                                    buffer := some [9],
                                    unprocessed_data := [1, 2] ++ List.replicate 14 7,
                                    unprocessed_len := 2 }⟩ Action.A_UPDATE
          = some (Outcome.ret Ret.R_ARG1, ⟨Option.none, StateVal.crypt c1⟩) ∧
        c1.buffer = some ([9] ++ ([3, 0] ++ List.replicate 14 2)) ∧
        ([3, 0] ++ List.replicate 14 2).length = 16 ∧ c1.unprocessed_len = 0 ∧
        c1.state = PortState.CRYPT_PORT_READY) ∧
    Crypt_Actor toy zero_ctx
        ⟨Option.none, StateVal.crypt
          { chachapoly_ready with cipher_type := Sym.SYM_AES_128_ECB, cipher_block_size := 16,
                                  buffer := some [9] }⟩ Action.A_UPDATE
      = some (Outcome.ret Ret.R_ARG1,
          ⟨Option.none, StateVal.crypt
            { chachapoly_ready with cipher_type := Sym.SYM_AES_128_ECB, cipher_block_size := 16,
                                    buffer := some [9] }⟩) :=
  ⟨(C21_non_aead_finish toy zero_ctx Option.none
      { chachapoly_ready with cipher_type := Sym.SYM_AES_128_ECB, cipher_block_size := 16,
                              buffer := some [9],
                              unprocessed_data := [1, 2] ++ List.replicate 14 7,
                              unprocessed_len := 2 } [9]
      (by decide) (by decide) (by decide) (by decide) (by decide)).1 (by decide)
      ([3, 0] ++ List.replicate 14 2) (by decide),
   (C21_non_aead_finish toy zero_ctx Option.none
      { chachapoly_ready with cipher_type := Sym.SYM_AES_128_ECB, cipher_block_size := 16,
                              buffer := some [9] } [9]
      (by decide) (by decide) (by decide) (by decide) (by decide)).2 (by decide)⟩

/-! ### The ECB cases of `Crypt_Crypt` -/

/-- An ECB case of `Crypt_Crypt` with block size 16 on at least 16 bytes, every block call
succeeding: the transforms of the whole blocks are appended, the rest is not consumed. -/
theorem ecb_case_blocks (crypt : List Nat → Int × List Nat) (ctx : CRYPT_CTX σ)
    (bin x out : List Nat) (len : Nat) (hblk : ctx.cipher_block_size = 16) (hlen : 16 ≤ len)
    (hout : ecb_out crypt (len / 16) x = some out) :
    ecb_case crypt ctx bin x len
      = some (0, { ctx with buffer := some (bin ++ out) }, 16 * (len / 16)) := by
  unfold ecb_case
  rw [hblk, ecb_loop_eq_ecb_out crypt len (len / 16) (len + 1) 0 x bin 0 out hout
    (by omega) (by omega) hlen (by omega)]
  simp

/-- When every block call succeeds, `ecb_out` has a result. -/
theorem ecb_out_some (crypt : List Nat → Int × List Nat) (h : ∀ b, (crypt b).1 = 0) :
    ∀ (k : Nat) (x : List Nat), ∃ out, ecb_out crypt k x = some out := by
  intro k
  induction k with
  | zero => intro x; exact ⟨[], rfl⟩
  | succ k ih =>
    intro x
    obtain ⟨rest, hrest⟩ := ih (x.drop 16)
    exact ⟨wr 16 (crypt (x.take 16)).2 ++ rest, by simp [ecb_out, h, hrest]⟩

/-- The three families of ECB identifiers, with what the earlier `case` labels answer. -/
theorem is_ecb_cases (t : Sym) (h : is_ecb t = true) :
    is_aes_ecb t = true ∨
    (is_aes_ecb t = false ∧ is_aes_cbc t = false ∧ is_camellia_ecb t = true) ∨
    (is_aes_ecb t = false ∧ is_aes_cbc t = false ∧ is_camellia_ecb t = false ∧
      is_camellia_cbc t = false ∧ is_aria_ecb t = true) := by
  cases t <;>
    simp [is_ecb, is_aes_ecb, is_aes_cbc, is_camellia_ecb, is_camellia_cbc, is_aria_ecb] at h ⊢

/-- On an ECB context, `Crypt_Crypt` on at least 16 bytes is the ECB case with the block function
of the algorithm. -/
theorem Crypt_Crypt_ecb (P : Prims σ) (ctx : CRYPT_CTX σ) (s : σ) (bin x : List Nat)
    (len : Nat) (ht : is_ecb ctx.cipher_type = true) (hblk : ctx.cipher_block_size = 16)
    (hbuf : ctx.buffer = some bin) (hctx : ctx.cipher_ctx = some s) (hlen : 16 ≤ len) :
    Crypt_Crypt P ctx x len = ecb_case (ecb_block P s ctx) ctx bin x len := by
  have hne : len ≠ 0 := by omega
  have hnl : ¬ len < 16 := by omega
  unfold Crypt_Crypt Crypt_Crypt_switch ecb_block
  rcases is_ecb_cases _ ht with h | ⟨h1, h2, h3⟩ | ⟨h1, h2, h3, h4, h5⟩
  · simp [hne, hnl, hblk, hbuf, hctx, is_cipher, h]
  · simp [hne, hnl, hblk, hbuf, hctx, is_cipher, h1, h2, h3]
  · simp [hne, hnl, hblk, hbuf, hctx, is_cipher, h1, h2, h3, h4, h5]

/-- C26: for every ECB algorithm (block size 16) and every input of length `len ≥ 16` whose
block calls succeed, `Crypt_Crypt` returns 0, appends to the output exactly the concatenation,
in order, of the block function applied to each of the first `k = len / 16` blocks of 16 bytes
of the input (`16 * k` bytes), changes nothing else, and reports `olen = 16 * k`; for
`0 < len < 16` it changes nothing and reports `olen = 0`. -/
theorem C26_ecb_block_processing (P : Prims σ) (ctx : CRYPT_CTX σ) (s : σ) (bin q : List Nat)
    (ht : is_ecb ctx.cipher_type = true) (hblk : ctx.cipher_block_size = 16)
    (hbuf : ctx.buffer = some bin) (hctx : ctx.cipher_ctx = some s) :
    (16 ≤ q.length → ∀ out, ecb_out (ecb_block P s ctx) (q.length / 16) q = some out →
      Crypt_Crypt P ctx q q.length
        = some (0, { ctx with buffer := some (bin ++ out) }, 16 * (q.length / 16)) ∧
      out.length = 16 * (q.length / 16)) ∧
    (0 < q.length → q.length < 16 → Crypt_Crypt P ctx q q.length = some (0, ctx, 0)) := by
  constructor
  · intro hlen out hout
    rw [Crypt_Crypt_ecb P ctx s bin q q.length ht hblk hbuf hctx hlen]
    exact ⟨ecb_case_blocks _ ctx bin q out q.length hblk hlen hout,
      ecb_out_length _ _ _ _ hout⟩
  · intro hpos hlt
    have hne : q.length ≠ 0 := by omega
    simp [Crypt_Crypt, hne, hblk, hlt]

/-- C26, at concrete inputs: the seventeen bytes `1, ..., 17` given to an AES-128-ECB context
whose example block function XORs with the key byte 2 (one whole block is transformed, `olen` is
16), and the five bytes of `hello5` (nothing happens). -/
theorem C26_ecb_block_processing_witness :
    (Crypt_Crypt toy
        { chachapoly_ready with cipher_type := Sym.SYM_AES_128_ECB, cipher_block_size := 16,
                                buffer := some [9] } bytes17 bytes17.length
      = some (0,
          { chachapoly_ready with
              cipher_type := Sym.SYM_AES_128_ECB, cipher_block_size := 16,
              buffer := some ([9] ++ [3, 0, 1, 6, 7, 4, 5, 10, 11, 8, 9, 14, 15, 12, 13, 18]) },
          16 * (bytes17.length / 16)) ∧
      ([3, 0, 1, 6, 7, 4, 5, 10, 11, 8, 9, 14, 15, 12, 13, 18] : List Nat).length
        = 16 * (bytes17.length / 16)) ∧
    Crypt_Crypt toy
        { chachapoly_ready with cipher_type := Sym.SYM_AES_128_ECB, cipher_block_size := 16,
                                buffer := some [9] } hello5 hello5.length
      = some (0,
          { chachapoly_ready with cipher_type := Sym.SYM_AES_128_ECB, cipher_block_size := 16,
                                  buffer := some [9] }, 0) :=
  ⟨(C26_ecb_block_processing toy
      { chachapoly_ready with cipher_type := Sym.SYM_AES_128_ECB, cipher_block_size := 16,
                              buffer := some [9] } ⟨2, 752, true⟩ [9] bytes17
      (by decide) (by decide) (by decide) (by decide)).1 (by decide)
      [3, 0, 1, 6, 7, 4, 5, 10, 11, 8, 9, 14, 15, 12, 13, 18] (by decide),
   (C26_ecb_block_processing toy
      { chachapoly_ready with cipher_type := Sym.SYM_AES_128_ECB, cipher_block_size := 16,
                              buffer := some [9] } ⟨2, 752, true⟩ [9] hello5
      (by decide) (by decide) (by decide) (by decide)).2 (by decide) (by decide)⟩

/-! ### Chunked Writes on the ChaCha20-Poly1305 port -/

/-- A non-empty `Crypt_Write` on a ChaCha20-Poly1305 context in state Ready whose primitive
update succeeds: the bytes written by the primitive are appended to the output, nothing is
buffered. -/
theorem Crypt_Write_aead_ready (P : Prims σ) (ctx : CRYPT_CTX σ) (s : σ) (bin p : List Nat)
    (htype : ctx.cipher_type = Sym.SYM_CHACHA20_POLY1305)
    (hstate : ctx.state = PortState.CRYPT_PORT_READY)
    (hblk : ctx.cipher_block_size = 0) (hulen : ctx.unprocessed_len = 0)
    (hbuf : ctx.buffer = some bin) (hctx : ctx.cipher_ctx = some s) (hlen : 0 < p.length)
    (hok : (P.mbedtls_chachapoly_update s p.length p).1 = 0) :
    Crypt_Write P ctx p
      = some (CryptResult.CRYPT_OK,
          { ctx with cipher_ctx := some (P.mbedtls_chachapoly_update s p.length p).2.1,
                     buffer := some (bin ++ wr p.length
                       (P.mbedtls_chachapoly_update s p.length p).2.2) }) := by
  have hs0 : sub32 0 0 = 0 := by decide
  have hne : p.length ≠ 0 := by omega
  have hcr : Crypt_Crypt P ctx p p.length = chachapoly_case P s ctx bin p p.length := by
    simp [Crypt_Crypt, Crypt_Crypt_switch, is_cipher, is_aes_ecb, is_aes_cbc, is_camellia_ecb,
      is_camellia_cbc, is_aria_ecb, is_aria_cbc, htype, hblk, hbuf, hctx, hne]
  have hw : Crypt_Write P ctx p = Crypt_Write_direct P ctx 0 p p.length := by
    simp [Crypt_Write, Crypt_Write_body, hstate, hblk, hulen, hs0, hne,
      MBEDTLS_MAX_BLOCK_LENGTH]
  rw [hw]
  unfold Crypt_Write_direct
  rw [if_neg hne, if_pos hlen, hcr]
  unfold chachapoly_case
  simp [hstate, hok, Crypt_Write_tail]

/-- A script whose first action and whose remaining actions have results has the combined
result. -/
theorem Port_run_cons (P : Prims σ) (new_ctx : CRYPT_CTX σ) (port port1 port2 : Port σ)
    (a : Action) (rest : List Action) (o : Outcome) (os : List Outcome)
    (h1 : Crypt_Actor P new_ctx port a = some (o, port1))
    (h2 : Port_run P new_ctx port1 rest = some (os, port2)) :
    Port_run P new_ctx port (a :: rest) = some (o :: os, port2) := by
  rw [Port_run, h1]
  simp only [h2]

/-- Successive Writes of non-empty chunks on a ChaCha20-Poly1305 context in state Ready, with a
primitive update that works as a stream, end in the context that the primitive update on the
concatenation of the chunks gives. -/
theorem aead_writes_flatten (P : Prims σ) (new_ctx : CRYPT_CTX σ) (spec : Option PortSpec)
    (hP : chachapoly_update_streams P) :
    ∀ (rest : List (List Nat)) (p : List Nat) (ctx : CRYPT_CTX σ) (s : σ) (bin : List Nat),
      p ≠ [] → (∀ q ∈ rest, q ≠ []) →
      ctx.cipher_type = Sym.SYM_CHACHA20_POLY1305 →
      ctx.state = PortState.CRYPT_PORT_READY →
      ctx.cipher_block_size = 0 → ctx.unprocessed_len = 0 →
      ctx.buffer = some bin → ctx.cipher_ctx = some s →
      Port_run P new_ctx ⟨spec, StateVal.crypt ctx⟩ (write_actions (p :: rest))
        = some (List.replicate (rest.length + 1) (Outcome.ret Ret.R_ARG1),
            ⟨spec, StateVal.crypt
              { ctx with
                  cipher_ctx := some (P.mbedtls_chachapoly_update s
                    (p ++ rest.flatten).length (p ++ rest.flatten)).2.1,
                  buffer := some (bin ++ wr (p ++ rest.flatten).length
                    (P.mbedtls_chachapoly_update s
                      (p ++ rest.flatten).length (p ++ rest.flatten)).2.2) }⟩) := by
  intro rest
  induction rest with
  | nil =>
    intro p ctx s bin hp _ htype hstate hblk hulen hbuf hctx
    have hlen : 0 < p.length := List.length_pos.mpr hp
    have hw := Crypt_Write_aead_ready P ctx s bin p htype hstate hblk hulen hbuf hctx hlen
      (hP s p []).1
    simp [write_actions, Port_run, Crypt_Actor, hw]
  | cons q rest ih =>
    intro p ctx s bin hp hall htype hstate hblk hulen hbuf hctx
    have hlen : 0 < p.length := List.length_pos.mpr hp
    have hw := Crypt_Write_aead_ready P ctx s bin p htype hstate hblk hulen hbuf hctx hlen
      (hP s p []).1
    have hih := ih q
      { ctx with cipher_ctx := some (P.mbedtls_chachapoly_update s p.length p).2.1,
                 buffer := some (bin ++ wr p.length
                   (P.mbedtls_chachapoly_update s p.length p).2.2) }
      (P.mbedtls_chachapoly_update s p.length p).2.1
      (bin ++ wr p.length (P.mbedtls_chachapoly_update s p.length p).2.2)
      (hall q (List.mem_cons_self _ _))
      (fun r hr => hall r (List.mem_cons_of_mem _ hr))
      htype hstate hblk hulen rfl rfl
    obtain ⟨-, hst, hout⟩ := hP s p (q ++ rest.flatten)
    have hcons : write_actions (p :: q :: rest)
        = Action.A_WRITE (REBVAL.binary p) :: write_actions (q :: rest) := rfl
    have hact : Crypt_Actor P new_ctx ⟨spec, StateVal.crypt ctx⟩
        (Action.A_WRITE (REBVAL.binary p))
        = some (Outcome.ret Ret.R_ARG1, ⟨spec, StateVal.crypt
            { ctx with cipher_ctx := some (P.mbedtls_chachapoly_update s p.length p).2.1,
                       buffer := some (bin ++ wr p.length
                         (P.mbedtls_chachapoly_update s p.length p).2.2) }⟩) := by
      simp [Crypt_Actor, hw]
    rw [hcons, Port_run_cons P new_ctx _ _ _ _ _ _ _ hact hih]
    simp only [List.flatten_cons, List.length_cons, List.replicate_succ, hst, hout,
      List.append_assoc]

/-- C29 (counterexample): on a ChaCha20-Poly1305 port just opened, the Writes of `msg1` and of
`hello16` leave 16 bytes of output, while one Write of the 20 bytes `msg1 ++ hello16` leaves
the output empty: the first Write after the initialisation is taken as AAD as a whole. -/
theorem C29_counterexample :
    (Port_run toy zero_ctx (chachapoly_port Sym.SYM_ENCRYPT)
        ([Action.A_OPEN] ++ write_actions [msg1, hello16])).bind (fun r => r.2.output)
      = some [74, 103, 110, 110, 109, 74, 103, 110, 110, 109, 74, 103, 110, 110, 109, 35] ∧
    (Port_run toy zero_ctx (chachapoly_port Sym.SYM_ENCRYPT)
        ([Action.A_OPEN] ++ write_actions [msg1 ++ hello16])).bind (fun r => r.2.output)
      = some [] ∧
    (Port_run toy zero_ctx (chachapoly_port Sym.SYM_ENCRYPT) [Action.A_OPEN]).bind
        (fun r => r.2.ctx.bind (fun c => (Crypt_Init toy c).map (fun i =>
          ((Port_run toy zero_ctx ⟨r.2.spec, StateVal.crypt i.2⟩
              (write_actions [msg1, hello16])).bind (fun w => w.2.output),
           (Port_run toy zero_ctx ⟨r.2.spec, StateVal.crypt i.2⟩
              (write_actions [msg1 ++ hello16])).bind (fun w => w.2.output)))))
      = some (some [74, 103, 110, 110, 109, 74, 103, 110, 110, 109, 74, 103, 110, 110, 109, 35],
              some []) := by
  decide

/-- C29 (amended): on a ChaCha20-Poly1305 context in state Ready (the AAD has been written),
with a primitive update that succeeds and works as a stream, for every sequence of non-empty
chunks the successive Writes of the chunks all return normally and leave the port, its output
buffer included, exactly as one Write of the concatenated chunks does. -/
theorem C29_aead_streaming_when_ready (P : Prims σ) (new_ctx : CRYPT_CTX σ)
    (spec : Option PortSpec) (ctx : CRYPT_CTX σ) (s : σ) (bin : List Nat)
    (chunks : List (List Nat)) (hP : chachapoly_update_streams P)
    (htype : ctx.cipher_type = Sym.SYM_CHACHA20_POLY1305)
    (hstate : ctx.state = PortState.CRYPT_PORT_READY)
    (hblk : ctx.cipher_block_size = 0) (hulen : ctx.unprocessed_len = 0)
    (hbuf : ctx.buffer = some bin) (hctx : ctx.cipher_ctx = some s)
    (hne : chunks ≠ []) (hall : ∀ p ∈ chunks, p ≠ []) :
    ∃ port1 out,
      Port_run P new_ctx ⟨spec, StateVal.crypt ctx⟩ (write_actions chunks)
        = some (List.replicate chunks.length (Outcome.ret Ret.R_ARG1), port1) ∧
      Crypt_Actor P new_ctx ⟨spec, StateVal.crypt ctx⟩
          (Action.A_WRITE (REBVAL.binary chunks.flatten))
        = some (Outcome.ret Ret.R_ARG1, port1) ∧
      port1.output = some (bin ++ out) ∧ out.length = chunks.flatten.length := by
  cases chunks with
  | nil => exact absurd rfl hne
  | cons p rest =>
    have hp : p ≠ [] := hall p (List.mem_cons_self _ _)
    have hrun := aead_writes_flatten P new_ctx spec hP rest p ctx s bin hp
      (fun r hr => hall r (List.mem_cons_of_mem _ hr)) htype hstate hblk hulen hbuf hctx
    have hlen : 0 < (p ++ rest.flatten).length := by
      have := List.length_pos.mpr hp
      simp
      omega
    have hw := Crypt_Write_aead_ready P ctx s bin (p ++ rest.flatten) htype hstate hblk hulen
      hbuf hctx hlen (hP s (p ++ rest.flatten) []).1
    refine ⟨_, wr (p ++ rest.flatten).length
      (P.mbedtls_chachapoly_update s (p ++ rest.flatten).length (p ++ rest.flatten)).2.2,
      hrun, ?_, rfl, by simp [wr]⟩
    simp [Crypt_Actor, hw]

/-- Bytes written by a primitive that writes exactly `n` bytes are found as they are. -/
theorem wr_of_length (n : Nat) (l : List Nat) (h : l.length = n) : wr n l = l := by
  unfold wr
  rw [List.take_append_of_le_length (by omega), List.take_of_length_le (by omega)]

/-- The example ChaCha20-Poly1305 update succeeds and works as a stream. -/
theorem toy_update_streams : chachapoly_update_streams toy := by
  intro s x y
  refine ⟨rfl, ?_, ?_⟩
  · simp only [toy, List.take_length, List.map_append, List.sum_append]
    cases s.dec <;> simp [Nat.add_assoc]
  · rw [wr_of_length _ _ (by simp [toy]), wr_of_length _ _ (by simp [toy]),
      wr_of_length _ _ (by simp [toy])]
    simp only [toy, List.take_length, List.map_append]

/-- C29 (amended), at a concrete input: the chunks `msg1` and `hello5` written to the context
`chachapoly_ready` under the example primitives. -/
theorem C29_aead_streaming_when_ready_witness :
    ∃ port1 out,
      Port_run toy zero_ctx ⟨Option.none, StateVal.crypt chachapoly_ready⟩
          (write_actions [msg1, hello5])
        = some (List.replicate [msg1, hello5].length (Outcome.ret Ret.R_ARG1), port1) ∧
      Crypt_Actor toy zero_ctx ⟨Option.none, StateVal.crypt chachapoly_ready⟩
          (Action.A_WRITE (REBVAL.binary [msg1, hello5].flatten))
        = some (Outcome.ret Ret.R_ARG1, port1) ∧
      port1.output = some ([] ++ out) ∧ out.length = [msg1, hello5].flatten.length :=
  C29_aead_streaming_when_ready toy zero_ctx Option.none chachapoly_ready ⟨2, 752, true⟩ []
    [msg1, hello5] toy_update_streams (by decide) (by decide) (by decide) (by decide)
    (by decide) (by decide) (by decide) (by decide)

/-! ### Length of the output of the block ciphers -/

/-- The ECB and CBC identifiers, with what the earlier `case` labels answer. -/
theorem is_ecb_cbc_cases (t : Sym) (h : is_ecb_cbc t = true) :
    is_ecb t = true ∨
    (is_aes_ecb t = false ∧ is_aes_cbc t = true) ∨
    (is_aes_ecb t = false ∧ is_aes_cbc t = false ∧ is_camellia_ecb t = false ∧
      is_camellia_cbc t = true) ∨
    (is_aes_ecb t = false ∧ is_aes_cbc t = false ∧ is_camellia_ecb t = false ∧
      is_camellia_cbc t = false ∧ is_aria_ecb t = false ∧ is_aria_cbc t = true) := by
  cases t <;>
    simp [is_ecb_cbc, is_ecb, is_aes_ecb, is_aes_cbc, is_camellia_ecb, is_camellia_cbc,
      is_aria_ecb, is_aria_cbc] at h ⊢

/-- An ECB or CBC identifier is not `chacha20-poly1305`. -/
theorem ecb_cbc_ne_chachapoly (t : Sym) (h : is_ecb_cbc t = true) :
    t ≠ Sym.SYM_CHACHA20_POLY1305 := by
  intro ht
  subst ht
  simp [is_ecb_cbc, is_aes_ecb, is_aes_cbc, is_camellia_ecb, is_camellia_cbc, is_aria_ecb,
    is_aria_cbc] at h

/-- On an ECB or CBC context with block size 16 whose primitives succeed, `Crypt_Crypt` on at
least 16 bytes returns 0, appends as many bytes as there are in the whole blocks of the input
and reports that number. -/
theorem Crypt_Crypt_blocks (P : Prims σ) (ctx : CRYPT_CTX σ) (s : σ) (bin x : List Nat)
    (len : Nat) (hP : block_prims_succeed P) (ht : is_ecb_cbc ctx.cipher_type = true)
    (hblk : ctx.cipher_block_size = 16) (hbuf : ctx.buffer = some bin)
    (hctx : ctx.cipher_ctx = some s) (hlen : 16 ≤ len) :
    ∃ c1 out, Crypt_Crypt P ctx x len = some (0, c1, len - len % 16) ∧
      c1.buffer = some (bin ++ out) ∧ out.length = len - len % 16 := by
  obtain ⟨p1, p2, p3, p4, p5, p6⟩ := hP
  have hne : len ≠ 0 := by omega
  have hnl : ¬ len < 16 := by omega
  have hk : 16 * (len / 16) = len - len % 16 := by omega
  rcases is_ecb_cbc_cases _ ht with h | ⟨h1, h2⟩ | ⟨h1, h2, h3, h4⟩ | ⟨h1, h2, h3, h4, h5, h6⟩
  · have hsucc : ∀ b, (ecb_block P s ctx b).1 = 0 := by
      intro b
      unfold ecb_block
      split_ifs
      · exact p1 _ _ _
      · exact p3 _ _ _
      · exact p5 _ _
    obtain ⟨out, hout⟩ := ecb_out_some _ hsucc (len / 16) x
    refine ⟨{ ctx with buffer := some (bin ++ out) }, out, ?_, rfl, ?_⟩
    · rw [Crypt_Crypt_ecb P ctx s bin x len h hblk hbuf hctx hlen,
        ecb_case_blocks _ ctx bin x out len hblk hlen hout, hk]
    · rw [ecb_out_length _ _ _ _ hout, hk]
  · refine ⟨{ ctx with
        IV := wr MBEDTLS_MAX_IV_LENGTH (P.mbedtls_aes_crypt_cbc s ctx.operation
          (len - len % 16) ctx.IV (x.take (len - len % 16))).2.1,
        buffer := some (bin ++ wr (len - len % 16) (P.mbedtls_aes_crypt_cbc s ctx.operation
          (len - len % 16) ctx.IV (x.take (len - len % 16))).2.2) },
      wr (len - len % 16)
      (P.mbedtls_aes_crypt_cbc s ctx.operation (len - len % 16) ctx.IV
        (x.take (len - len % 16))).2.2, ?_, rfl, by simp [wr]⟩
    simp [Crypt_Crypt, Crypt_Crypt_switch, aes_cbc_case, is_cipher, hne, hnl, hblk, hbuf, hctx,
      h1, h2, p2]
  · refine ⟨{ ctx with
        nonce := wr MBEDTLS_MAX_IV_LENGTH (P.mbedtls_camellia_crypt_cbc s ctx.operation
          (len - len % 16) ctx.nonce (x.take (len - len % 16))).2.1,
        buffer := some (bin ++ wr (len - len % 16) (P.mbedtls_camellia_crypt_cbc s ctx.operation
          (len - len % 16) ctx.nonce (x.take (len - len % 16))).2.2) },
      wr (len - len % 16)
      (P.mbedtls_camellia_crypt_cbc s ctx.operation (len - len % 16) ctx.nonce
        (x.take (len - len % 16))).2.2, ?_, rfl, by simp [wr]⟩
    simp [Crypt_Crypt, Crypt_Crypt_switch, nonce_cbc_case, is_cipher, hne, hnl, hblk, hbuf,
      hctx, h1, h2, h3, h4, p4]
  · refine ⟨{ ctx with
        nonce := wr MBEDTLS_MAX_IV_LENGTH (P.mbedtls_aria_crypt_cbc s ctx.operation
          (len - len % 16) ctx.nonce (x.take (len - len % 16))).2.1,
        buffer := some (bin ++ wr (len - len % 16) (P.mbedtls_aria_crypt_cbc s ctx.operation
          (len - len % 16) ctx.nonce (x.take (len - len % 16))).2.2) },
      wr (len - len % 16)
      (P.mbedtls_aria_crypt_cbc s ctx.operation (len - len % 16) ctx.nonce
        (x.take (len - len % 16))).2.2, ?_, rfl, by simp [wr]⟩
    simp [Crypt_Crypt, Crypt_Crypt_switch, nonce_cbc_case, is_cipher, hne, hnl, hblk, hbuf,
      hctx, h1, h2, h3, h4, h5, h6, p6]

/-- The invariant `block_inv` carries over to a context that has the same algorithm, block size,
state and primitive context, at most 16 unprocessed bytes and an output of whole blocks. -/
theorem block_inv_of (c c1 : CRYPT_CTX σ) (m m1 : Nat) (bin1 : List Nat)
    (hinv : block_inv c m) (h1 : c1.cipher_type = c.cipher_type)
    (h2 : c1.cipher_block_size = c.cipher_block_size) (h3 : c1.state = c.state)
    (h4 : c1.cipher_ctx = c.cipher_ctx) (h5 : c1.unprocessed_len ≤ 16)
    (h6 : c1.buffer = some bin1) (h7 : bin1.length % 16 = 0)
    (h8 : bin1.length + c1.unprocessed_len = m1) : block_inv c1 m1 := by
  obtain ⟨ht, hblk, hstate, hsome, -, -⟩ := hinv
  exact ⟨h1 ▸ ht, h2.trans hblk, h3.trans hstate, h4 ▸ hsome, h5, bin1, h6, h7, h8⟩

/-- The direct part of `Crypt_Write` on a block-cipher context with an empty unprocessed buffer:
it returns `CRYPT_OK` and keeps the invariant, the byte count growing by the input length. -/
theorem Crypt_Write_direct_inv (P : Prims σ) (hP : block_prims_succeed P) (c : CRYPT_CTX σ)
    (m : Nat) (x : List Nat) (len : Nat) (hinv : block_inv c m)
    (hu : c.unprocessed_len = 0) :
    ∃ c1, Crypt_Write_direct P c 16 x len = some (CryptResult.CRYPT_OK, c1) ∧
      block_inv c1 (m + len) := by
  have hinv0 := hinv
  obtain ⟨ht, hblk, hstate, hsome, hle, bin, hbuf, hmod, hsum⟩ := hinv
  obtain ⟨s, hs⟩ := Option.isSome_iff_exists.mp hsome
  unfold Crypt_Write_direct
  by_cases h0 : len = 0
  · rw [if_pos h0]
    subst h0
    exact ⟨c, rfl, hinv0⟩
  · rw [if_neg h0]
    by_cases h16 : len > 16
    · rw [if_pos h16]
      obtain ⟨c1, out, hc, hb1, hol⟩ :=
        Crypt_Crypt_blocks P c s bin x len hP ht hblk hbuf hs (by omega)
      obtain ⟨f1, f2, f3, -, f5, f6⟩ := Crypt_Crypt_frame P c x len _ hc
      have f5 := f5 (ecb_cbc_ne_chachapoly _ ht)
      have f6 := f6 ht
      simp only at f1 f2 f3 f5 f6
      rw [hc]
      simp only
      rw [if_neg (by omega)]
      have hr : len - (len - len % 16) = len % 16 := by omega
      rw [hr]
      unfold Crypt_Write_tail
      by_cases hz : len % 16 > 0
      · rw [if_pos hz, if_neg (by simp only [MBEDTLS_MAX_BLOCK_LENGTH]; omega)]
        refine ⟨_, rfl, block_inv_of c _ m _ (bin ++ out) hinv0 f1 f2 f5 f6 ?_ hb1 ?_ ?_⟩
        · show len % 16 ≤ 16
          omega
        · simp only [List.length_append]
          omega
        · show (bin ++ out).length + len % 16 = m + len
          simp only [List.length_append]
          omega
      · rw [if_neg hz]
        refine ⟨c1, rfl, block_inv_of c c1 m _ (bin ++ out) hinv0 f1 f2 f5 f6 ?_ hb1 ?_ ?_⟩
        · omega
        · simp only [List.length_append]
          omega
        · simp only [List.length_append]
          omega
    · rw [if_neg h16]
      unfold Crypt_Write_tail
      rw [if_pos (by omega), if_neg (by simp only [MBEDTLS_MAX_BLOCK_LENGTH]; omega)]
      refine ⟨_, rfl, block_inv_of c _ m _ bin hinv0 rfl rfl rfl rfl ?_ hbuf hmod ?_⟩
      · show len ≤ 16
        omega
      · show bin.length + len = m + len
        omega

/-- A non-empty `Crypt_Write` on a block-cipher context whose primitives succeed returns
`CRYPT_OK` and keeps the invariant, the byte count growing by the input length. -/
theorem Crypt_Write_inv (P : Prims σ) (hP : block_prims_succeed P) (c : CRYPT_CTX σ)
    (n : Nat) (p : List Nat) (hinv : block_inv c n) (hpos : 0 < p.length)
    (h32 : p.length < 4294967296) :
    ∃ c1, Crypt_Write P c p = some (CryptResult.CRYPT_OK, c1) ∧
      block_inv c1 (n + p.length) := by
  have hinv0 := hinv
  obtain ⟨ht, hblk, hstate, hsome, hle, bin, hbuf, hmod, hsum⟩ := hinv
  obtain ⟨s, hs⟩ := Option.isSome_iff_exists.mp hsome
  have hne : p.length ≠ 0 := by omega
  have hs32 : sub32 16 c.unprocessed_len = 16 - c.unprocessed_len :=
    sub32_of_le 16 c.unprocessed_len hle (by omega)
  by_cases hshort : p.length < 16 - c.unprocessed_len
  · have h2 : c.unprocessed_len + p.length < 16 := by omega
    refine ⟨{ c with
        unprocessed_data := COPY_MEM c.unprocessed_data c.unprocessed_len p p.length,
        unprocessed_len := c.unprocessed_len + p.length }, ?_, ?_⟩
    · simp [Crypt_Write, Crypt_Write_body, hstate, hblk, hs32, hne, hshort, h2,
        MBEDTLS_MAX_BLOCK_LENGTH]
    · refine block_inv_of c _ n _ bin hinv0 rfl rfl rfl rfl ?_ hbuf hmod ?_
      · show c.unprocessed_len + p.length ≤ 16
        omega
      · show bin.length + (c.unprocessed_len + p.length) = n + p.length
        omega
  · by_cases hu : c.unprocessed_len = 0
    · obtain ⟨c1, hd, hi⟩ := Crypt_Write_direct_inv P hP c n p p.length hinv0 hu
      refine ⟨c1, ?_, hi⟩
      rw [← hd]
      have hs0 : sub32 16 0 = 16 := by decide
      have hn16 : ¬ p.length < 16 := by omega
      simp [Crypt_Write, Crypt_Write_body, hstate, hblk, hs0, hne, hn16, hu,
        MBEDTLS_MAX_BLOCK_LENGTH]
    · have hupos : 0 < c.unprocessed_len := by omega
      have hnb : ¬ 16 < c.unprocessed_len := by omega
      obtain ⟨c1, out, hc, hb1, hol⟩ := Crypt_Crypt_blocks P
        { c with unprocessed_data :=
            COPY_MEM c.unprocessed_data c.unprocessed_len p (16 - c.unprocessed_len) }
        s bin
        (COPY_MEM c.unprocessed_data c.unprocessed_len p (16 - c.unprocessed_len)) 16
        hP ht hblk hbuf hs (le_refl 16)
      obtain ⟨f1, f2, f3, -, f5, f6⟩ := Crypt_Crypt_frame P _ _ _ _ hc
      have f5 := f5 (ecb_cbc_ne_chachapoly _ ht)
      have f6 := f6 ht
      simp only at f1 f2 f3 f5 f6 hol
      have h16 : 16 - 16 % 16 = 16 := by norm_num
      rw [h16] at hc hol
      simp only [hstate, hblk] at hc
      have hinv1 : block_inv { c1 with unprocessed_len := 0 } (bin.length + 16) := by
        refine block_inv_of c _ n _ (bin ++ out) hinv0 f1 f2 f5 f6 (by simp) hb1 ?_ ?_
        · simp only [List.length_append]
          omega
        · simp only [List.length_append]
          omega
      obtain ⟨c2, hd, hi⟩ := Crypt_Write_direct_inv P hP { c1 with unprocessed_len := 0 }
        (bin.length + 16) (p.drop (16 - c.unprocessed_len))
        (sub32 p.length (16 - c.unprocessed_len)) hinv1 rfl
      refine ⟨c2, ?_, ?_⟩
      · rw [← hd]
        simp [Crypt_Write, Crypt_Write_body, hstate, hblk, hs32, hne, hshort, hupos, hnb,
          MBEDTLS_MAX_BLOCK_LENGTH, hc]
      · have hs32b : sub32 p.length (16 - c.unprocessed_len)
            = p.length - (16 - c.unprocessed_len) :=
          sub32_of_le _ _ (by omega) h32
        rw [hs32b] at hi
        have he : bin.length + 16 + (p.length - (16 - c.unprocessed_len)) = n + p.length := by
          omega
        rw [he] at hi
        exact hi

/-- Update on a block-cipher context whose primitives succeed returns normally, leaves an output
whose length is the byte count rounded up to a multiple of 16, and nothing unprocessed. -/
theorem Crypt_Update_inv (P : Prims σ) (hP : block_prims_succeed P) (c : CRYPT_CTX σ)
    (n : Nat) (hinv : block_inv c n) :
    ∃ c2 out, Crypt_Update P c = some (Outcome.ret Ret.R_ARG1, c2) ∧ c2.buffer = some out ∧
      out.length = round_up16 n ∧ c2.unprocessed_len = 0 := by
  obtain ⟨ht, hblk, hstate, hsome, hle, bin, hbuf, hmod, hsum⟩ := hinv
  obtain ⟨s, hs⟩ := Option.isSome_iff_exists.mp hsome
  have hnp := ecb_cbc_ne_chachapoly _ ht
  by_cases hu : c.unprocessed_len = 0
  · refine ⟨c, bin, Crypt_Update_idle P c hnp hu, hbuf, ?_, hu⟩
    unfold round_up16
    omega
  · obtain ⟨c1, out, hc, hb1, hol⟩ := Crypt_Crypt_blocks P
      { c with unprocessed_data := (CLEAR_AT c.unprocessed_data c.unprocessed_len
          (c.cipher_block_size - c.unprocessed_len)) }
      s bin
      (CLEAR_AT c.unprocessed_data c.unprocessed_len (c.cipher_block_size - c.unprocessed_len))
      16 hP ht hblk hbuf hs (le_refl 16)
    have h16 : 16 - 16 % 16 = 16 := by norm_num
    rw [h16] at hc hol
    refine ⟨{ c1 with unprocessed_len := 0 }, bin ++ out, ?_, hb1, ?_, rfl⟩
    · apply Crypt_Update_block P c c1 bin 0 16 hnp hbuf (by omega) (by omega)
      rw [hblk] at hc ⊢
      exact hc
    · simp only [List.length_append, hol]
      unfold round_up16
      omega

/-- Non-empty Writes followed by one Update on a block-cipher context whose primitives succeed:
every action returns normally, the output length is the byte count rounded up to a multiple of
16, and nothing is left unprocessed. -/
theorem writes_update_inv (P : Prims σ) (new_ctx : CRYPT_CTX σ) (spec : Option PortSpec)
    (hP : block_prims_succeed P) :
    ∀ (chunks : List (List Nat)) (c : CRYPT_CTX σ) (n : Nat), block_inv c n →
      (∀ p ∈ chunks, p ≠ []) → (∀ p ∈ chunks, p.length < 4294967296) →
      ∃ c2 out,
        Port_run P new_ctx ⟨spec, StateVal.crypt c⟩ (write_actions chunks ++ [Action.A_UPDATE])
          = some (List.replicate (chunks.length + 1) (Outcome.ret Ret.R_ARG1),
                  ⟨spec, StateVal.crypt c2⟩) ∧
        c2.buffer = some out ∧ out.length = round_up16 (n + chunks.flatten.length) ∧
        c2.unprocessed_len = 0 := by
  intro chunks
  induction chunks with
  | nil =>
    intro c n hinv _ _
    obtain ⟨c2, out, hu, hb, hl, h0⟩ := Crypt_Update_inv P hP c n hinv
    refine ⟨c2, out, ?_, hb, by simpa using hl, h0⟩
    simp [write_actions, Port_run, Crypt_Actor, hu]
  | cons p rest ih =>
    intro c n hinv hne h32
    have hp : p ≠ [] := hne p (List.mem_cons_self _ _)
    obtain ⟨c1, hw, hi⟩ := Crypt_Write_inv P hP c n p hinv (List.length_pos.mpr hp)
      (h32 p (List.mem_cons_self _ _))
    obtain ⟨c2, out, hrun, hb, hl, h0⟩ := ih c1 (n + p.length) hi
      (fun r hr => hne r (List.mem_cons_of_mem _ hr))
      (fun r hr => h32 r (List.mem_cons_of_mem _ hr))
    have hact : Crypt_Actor P new_ctx ⟨spec, StateVal.crypt c⟩
        (Action.A_WRITE (REBVAL.binary p))
        = some (Outcome.ret Ret.R_ARG1, ⟨spec, StateVal.crypt c1⟩) := by
      simp [Crypt_Actor, hw]
    have hcons : write_actions (p :: rest) ++ [Action.A_UPDATE]
        = Action.A_WRITE (REBVAL.binary p) :: (write_actions rest ++ [Action.A_UPDATE]) := rfl
    refine ⟨c2, out, ?_, hb, ?_, h0⟩
    · rw [hcons, Port_run_cons P new_ctx _ _ _ _ _ _ _ hact hrun]
      simp [List.replicate_succ]
    · rw [hl]
      simp only [List.flatten_cons, List.length_append]
      rw [Nat.add_assoc]

/-- The example block functions always succeed. -/
theorem toy_block_prims_succeed : block_prims_succeed toy :=
  ⟨fun _ _ _ => rfl, fun _ _ _ _ _ => rfl, fun _ _ _ => rfl, fun _ _ _ _ _ => rfl,
   fun _ _ => rfl, fun _ _ _ _ _ => rfl⟩

/-- C27: for every ECB or CBC algorithm, on a freshly initialised context (state Ready, empty
output, nothing unprocessed) whose primitives succeed, after any sequence of non-empty Writes
totalling `N` bytes followed by one Update, every action has returned normally, the length of
the output is `N` rounded up to the next multiple of 16 and `unprocessed_len` is 0. -/
theorem C27_block_cipher_output_length (P : Prims σ) (new_ctx : CRYPT_CTX σ)
    (spec : Option PortSpec) (ctx : CRYPT_CTX σ) (s : σ) (chunks : List (List Nat))
    (hP : block_prims_succeed P) (ht : is_ecb_cbc ctx.cipher_type = true)
    (hblk : ctx.cipher_block_size = 16) (hstate : ctx.state = PortState.CRYPT_PORT_READY)
    (hbuf : ctx.buffer = some []) (hulen : ctx.unprocessed_len = 0)
    (hctx : ctx.cipher_ctx = some s) (hne : ∀ p ∈ chunks, p ≠ [])
    (h32 : ∀ p ∈ chunks, p.length < 4294967296) :
    ∃ c2 out,
      Port_run P new_ctx ⟨spec, StateVal.crypt ctx⟩ (write_actions chunks ++ [Action.A_UPDATE])
        = some (List.replicate (chunks.length + 1) (Outcome.ret Ret.R_ARG1),
                ⟨spec, StateVal.crypt c2⟩) ∧
      c2.buffer = some out ∧ out.length = round_up16 chunks.flatten.length ∧
      c2.unprocessed_len = 0 := by
  have hinv : block_inv ctx 0 :=
    ⟨ht, hblk, hstate, by simp [hctx], by omega, [], hbuf, rfl, by simp [hulen]⟩
  obtain ⟨c2, out, hrun, hb, hl, h0⟩ :=
    writes_update_inv P new_ctx spec hP chunks ctx 0 hinv hne h32
  exact ⟨c2, out, hrun, hb, by simpa using hl, h0⟩

/-- C27, at a concrete input: Writes of 5, 17 and 16 bytes (38 in all) and Update on an
AES-128-CBC context under the example primitives leave 48 bytes of output. -/
theorem C27_block_cipher_output_length_witness :
    ∃ c2 out,
      Port_run toy zero_ctx
          ⟨Option.none, StateVal.crypt
            { chachapoly_ready with cipher_type := Sym.SYM_AES_128_CBC,
                                    cipher_block_size := 16 }⟩
          (write_actions [hello5, bytes17, hello16] ++ [Action.A_UPDATE])
        = some (List.replicate ([hello5, bytes17, hello16].length + 1)
                  (Outcome.ret Ret.R_ARG1),
                ⟨Option.none, StateVal.crypt c2⟩) ∧
      c2.buffer = some out ∧
      out.length = round_up16 [hello5, bytes17, hello16].flatten.length ∧
      c2.unprocessed_len = 0 :=
  C27_block_cipher_output_length toy zero_ctx Option.none
    { chachapoly_ready with cipher_type := Sym.SYM_AES_128_CBC, cipher_block_size := 16 }
    ⟨2, 752, true⟩ [hello5, bytes17, hello16] toy_block_prims_succeed
    (by decide) (by decide) (by decide) (by decide) (by decide) (by decide) (by decide)
    (by decide)

/-! ### The configured IV and the CBC modes -/

/-- C31 (evaluation of the code): on an AES-128-CBC port opened with the IV `iv16`, a Write of
seventeen bytes changes the configured IV field (to the last ciphertext block) and leaves the
working nonce alone, because the AES CBC case hands `ctx->IV` itself to the primitive; the next
initialisation then starts from the changed IV, so the same plaintext gives another ciphertext.
On a Camellia-128-CBC port the same script leaves the configured IV as it was, changes the
working nonce, and gives the same ciphertext again. -/
theorem C31_aes_cbc_overwrites_iv :
    (Port_run toy zero_ctx (cbc_port Sym.SYM_AES_128_CBC)
        [Action.A_OPEN, Action.A_WRITE (REBVAL.binary bytes17)]).bind
        (fun r => r.2.ctx.map (fun c => (c.IV, c.nonce, c.buffer)))
      = some (List.replicate 16 1, List.replicate 16 0, some (List.replicate 16 1)) ∧
    List.replicate 16 1 ≠ iv16 ∧
    (Port_run toy zero_ctx (cbc_port Sym.SYM_AES_128_CBC) write_reinit_write).bind
        (fun r => r.2.output) = some iv16 ∧
    (Port_run toy zero_ctx (cbc_port Sym.SYM_CAMELLIA_128_CBC)
        [Action.A_OPEN, Action.A_WRITE (REBVAL.binary bytes17)]).bind
        (fun r => r.2.ctx.map (fun c => (c.IV, c.nonce, c.buffer)))
      = some (iv16, List.replicate 16 1, some (List.replicate 16 1)) ∧
    (Port_run toy zero_ctx (cbc_port Sym.SYM_CAMELLIA_128_CBC) write_reinit_write).bind
        (fun r => r.2.output) = some (List.replicate 16 1) := by
  decide

/-! ### Buffered bytes and a change of the algorithm -/

/-- C32 (evaluation of the code): on an AES-128-ECB port, after Open, a Write of the five bytes
of `hello5` and a successful Modify of the algorithm to `camellia-128-ecb`, `unprocessed_len` is
still 5; an Update issued right after hands the five buffered bytes, zero-padded, to the
Camellia block function, whose key schedule has not been set up, and Read returns the
result. -/
theorem C32_buffered_bytes_survive_algorithm_switch :
    (Port_run toy zero_ctx (aes128_port Sym.SYM_ENCRYPT)
        [Action.A_OPEN, Action.A_WRITE (REBVAL.binary hello5),
         Action.A_MODIFY (REBVAL.word Sym.SYM_ALGORITHM)
           (REBVAL.word Sym.SYM_CAMELLIA_128_ECB)]).map (fun r => r.1)
      = some (List.replicate 3 (Outcome.ret Ret.R_ARG1)) ∧
    (Port_run toy zero_ctx (aes128_port Sym.SYM_ENCRYPT)
        [Action.A_OPEN, Action.A_WRITE (REBVAL.binary hello5),
         Action.A_MODIFY (REBVAL.word Sym.SYM_ALGORITHM)
           (REBVAL.word Sym.SYM_CAMELLIA_128_ECB)]).bind
        (fun r => r.2.ctx.map (fun c =>
          (c.cipher_type, c.state, c.unprocessed_len, c.unprocessed_data.take 5)))
      = some (Sym.SYM_CAMELLIA_128_ECB, PortState.CRYPT_PORT_NEEDS_INIT, 5, hello5) ∧
    (Port_run toy zero_ctx (aes128_port Sym.SYM_ENCRYPT)
        [Action.A_OPEN, Action.A_WRITE (REBVAL.binary hello5),
         Action.A_MODIFY (REBVAL.word Sym.SYM_ALGORITHM)
           (REBVAL.word Sym.SYM_CAMELLIA_128_ECB),
         Action.A_UPDATE, Action.A_READ]).map (fun r => r.1.drop 3)
      = some [Outcome.ret Ret.R_ARG1,
              Outcome.ret (Ret.R_RET
                (toy.mbedtls_camellia_crypt_ecb toy.malloc Operation.MBEDTLS_ENCRYPT
                  (hello5 ++ List.replicate 11 0)).2)] := by
  decide

/-! ### Rejected reconfiguration and failed Open -/

/-- C37 (counterexample): on an AES-128-ECB port in state Ready with 32 bytes of pending
output, a Modify of the direction with a word that is neither `encrypt` nor `decrypt` returns
`false` but leaves the state NeedsInit, and so does a Modify of the key with the empty binary;
the next Write then runs the initialisation, which discards the pending output. -/
theorem C37_counterexample :
    (Port_run toy zero_ctx (aes128_port Sym.SYM_ENCRYPT)
        [Action.A_OPEN, Action.A_WRITE (REBVAL.binary (hello16 ++ hello16))]).bind
        (fun r => r.2.ctx.map (fun c => (c.state, c.buffer.map List.length)))
      = some (PortState.CRYPT_PORT_READY, some 32) ∧
    (Port_run toy zero_ctx (aes128_port Sym.SYM_ENCRYPT)
        [Action.A_OPEN, Action.A_WRITE (REBVAL.binary (hello16 ++ hello16)),
         Action.A_MODIFY (REBVAL.word Sym.SYM_DIRECTION) (REBVAL.word (Sym.other 7))]).map
        (fun r => (r.1.drop 2, r.2.ctx.map (fun c => c.state)))
      = some ([Outcome.ret Ret.R_FALSE], some PortState.CRYPT_PORT_NEEDS_INIT) ∧
    (Port_run toy zero_ctx (aes128_port Sym.SYM_ENCRYPT)
        [Action.A_OPEN, Action.A_WRITE (REBVAL.binary (hello16 ++ hello16)),
         Action.A_MODIFY (REBVAL.word Sym.SYM_KEY) (REBVAL.binary [])]).map
        (fun r => (r.1.drop 2, r.2.ctx.map (fun c => c.state)))
      = some ([Outcome.ret Ret.R_FALSE], some PortState.CRYPT_PORT_NEEDS_INIT) ∧
    (Port_run toy zero_ctx (aes128_port Sym.SYM_ENCRYPT)
        [Action.A_OPEN, Action.A_WRITE (REBVAL.binary (hello16 ++ hello16)),
         Action.A_MODIFY (REBVAL.word Sym.SYM_KEY) (REBVAL.binary []),
         Action.A_WRITE (REBVAL.binary [1])]).bind
        (fun r => r.2.ctx.map (fun c => (c.state, c.buffer.map List.length)))
      = some (PortState.CRYPT_PORT_READY, some 0) := by
  decide

/-- C37 (amended): when a Modify fails validation, because `init_crypt_direction` is given a
word other than `encrypt` and `decrypt` or `init_crypt_key` is given an empty binary, the
function returns `FALSE`, the Modify returns `false`, and the context is left exactly as it was
before the call except for its state field, which is NeedsInit. -/
theorem C37_rejected_modify_resets_state_only (P : Prims σ) (ctx : CRYPT_CTX σ) (w : Sym)
    (hw : w ≠ Sym.SYM_ENCRYPT ∧ w ≠ Sym.SYM_DECRYPT) :
    init_crypt_direction ctx (some (REBVAL.word w))
      = (false, { ctx with state := PortState.CRYPT_PORT_NEEDS_INIT }) ∧
    init_crypt_key ctx (some (REBVAL.binary []))
      = (false, { ctx with state := PortState.CRYPT_PORT_NEEDS_INIT }) ∧
    Crypt_Modify P ctx (REBVAL.word Sym.SYM_DIRECTION) (REBVAL.word w)
      = (Outcome.ret Ret.R_FALSE, { ctx with state := PortState.CRYPT_PORT_NEEDS_INIT }) ∧
    Crypt_Modify P ctx (REBVAL.word Sym.SYM_KEY) (REBVAL.binary [])
      = (Outcome.ret Ret.R_FALSE, { ctx with state := PortState.CRYPT_PORT_NEEDS_INIT }) := by
  have hd : init_crypt_direction ctx (some (REBVAL.word w))
      = (false, { ctx with state := PortState.CRYPT_PORT_NEEDS_INIT }) := by
    obtain ⟨h1, h2⟩ := hw
    cases w <;> first | exact absurd rfl h1 | exact absurd rfl h2 | rfl
  have hk : init_crypt_key ctx (some (REBVAL.binary []))
      = (false, { ctx with state := PortState.CRYPT_PORT_NEEDS_INIT }) := rfl
  refine ⟨hd, hk, ?_, ?_⟩
  · simp only [Crypt_Modify, hd]
    rfl
  · simp only [Crypt_Modify, hk]
    rfl

/-- C37 (amended), at a concrete input: the context `chachapoly_ready`, in state Ready, and the
word `other 7`. -/
theorem C37_rejected_modify_resets_state_only_witness :
    chachapoly_ready.state = PortState.CRYPT_PORT_READY ∧
    Crypt_Modify toy chachapoly_ready (REBVAL.word Sym.SYM_DIRECTION) (REBVAL.word (Sym.other 7))
      = (Outcome.ret Ret.R_FALSE,
         { chachapoly_ready with state := PortState.CRYPT_PORT_NEEDS_INIT }) ∧
    Crypt_Modify toy chachapoly_ready (REBVAL.word Sym.SYM_KEY) (REBVAL.binary [])
      = (Outcome.ret Ret.R_FALSE,
         { chachapoly_ready with state := PortState.CRYPT_PORT_NEEDS_INIT }) :=
  ⟨by decide,
   (C37_rejected_modify_resets_state_only toy chachapoly_ready (Sym.other 7)
      ⟨by decide, by decide⟩).2.2.1,
   (C37_rejected_modify_resets_state_only toy chachapoly_ready (Sym.other 7)
      ⟨by decide, by decide⟩).2.2.2⟩

/-- C38 (evaluation of the code): Open on a port whose spec names a wrong direction raises
`invalid-spec` and leaves a context attached to the port's state; Open on that port with a
corrected spec is then rejected with `already-open`.  A context also stays attached when the
key or the IV is rejected. -/
theorem C38_failed_open_leaves_context :
    (Crypt_Actor toy zero_ctx bad_direction_port Action.A_OPEN).map
        (fun r => (r.1, r.2.ctx.isSome))
      = some (Outcome.trap Trap.RE_INVALID_SPEC, true) ∧
    (Crypt_Actor toy zero_ctx bad_direction_port Action.A_OPEN).bind
        (fun r => (Crypt_Actor toy zero_ctx
          { r.2 with spec := (aes128_port Sym.SYM_ENCRYPT).spec } Action.A_OPEN).map
          (fun q => q.1))
      = some (Outcome.trap Trap.RE_ALREADY_OPEN) ∧
    (Crypt_Actor toy zero_ctx (aes128_port Sym.SYM_ENCRYPT) Action.A_OPEN).map (fun r => r.1)
      = some (Outcome.ret Ret.R_ARG1) ∧
    (Crypt_Actor toy zero_ctx
        (closed_port Sym.SYM_AES_128_ECB REBVAL.none [] Sym.SYM_ENCRYPT) Action.A_OPEN).map
        (fun r => (r.1, r.2.ctx.isSome))
      = some (Outcome.trap Trap.RE_INVALID_SPEC, true) ∧
    (Crypt_Actor toy zero_ctx
        (closed_port Sym.SYM_AES_128_ECB (REBVAL.word Sym.SYM_KEY) zero_key16 Sym.SYM_ENCRYPT)
        Action.A_OPEN).map (fun r => (r.1, r.2.ctx.isSome))
      = some (Outcome.trap Trap.RE_INVALID_SPEC, true) := by
  decide

/-! ### The initial counter of ChaCha20 -/

/-- Four bytes put together by shifts and bitwise or are their big-endian value. -/
theorem be32_eq (a b c d : Nat) (ha : a < 256) (hb : b < 256) (hc : c < 256) (hd : d < 256) :
    ((((a % 256) <<< 24) % 4294967296) ||| (((b % 256) <<< 16) % 4294967296)
      ||| (((c % 256) <<< 8) % 4294967296) ||| (d % 256))
      = a * 2 ^ 24 + b * 2 ^ 16 + c * 2 ^ 8 + d := by
  rw [Nat.mod_eq_of_lt ha, Nat.mod_eq_of_lt hb, Nat.mod_eq_of_lt hc, Nat.mod_eq_of_lt hd]
  simp only [Nat.shiftLeft_eq]
  rw [Nat.mod_eq_of_lt (by omega), Nat.mod_eq_of_lt (by omega), Nat.mod_eq_of_lt (by omega)]
  rw [Nat.or_assoc, Nat.or_assoc]
  have h1 : c * 2 ^ 8 ||| d = c * 2 ^ 8 + d := by
    have := Nat.mul_add_lt_is_or (i := 8) (b := d) (by omega) c
    rw [Nat.mul_comm] at this
    exact this.symm
  have h2 : b * 2 ^ 16 ||| (c * 2 ^ 8 + d) = b * 2 ^ 16 + (c * 2 ^ 8 + d) := by
    have := Nat.mul_add_lt_is_or (i := 16) (b := c * 2 ^ 8 + d) (by omega) b
    rw [Nat.mul_comm] at this
    exact this.symm
  have h3 : a * 2 ^ 24 ||| (b * 2 ^ 16 + (c * 2 ^ 8 + d))
      = a * 2 ^ 24 + (b * 2 ^ 16 + (c * 2 ^ 8 + d)) := by
    have := Nat.mul_add_lt_is_or (i := 24) (b := b * 2 ^ 16 + (c * 2 ^ 8 + d)) (by omega) a
    rw [Nat.mul_comm] at this
    exact this.symm
  rw [h1, h2, h3]
  omega

/-- A byte read from an array of bytes is below 256. -/
theorem getD_lt_256 (l : List Nat) (i : Nat) (h : ∀ b ∈ l, b < 256) : l.getD i 0 < 256 := by
  by_cases hi : i < l.length
  · rw [List.getD_eq_getElem _ _ hi]
    exact h _ (List.getElem_mem hi)
  · rw [List.getD_eq_default _ _ (by omega)]
    omega

/-- C35: when `Crypt_Init` runs for `chacha20` and the key setup succeeds, the stream is started
by `mbedtls_chacha20_starts` on the configured IV (the nonce is its first 12 bytes) with the
initial counter `IV[12] * 2^24 + IV[13] * 2^16 + IV[14] * 2^8 + IV[15]`, a 32-bit value; the
result of that call is the result of `Crypt_Init`, and the configured IV is not changed. -/
theorem C35_chacha20_initial_counter (P : Prims σ) (ctx : CRYPT_CTX σ) (s : σ)
    (bin : List Nat) (htype : ctx.cipher_type = Sym.SYM_CHACHA20)
    (hbuf : ctx.buffer = some bin) (hctx : ctx.cipher_ctx = some s)
    (hbyte : ∀ b ∈ ctx.IV, b < 256)
    (hkey : (P.mbedtls_chacha20_setkey s ctx.key).1 = 0) :
    MBEDTLS_GET_UINT32_BE ctx.IV 12
      = ctx.IV.getD 12 0 * 2 ^ 24 + ctx.IV.getD 13 0 * 2 ^ 16 + ctx.IV.getD 14 0 * 2 ^ 8
        + ctx.IV.getD 15 0 ∧
    MBEDTLS_GET_UINT32_BE ctx.IV 12 < 2 ^ 32 ∧
    ∃ c1, Crypt_Init P ctx
        = some ((P.mbedtls_chacha20_starts (P.mbedtls_chacha20_setkey s ctx.key).2 ctx.IV
            (ctx.IV.getD 12 0 * 2 ^ 24 + ctx.IV.getD 13 0 * 2 ^ 16 + ctx.IV.getD 14 0 * 2 ^ 8
              + ctx.IV.getD 15 0)).1, c1) ∧
      c1.cipher_ctx
        = some (P.mbedtls_chacha20_starts (P.mbedtls_chacha20_setkey s ctx.key).2 ctx.IV
            (ctx.IV.getD 12 0 * 2 ^ 24 + ctx.IV.getD 13 0 * 2 ^ 16 + ctx.IV.getD 14 0 * 2 ^ 8
              + ctx.IV.getD 15 0)).2 ∧
      c1.IV = ctx.IV := by
  have h12 := getD_lt_256 ctx.IV 12 hbyte
  have h13 := getD_lt_256 ctx.IV 13 hbyte
  have h14 := getD_lt_256 ctx.IV 14 hbyte
  have h15 := getD_lt_256 ctx.IV 15 hbyte
  have hcnt : MBEDTLS_GET_UINT32_BE ctx.IV 12
      = ctx.IV.getD 12 0 * 2 ^ 24 + ctx.IV.getD 13 0 * 2 ^ 16 + ctx.IV.getD 14 0 * 2 ^ 8
        + ctx.IV.getD 15 0 := by
    unfold MBEDTLS_GET_UINT32_BE
    exact be32_eq _ _ _ _ h12 h13 h14 h15
  refine ⟨hcnt, by rw [hcnt]; omega, ?_⟩
  rw [← hcnt]
  by_cases he : (P.mbedtls_chacha20_starts (P.mbedtls_chacha20_setkey s ctx.key).2 ctx.IV
      (MBEDTLS_GET_UINT32_BE ctx.IV 12)).1 = 0
  · refine ⟨{ ctx with
        buffer := some [], unprocessed_data := CLEAR MBEDTLS_MAX_BLOCK_LENGTH,
        unprocessed_len := 0,
        cipher_ctx := some (P.mbedtls_chacha20_starts (P.mbedtls_chacha20_setkey s ctx.key).2
          ctx.IV (MBEDTLS_GET_UINT32_BE ctx.IV 12)).2,
        state := PortState.CRYPT_PORT_READY }, ?_, rfl, rfl⟩
    simp [Crypt_Init, Crypt_Init_switch, is_cipher, is_aes_ecb, is_aes_cbc, is_camellia_ecb,
      is_camellia_cbc, is_aria_ecb, is_aria_cbc, htype, hbuf, hctx, hkey, he]
  · refine ⟨{ ctx with
        buffer := some [], unprocessed_data := CLEAR MBEDTLS_MAX_BLOCK_LENGTH,
        unprocessed_len := 0,
        cipher_ctx := some (P.mbedtls_chacha20_starts (P.mbedtls_chacha20_setkey s ctx.key).2
          ctx.IV (MBEDTLS_GET_UINT32_BE ctx.IV 12)).2 }, ?_, rfl, rfl⟩
    simp [Crypt_Init, Crypt_Init_switch, is_cipher, is_aes_ecb, is_aes_cbc, is_camellia_ecb,
      is_camellia_cbc, is_aria_ecb, is_aria_cbc, htype, hbuf, hctx, hkey, he]

/-- C35, at a concrete input: a ChaCha20 context whose IV ends in the bytes `1, 2, 3, 4`; the
initial counter is `0x01020304`. -/
theorem C35_chacha20_initial_counter_witness :
    MBEDTLS_GET_UINT32_BE (List.replicate 12 9 ++ [1, 2, 3, 4]) 12 = 16909060 ∧
    ∃ c1, Crypt_Init toy
        { chachapoly_ready with cipher_type := Sym.SYM_CHACHA20, cipher_block_size := 16,
                                IV := (List.replicate 12 9 ++ [1, 2, 3, 4]) }
        = some ((toy.mbedtls_chacha20_starts
            (toy.mbedtls_chacha20_setkey ⟨2, 752, true⟩ chachapoly_ready.key).2
            (List.replicate 12 9 ++ [1, 2, 3, 4]) 16909060).1, c1) ∧
      c1.cipher_ctx
        = some (toy.mbedtls_chacha20_starts
            (toy.mbedtls_chacha20_setkey ⟨2, 752, true⟩ chachapoly_ready.key).2
            (List.replicate 12 9 ++ [1, 2, 3, 4]) 16909060).2 ∧
      c1.IV = List.replicate 12 9 ++ [1, 2, 3, 4] :=
  ⟨((C35_chacha20_initial_counter toy
      { chachapoly_ready with cipher_type := Sym.SYM_CHACHA20, cipher_block_size := 16,
                              IV := (List.replicate 12 9 ++ [1, 2, 3, 4]) }
      ⟨2, 752, true⟩ [] (by decide) (by decide) (by decide) (by decide) (by decide)).1).trans
      (by decide),
   (C35_chacha20_initial_counter toy
      { chachapoly_ready with cipher_type := Sym.SYM_CHACHA20, cipher_block_size := 16,
                              IV := (List.replicate 12 9 ++ [1, 2, 3, 4]) }
      ⟨2, 752, true⟩ [] (by decide) (by decide) (by decide) (by decide) (by decide)).2.2⟩

/-! ### The two directions of the duplex context -/

/-- C36: on a duplex context, `/encrypt` returns a binary and changes `local_chacha` only, and
its result depends on the local sub-context only; `/decrypt` changes `remote_chacha` only, and
its result depends on the remote sub-context only. -/
theorem C36_duplex_direction_independence (L : ChaChaLib χ π)
    (new_ctx : chacha20poly1305_ctx χ) (c : chacha20poly1305_ctx χ)
    (plain aad cipher raad : List Nat) :
    (∃ out lc, chacha20poly1305 L new_ctx (encrypt_args c plain aad)
        = (NativeResult.R_ARG1_binary out, some { c with local_chacha := lc })) ∧
    (∀ c2 : chacha20poly1305_ctx χ, c2.local_chacha = c.local_chacha →
      c2.local_iv = c.local_iv →
      (chacha20poly1305 L new_ctx (encrypt_args c2 plain aad)).1
        = (chacha20poly1305 L new_ctx (encrypt_args c plain aad)).1 ∧
      (chacha20poly1305 L new_ctx (encrypt_args c2 plain aad)).2.map (fun r => r.local_chacha)
        = (chacha20poly1305 L new_ctx (encrypt_args c plain aad)).2.map
            (fun r => r.local_chacha)) ∧
    (∃ rc, (chacha20poly1305 L new_ctx (decrypt_args c cipher raad)).2
        = some { c with remote_chacha := rc }) ∧
    (∀ c2 : chacha20poly1305_ctx χ, c2.remote_chacha = c.remote_chacha →
      c2.remote_iv = c.remote_iv →
      (chacha20poly1305 L new_ctx (decrypt_args c2 cipher raad)).1
        = (chacha20poly1305 L new_ctx (decrypt_args c cipher raad)).1 ∧
      (chacha20poly1305 L new_ctx (decrypt_args c2 cipher raad)).2.map
          (fun r => r.remote_chacha)
        = (chacha20poly1305 L new_ctx (decrypt_args c cipher raad)).2.map
            (fun r => r.remote_chacha)) := by
  refine ⟨⟨_, _, by simp only [chacha20poly1305, encrypt_args]; rfl⟩, ?_, ?_, ?_⟩
  · intro c2 h1 h2
    simp [chacha20poly1305, encrypt_args, h1, h2]
  · simp only [chacha20poly1305, decrypt_args]
    simp only [Bool.false_eq_true, if_false, if_true]
    split_ifs <;> exact ⟨_, rfl⟩
  · intro c2 h1 h2
    simp only [chacha20poly1305, decrypt_args, h1, h2]
    simp only [Bool.false_eq_true, if_false, if_true]
    split_ifs <;> simp

/-- C36, at a concrete input: `/encrypt` on the context `duplex_ones` and on a context with
another remote sub-context return the same binary. -/
theorem C36_duplex_direction_independence_witness :
    (chacha20poly1305 toyLib zero_duplex
        (encrypt_args { duplex_ones with remote_chacha := 9, remote_iv := iv16.take 12 }
          hello5 msg1)).1
      = (chacha20poly1305 toyLib zero_duplex (encrypt_args duplex_ones hello5 msg1)).1 ∧
    (chacha20poly1305 toyLib zero_duplex
        (decrypt_args { duplex_ones with local_chacha := 9, local_iv := iv16.take 12 }
          (hello16 ++ hello16) msg1)).1
      = (chacha20poly1305 toyLib zero_duplex
          (decrypt_args duplex_ones (hello16 ++ hello16) msg1)).1 :=
  ⟨((C36_duplex_direction_independence toyLib zero_duplex duplex_ones hello5 msg1
      (hello16 ++ hello16) msg1).2.1
      { duplex_ones with remote_chacha := 9, remote_iv := iv16.take 12 } rfl rfl).1,
   ((C36_duplex_direction_independence toyLib zero_duplex duplex_ones hello5 msg1
      (hello16 ++ hello16) msg1).2.2.2
      { duplex_ones with local_chacha := 9, local_iv := iv16.take 12 } rfl rfl).1⟩

/-! ### Releasing a context -/

/-- C39: `crypt_context_free` on a non-null context hands to `Free_Series` an output series
whose whole capacity is zero (when the context has an output series) and leaves the context
zero-filled: key, IV, working nonce and unprocessed data are all zero, the lengths are 0, the
state is the zero state, and the pointers to the primitive context and to the output series are
null; on a null argument it does nothing. -/
theorem C39_context_wiped_on_release (ctx : CRYPT_CTX σ) (bin data : List Nat) :
    (crypt_context_free (some ctx) data).2 = some zero_ctx ∧
    (zero_ctx : CRYPT_CTX σ).key = List.replicate MBEDTLS_MAX_KEY_LENGTH 0 ∧
    (zero_ctx : CRYPT_CTX σ).IV = List.replicate MBEDTLS_MAX_IV_LENGTH 0 ∧
    (zero_ctx : CRYPT_CTX σ).nonce = List.replicate MBEDTLS_MAX_IV_LENGTH 0 ∧
    (zero_ctx : CRYPT_CTX σ).unprocessed_data = List.replicate MBEDTLS_MAX_BLOCK_LENGTH 0 ∧
    (zero_ctx : CRYPT_CTX σ).unprocessed_len = 0 ∧ (zero_ctx : CRYPT_CTX σ).key_bitlen = 0 ∧
    (zero_ctx : CRYPT_CTX σ).cipher_block_size = 0 ∧
    (zero_ctx : CRYPT_CTX σ).state = PortState.CRYPT_PORT_CLOSED ∧
    (zero_ctx : CRYPT_CTX σ).cipher_ctx = Option.none ∧
    (zero_ctx : CRYPT_CTX σ).buffer = Option.none ∧
    (crypt_context_free (some { ctx with buffer := some bin }) data).1
      = some (List.replicate data.length 0) ∧
    (crypt_context_free (some { ctx with buffer := Option.none }) data).1 = Option.none ∧
    crypt_context_free (Option.none : Option (CRYPT_CTX σ)) data
      = (Option.none, Option.none) := by
  refine ⟨rfl, rfl, rfl, rfl, rfl, rfl, rfl, rfl, rfl, rfl, rfl, ?_, rfl, rfl⟩
  simp [crypt_context_free, CLEAR_AT]

/-! ### The Poly1305 input of `/decrypt` -/

theorem zeropad_take (r : Nat) (h0 : r % 16 ≠ 0) :
    zeropad.take (16 - r % 16) = List.replicate (16 - r % 16) 0 := by
  have h : r % 16 < 16 := Nat.mod_lt _ (by decide)
  have hc : ∀ k, k < 16 → k ≠ 0 → zeropad.take (16 - k) = List.replicate (16 - k) 0 := by
    decide
  exact hc _ h h0

/-- The `/decrypt` branch feeds Poly1305 the chunks `mac_chunks` built from the AAD, the first
`len` bytes of the `cipher` argument and the trailer `decrypt_trailer`. -/
theorem decrypt_mac_tag_chunks (L : ChaChaLib χ π) (key aad cipher : List Nat) (len : Nat)
    (hlen : len ≤ cipher.length) :
    decrypt_mac_tag L key aad cipher len
      = wr POLY1305_TAGLEN (L.poly1305_finish
          ((mac_chunks aad (cipher.take len) (decrypt_trailer aad.length len)).foldl
            L.poly1305_update (L.poly1305_init key))) := by
  have hl : (cipher.take len).length = len := by simp [hlen]
  have ht : (decrypt_trailer aad.length len).take 16 = decrypt_trailer aad.length len := by
    simp [decrypt_trailer, U32TO8_LE]
  unfold decrypt_mac_tag mac_chunks mac_pad
  rw [hl]
  simp only [List.take_length]
  change wr POLY1305_TAGLEN (L.poly1305_finish (L.poly1305_update _
    ((decrypt_trailer aad.length len).take 16))) = _
  rw [ht]
  by_cases h1 : aad.length % 16 ≠ 0 <;> by_cases h2 : len % 16 ≠ 0
  · simp only [h1, h2, if_true, zeropad_take _ h1, zeropad_take _ h2, ne_eq, not_false_eq_true]
    simp [List.foldl]
  · simp only [h1, h2, if_true, if_false, zeropad_take _ h1, ne_eq, not_false_eq_true]
    simp [List.foldl]
  · simp only [h1, h2, if_true, if_false, zeropad_take _ h2, ne_eq, not_false_eq_true]
    simp [List.foldl]
  · simp only [h1, h2, if_false]
    simp [List.foldl]

theorem le64_of_u32 (v : Nat) (h : v < 4294967296) :
    U32TO8_LE v ++ [0, 0, 0, 0] = le64 v := by
  simp only [U32TO8_LE, le64, List.cons_append, List.nil_append]
  have h4 : v / 4294967296 = 0 := Nat.div_eq_of_lt h
  have h5 : v / 1099511627776 = 0 := Nat.div_eq_of_lt (by omega)
  have h6 : v / 281474976710656 = 0 := Nat.div_eq_of_lt (by omega)
  have h7 : v / 72057594037927936 = 0 := Nat.div_eq_of_lt (by omega)
  rw [h4, h5, h6, h7]

/-- C33, refuted as stated: with helpers whose tag is the first 16 bytes fed to Poly1305, an
empty AAD and the 32-byte argument `hello16 ++ hello16`, the tag computed by `/decrypt` is the
ciphertext payload `hello16`, whereas the sequence of the claim, with the decrypted candidate in
place of the payload, gives the candidate, which differs; so the call accepts the argument whose
last 16 bytes are the payload and rejects the one whose last 16 bytes are the candidate. -/
theorem C33_counterexample :
    decrypt_mac_tag feed_head (feed_head.chacha20_poly1305_key 2).2 [] (hello16 ++ hello16) 16
      = hello16 ∧
    (feed_head.chacha20_encrypt 2 (hello16 ++ hello16) 16).2
      = hello16.map (fun b => Nat.xor b 2) ∧
    wr POLY1305_TAGLEN (feed_head.poly1305_finish
      ((mac_chunks [] (hello16.map (fun b => Nat.xor b 2)) (decrypt_trailer 0 16)).foldl
        feed_head.poly1305_update
        (feed_head.poly1305_init (feed_head.chacha20_poly1305_key 2).2)))
      = hello16.map (fun b => Nat.xor b 2) ∧
    hello16.map (fun b => Nat.xor b 2) ≠ hello16 ∧
    (chacha20poly1305 feed_head zero_duplex
        (decrypt_args duplex_ones (hello16 ++ hello16) [])).1
      = NativeResult.R_ARG1_binary (hello16.map (fun b => Nat.xor b 2)) ∧
    (chacha20poly1305 feed_head zero_duplex
        (decrypt_args duplex_ones (hello16 ++ hello16.map (fun b => Nat.xor b 2)) [])).1
      = NativeResult.R_NONE := by
  decide

/-- C33, amended: in `/decrypt` with an argument `cipher` of more than 16 bytes, Poly1305 is fed,
in this order, the AAD, zero padding to a multiple of 16, the first `len(cipher) - 16` bytes of
`cipher` itself (the ciphertext payload), zero padding to a multiple of 16, and the 16-byte
trailer; the resulting tag is compared with the last 16 bytes of `cipher`, and the decrypted
bytes are returned when they match and `none` otherwise. -/
theorem C33_duplex_mac_input (L : ChaChaLib χ π) (new_ctx c : chacha20poly1305_ctx χ)
    (cipher aad : List Nat) (h : POLY1305_TAGLEN < cipher.length) :
    (chacha20poly1305 L new_ctx (decrypt_args c cipher aad)).1
      = if L.poly1305_verify
            (wr POLY1305_TAGLEN (L.poly1305_finish
              ((mac_chunks aad (cipher.take (cipher.length - POLY1305_TAGLEN))
                  (decrypt_trailer aad.length (cipher.length - POLY1305_TAGLEN))).foldl
                L.poly1305_update
                (L.poly1305_init (L.chacha20_poly1305_key
                  (L.chacha20_encrypt (L.chacha20_ivsetup c.remote_chacha c.remote_iv 12 1 aad)
                    cipher (cipher.length - POLY1305_TAGLEN)).1).2))))
            (cipher.drop (cipher.length - POLY1305_TAGLEN))
        then NativeResult.R_ARG1_binary (wr (cipher.length - POLY1305_TAGLEN)
          (L.chacha20_encrypt (L.chacha20_ivsetup c.remote_chacha c.remote_iv 12 1 aad)
            cipher (cipher.length - POLY1305_TAGLEN)).2)
        else NativeResult.R_NONE := by
  have hpos : ¬ ((cipher.length : Int) - (POLY1305_TAGLEN : Int) ≤ 0) := by
    simp only [POLY1305_TAGLEN] at h ⊢; omega
  have hnat : ((cipher.length : Int) - (POLY1305_TAGLEN : Int)).toNat
      = cipher.length - POLY1305_TAGLEN := by
    simp only [POLY1305_TAGLEN] at h ⊢; omega
  simp only [chacha20poly1305, decrypt_args, Bool.false_eq_true, if_false, if_true, hpos, hnat]
  rw [decrypt_mac_tag_chunks L _ aad cipher _ (Nat.sub_le _ _)]
  split_ifs <;> simp_all

/-- C33 (amended), at a concrete input: with the AAD `msg1` the 32-byte argument
`hello16 ++ hello16` is rejected. -/
theorem C33_duplex_mac_input_witness :
    POLY1305_TAGLEN < (hello16 ++ hello16).length ∧
    (chacha20poly1305 feed_head zero_duplex
        (decrypt_args duplex_ones (hello16 ++ hello16) msg1)).1 = NativeResult.R_NONE :=
  ⟨by decide,
   (C33_duplex_mac_input feed_head zero_duplex duplex_ones (hello16 ++ hello16) msg1
      (by decide)).trans (by decide)⟩

/-- C34, refuted as stated: with helpers whose tag is the last 16 bytes fed to Poly1305, the
4-byte AAD `msg1` and a 16-byte payload, the trailer fed by `/decrypt` starts with the encoding of
13, not of the AAD length 4; so the call accepts the argument that ends in the encodings of 13 and
16 and rejects the one that ends in the encodings of 4 and 16. -/
theorem C34_counterexample :
    msg1.length = 4 ∧
    decrypt_mac_tag feed_tail (feed_tail.chacha20_poly1305_key 2).2 msg1 (hello16 ++ hello16) 16
      = le64 13 ++ le64 16 ∧
    le64 13 ++ le64 16 ≠ le64 4 ++ le64 16 ∧
    (chacha20poly1305 feed_tail zero_duplex
        (decrypt_args duplex_ones (hello16 ++ (le64 13 ++ le64 16)) msg1)).1
      = NativeResult.R_ARG1_binary (hello16.map (fun b => Nat.xor b 2)) ∧
    (chacha20poly1305 feed_tail zero_duplex
        (decrypt_args duplex_ones (hello16 ++ (le64 4 ++ le64 16)) msg1)).1
      = NativeResult.R_NONE := by
  decide

/-- C34, amended: in `/decrypt`, for every AAD of length n and every argument `cipher` of more
than 16 bytes (a series, so shorter than 2^32 bytes), the last chunk fed to the MAC is a 16-byte
trailer whose first 8 bytes are the little-endian encoding of 5 when n = 5 and of 13 otherwise
(so of n exactly when n is 5 or 13), and whose last 8 bytes are the little-endian encoding of the
payload length `len(cipher) - 16`. -/
theorem C34_duplex_length_trailer (L : ChaChaLib χ π) (key aad cipher : List Nat)
    (hlen : POLY1305_TAGLEN < cipher.length) (hser : cipher.length < 4294967296) :
    decrypt_mac_tag L key aad cipher (cipher.length - POLY1305_TAGLEN)
      = wr POLY1305_TAGLEN (L.poly1305_finish (L.poly1305_update
          (([aad] ++ mac_pad aad.length ++ [cipher.take (cipher.length - POLY1305_TAGLEN)]
              ++ mac_pad (cipher.length - POLY1305_TAGLEN)).foldl
            L.poly1305_update (L.poly1305_init key))
          (decrypt_trailer aad.length (cipher.length - POLY1305_TAGLEN)))) ∧
    (decrypt_trailer aad.length (cipher.length - POLY1305_TAGLEN)).length = 16 ∧
    (decrypt_trailer aad.length (cipher.length - POLY1305_TAGLEN)).take 8
      = le64 (if aad.length = 5 then 5 else 13) ∧
    (decrypt_trailer aad.length (cipher.length - POLY1305_TAGLEN)).drop 8
      = le64 (cipher.length - POLY1305_TAGLEN) ∧
    (aad.length = 5 ∨ aad.length = 13 →
      (decrypt_trailer aad.length (cipher.length - POLY1305_TAGLEN)).take 8
        = le64 aad.length) := by
  have hl : (cipher.take (cipher.length - POLY1305_TAGLEN)).length
      = cipher.length - POLY1305_TAGLEN := by simp
  have hmod : (cipher.length - POLY1305_TAGLEN) % 4294967296
      = cipher.length - POLY1305_TAGLEN := Nat.mod_eq_of_lt (by omega)
  have htake : (decrypt_trailer aad.length (cipher.length - POLY1305_TAGLEN)).take 8
      = le64 (if aad.length = 5 then 5 else 13) := by
    rw [← le64_of_u32 _ (by split_ifs <;> decide)]
    simp [decrypt_trailer, U32TO8_LE]
  refine ⟨?_, by simp [decrypt_trailer, U32TO8_LE], htake, ?_, ?_⟩
  · rw [decrypt_mac_tag_chunks L key aad cipher _ (Nat.sub_le _ _)]
    simp only [mac_chunks, hl, List.foldl_append, List.foldl_cons, List.foldl_nil]
  · rw [← le64_of_u32 _ (by omega)]
    simp [decrypt_trailer, U32TO8_LE, hmod]
  · rw [htake]
    rintro (h | h) <;> simp [h]

/-- C34 (amended), at a concrete input: for the 32-byte argument `hello16 ++ hello16` and the
AAD `msg1` the trailer is the encoding of 13 followed by the encoding of 16. -/
theorem C34_duplex_length_trailer_witness :
    POLY1305_TAGLEN < (hello16 ++ hello16).length ∧
    (hello16 ++ hello16).length < 4294967296 ∧
    (decrypt_trailer msg1.length ((hello16 ++ hello16).length - POLY1305_TAGLEN)).take 8
      = le64 (if msg1.length = 5 then 5 else 13) ∧
    (decrypt_trailer msg1.length ((hello16 ++ hello16).length - POLY1305_TAGLEN)).drop 8
      = le64 ((hello16 ++ hello16).length - POLY1305_TAGLEN) :=
  ⟨by decide, by decide,
   (C34_duplex_length_trailer feed_tail [] msg1 (hello16 ++ hello16) (by decide)
      (by decide)).2.2.1,
   (C34_duplex_length_trailer feed_tail [] msg1 (hello16 ++ hello16) (by decide)
      (by decide)).2.2.2.1⟩

end Theorems

end Crypt
